import Mathlib

/-!
# gostruct: schema-to-code synthesis (`generate.go`)

A shallow embedding of `buildCruxFile`, of the generated utility functions
`Between`, `InArray`, `ValidateField` and `Save`, and of `handleTable` with the file
builders it calls, followed by the theorems that settle the specification's claims
about them.

Go strings are Lean `String`s, Go slices are `List`s, a Go `error` is a `String`
inside `Except`.  The text that `buildCruxFile` emits is kept verbatim.
-/

namespace Generate

/-! ## Data model -/

/-- The `sql.NullString` of `database/sql`: a scanned NULL leaves `String` empty. -/
structure NullString where
  String : String
  Valid : Bool
deriving DecidableEq, Repr

/-- The row type `TableObj` (generate.go, lines 19-27). -/
structure TableObj where
  Name : String
  IsNullable : String
  Key : String
  DataType : String
  ColumnType : String
  Default : NullString
  Extra : NullString
deriving DecidableEq, Repr

/-- The type `UsedColumn` (generate.go, lines 29-31). -/
structure UsedColumn where
  Name : String
deriving DecidableEq, Repr

/-- The type `UniqueValues` (generate.go, lines 33-35). -/
structure UniqueValues where
  Value : NullString
deriving DecidableEq, Repr

/-- The receiver `Gostruct`; its declaration is outside the given sources, the
fields are the ones `generate.go` reads. -/
structure Gostruct where
  Username : String
  Password : String
  Host : String
  Port : String
  Database : String
deriving DecidableEq, Repr

/-- What `buildCruxFile` uses from outside `generate.go`:
`uppercaseFirst` (a helper of the package declared in another file),
`strings.ToLower`, and the connection `con`, of which only
`con.Query(q)` for the distinct values of a column is used: it yields an error
or the scanned rows. -/
structure Env where
  uppercaseFirst : String → String
  toLower : String → String
  query : String → Except String (List UniqueValues)

/-- The locals and globals that the column loop of `buildCruxFile` updates
(generate.go, lines 238-275). -/
structure CruxState where
  usedColumns : List UsedColumn
  questionMarks : List String
  string1 : String
  string2 : String
  primaryKeys : List String
  primaryKeyTypes : List String
  importTime : Bool
  importDate : Bool
  exampleIdStr : String
  exampleColumn : String
  exampleColumnStr : String
  exampleOrderStr : String
deriving DecidableEq, Repr

/-! ## The column loop of `buildCruxFile` -/

/-- The `for rows.Next()` loop of lines 303-309: `isBool` is cleared by every
value that is neither `"0"` nor `"1"`. -/
def scanIsBool : List UniqueValues → Bool → Bool
  | [], isBool => isBool
  | uObj :: rows, isBool =>
    if uObj.Value.String ≠ "0" ∧ uObj.Value.String ≠ "1" then scanIsBool rows false
    else scanIsBool rows isBool

/-- The `switch object.DataType` of lines 288-361.  Returns `isBool`, `dataType`
and the updated state, or the error of the distinct-values query. -/
def typeSwitch (env : Env) (gs : Gostruct) (table : String) (i : Nat) (object : TableObj)
    (st : CruxState) : Except String (Bool × String × CruxState) :=
  let isBool := true
  if object.DataType = "int" then
    let isBool := false
    if object.IsNullable = "NO" then .ok (isBool, "int", st)
    else .ok (isBool, "sql.NullInt64", st)
  else if object.DataType = "tinyint" then
    match env.query ("SELECT DISTINCT(`" ++ object.Name ++ "`) FROM " ++ gs.Database ++ "." ++ table) with
    | .error err => .error err
    | .ok rows =>
      let isBool := scanIsBool rows isBool
      if isBool then
        if object.IsNullable = "NO" then .ok (isBool, "bool", st)
        else .ok (isBool, "sql.NullBool", st)
      else
        if object.IsNullable = "NO" then .ok (isBool, "int", st)
        else .ok (isBool, "sql.NullInt64", st)
  else if object.DataType = "bool" ∨ object.DataType = "boolean" then
    if object.IsNullable = "NO" then .ok (isBool, "bool", st)
    else .ok (isBool, "sql.NullBool", st)
  else if object.DataType = "float" ∨ object.DataType = "decimal" then
    let isBool := false
    if object.IsNullable = "NO" then .ok (isBool, "float64", st)
    else .ok (isBool, "sql.NullFloat64", st)
  else if object.DataType = "date" ∨ object.DataType = "datetime"
      ∨ object.DataType = "timestamp" then
    let isBool := false
    if object.IsNullable = "NO" then
      .ok (isBool, "time.Time", { st with importTime := true })
    else
      .ok (isBool, "date.NullTime", { st with importDate := true })
  else
    let isBool := false
    if object.IsNullable = "NO" then
      if i > 1 ∧ st.exampleColumn = "" then
        .ok (isBool, "string", { st with
          exampleColumn := object.Name
          exampleColumnStr := env.uppercaseFirst object.Name ++ " = \"some string\"" })
      else .ok (isBool, "string", st)
    else
      if i > 1 ∧ st.exampleColumn = "" then
        .ok (isBool, "sql.NullString", { st with
          exampleColumn := object.Name
          exampleColumnStr := env.uppercaseFirst object.Name ++ ".String = \"some string\"" })
      else .ok (isBool, "sql.NullString", st)

/-- The `if object.Key == "PRI"` block of lines 363-381.  Returns the possibly
re-classified `dataType` and the updated state. -/
def primaryKeyBlock (object : TableObj) (isBool : Bool) (dataType : String)
    (st : CruxState) : String × CruxState :=
  if object.Key = "PRI" then
    let dataType :=
      if isBool then
        if object.IsNullable = "NO" then "int" else "sql.NullInt64"
      else dataType
    let exampleIdStr :=
      if dataType = "string" ∨ dataType = "sql.NullString" then "\"12345\""
      else if dataType = "int" ∨ dataType = "sql.NullInt64" then "12345"
      else st.exampleIdStr
    let exampleOrderStr :=
      if st.exampleOrderStr = "" then object.Name ++ " DESC" else st.exampleOrderStr
    (dataType, { st with
      exampleIdStr := exampleIdStr
      exampleOrderStr := exampleOrderStr
      primaryKeys := st.primaryKeys ++ [object.Name]
      primaryKeyTypes := st.primaryKeyTypes ++ [dataType] })
  else (dataType, st)

/-- The `defaultVal` of lines 386-393. -/
def defaultValOf (env : Env) (object : TableObj) : String :=
  if env.toLower object.Default.String ≠ "null" then
    if object.Default.String = "0" ∧ object.IsNullable = "YES" then ""
    else object.Default.String
  else ""

/-- The struct field line appended to `string1` at line 394. -/
def fieldLine (env : Env) (object : TableObj) (dataType : String) : String :=
  "\n\t" ++ env.uppercaseFirst object.Name ++ "\t\t" ++ dataType ++ "\t\t`column:\""
    ++ object.Name ++ "\" default:\"" ++ defaultValOf env object ++ "\" type:\""
    ++ object.ColumnType ++ "\" key:\"" ++ object.Key ++ "\" extra:\""
    ++ object.Extra.String ++ "\"`"

/-- The scan target appended to `string2` at line 384. -/
def scanTarget (env : Env) (table : String) (object : TableObj) : String :=
  ", &" ++ env.toLower table ++ "." ++ env.uppercaseFirst object.Name

/-- Lines 383-394: the scan target (for `i > 0`) and the struct field line. -/
def appendField (env : Env) (table : String) (i : Nat) (object : TableObj)
    (dataType : String) (st : CruxState) : CruxState :=
  let string2 := if i > 0 then st.string2 ++ scanTarget env table object else st.string2
  { st with string2 := string2, string1 := st.string1 ++ fieldLine env object dataType }

/-- The `dataType` that line 394 writes for `object`: the outcome of the switch
followed by the primary-key block. -/
def resolvedDataType (env : Env) (gs : Gostruct) (table : String) (i : Nat)
    (object : TableObj) (st : CruxState) : Except String String :=
  match typeSwitch env gs table i object st with
  | .error err => .error err
  | .ok (isBool, dataType, st1) => .ok (primaryKeyBlock object isBool dataType st1).1

/-- Lines 285-286: the column is recorded as used and a question mark is added. -/
def markUsed (object : TableObj) (st : CruxState) : CruxState :=
  { st with
    usedColumns := st.usedColumns ++ [{ Name := object.Name }]
    questionMarks := st.questionMarks ++ ["?"] }

/-- The body of the column loop for a column that is not skipped (lines 285-394). -/
def loopBody (env : Env) (gs : Gostruct) (table : String) (i : Nat) (object : TableObj)
    (st : CruxState) : Except String CruxState :=
  match typeSwitch env gs table i object (markUsed object st) with
  | .error err => .error err
  | .ok (isBool, dataType, st1) =>
    let r := primaryKeyBlock object isBool dataType st1
    .ok (appendField env table i object r.1 r.2)

/-- The inner loop of lines 280-284: is `name` among the used columns? -/
def isUsed (usedColumns : List UsedColumn) (name : String) : Bool :=
  usedColumns.any (fun c => c.Name = name)

/-- The loop `Loop:` of lines 277-395 from index `i` over the remaining rows. -/
def cruxLoop (env : Env) (gs : Gostruct) (table : String) :
    Nat → List TableObj → CruxState → Except String CruxState
  | _, [], st => .ok st
  | i, object :: objects, st =>
    if isUsed st.usedColumns object.Name then cruxLoop env gs table (i + 1) objects st
    else
      match loopBody env gs table i object st with
      | .error err => .error err
      | .ok st1 => cruxLoop env gs table (i + 1) objects st1

/-- The opening of `string1` (lines 260-265). -/
def structHead (env : Env) (table : String) : String :=
  "\n\n//" ++ env.uppercaseFirst table ++ "Obj is the structure of the home table\n//\n//This contains all columns that exist in the database\ntype "
    ++ env.uppercaseFirst table ++ "Obj struct \x7b"

/-- The state before the column loop (lines 238-275). -/
def initState (env : Env) (table : String) : CruxState :=
  { usedColumns := [], questionMarks := [], string1 := structHead env table, string2 := "",
    primaryKeys := [], primaryKeyTypes := [], importTime := false, importDate := false,
    exampleIdStr := "", exampleColumn := "", exampleColumnStr := "", exampleOrderStr := "" }

/-! ## The text assembled after the column loop -/

/-- The `initialString` of lines 247-250. -/
def initialString (env : Env) (gs : Gostruct) (table : String) : String :=
  "//Package "
    ++ env.uppercaseFirst table
    ++ " serves as the base structure for the "
    ++ table
    ++ " table\n"
    ++ "//and contains base methods and CRUD functionality to\n"
    ++ "//interact with the "
    ++ table
    ++ " table in the "
    ++ gs.Database
    ++ " database\n"
    ++ "package "
    ++ env.uppercaseFirst table

/-- The `importString` of lines 251-258, before any addition. -/
def importHead : String :=
  "\n\nimport (\n"
    ++ "\t\"database/sql\"\n"
    ++ "\t\"strings\"\n"
    ++ "\t\"connection\"\n"
    ++ "\t\"reflect\"\n"
    ++ "\t\"utils\""

/-- The addition to `importString` at lines 399-400. -/
def importTimeLine : String :=
  "\n\t\t\"time\""

/-- The addition to `importString` at lines 403-404. -/
def importDateLine : String :=
  "\n\t\t\"date\""

/-- The addition to `importString` at lines 453-454. -/
def importStrconvLine : String :=
  "\n\t\t\t\t\"strconv\""

/-- The opening of the generated `Save`, up to `newArgs` (lines 410-442). -/
def saveHead (env : Env) (table : String) : String :=
  "\n\n//Save accepts a "
    ++ env.uppercaseFirst table
    ++ "Obj pointer\n"
    ++ "//\n"
    ++ "//Turns each value into it's string representation\n"
    ++ "//so we can save it to the database\n"
    ++ "func ("
    ++ env.toLower table
    ++ " *"
    ++ env.uppercaseFirst table
    ++ "Obj) Save() (sql.Result, error) \x7b\n"
    ++ "\tv := reflect.ValueOf("
    ++ env.toLower table
    ++ ").Elem()\n"
    ++ "\tobjType := v.Type()\n"
    ++ "\n\tcolumnArr := make([]string, 0)\n"
    ++ "\targs := make([]interface\x7b\x7d, 0)\n"
    ++ "\tq := make([]string, 0)\n"
    ++ "\n\tupdateStr := \"\"\n"
    ++ "\tquery := \"INSERT INTO "
    ++ table
    ++ "\"\n"
    ++ "\tfor i := 0; i < v.NumField(); i++ \x7b\n"
    ++ "\t\tval, err := utils.ValidateField(v.Field(i), objType.Field(i))\n"
    ++ "\t\tif err != nil \x7b\n"
    ++ "\t\t\treturn nil, err\n"
    ++ "\t\t\x7d\n"
    ++ "\t\targs = append(args, val)\n"
    ++ "\t\tcolumn := string(objType.Field(i).Tag.Get(\"column\"))\n"
    ++ "\t\tcolumnArr = append(columnArr, \""
    ++ "`"
    ++ "\"+column+\""
    ++ "`"
    ++ "\")\n"
    ++ "\t\tq = append(q, \"?\")\n"
    ++ "\t\tif i > 0 && updateStr != \"\" \x7b\n"
    ++ "\t\t\tupdateStr += \", \"\n"
    ++ "\t\t\x7d\n"
    ++ "\t\tupdateStr += \""
    ++ "`"
    ++ "\" + column + \""
    ++ "`"
    ++ " = ?\"\n"
    ++ "\t\x7d\n"
    ++ "\n\tquery += \" (\" + strings.Join(columnArr, \", \") + \") VALUES (\" + strings.Join(q, \", \") + \") ON DUPLICATE KEY UPDATE \" + updateStr\n"
    ++ "\tnewArgs := append(args, args...)"

/-- The end of `Save` for a key of several columns (lines 445-447). -/
def saveDirect : String :=
  "\n\n\treturn Exec(query, newArgs...)"

/-- The end of `Save` for a key of one column, with capture of the inserted id (lines 459-470). -/
def saveCapture (env : Env) (table key0 insertIdStr : String) : String :=
  "\n\tnewRecord := false\n"
    ++ "\tif utils.Empty("
    ++ env.toLower table
    ++ "."
    ++ env.uppercaseFirst key0
    ++ ") \x7b\n"
    ++ "\t\tnewRecord = true\n"
    ++ "\t\x7d\n"
    ++ "\n\tres, err := Exec(query, newArgs...)\n"
    ++ "\tif err == nil && newRecord \x7b\n"
    ++ "\t\tid, _ := res.LastInsertId()\n"
    ++ "\t\t"
    ++ env.toLower table
    ++ "."
    ++ env.uppercaseFirst key0
    ++ " = "
    ++ insertIdStr
    ++ "\n\t\x7d\n"
    ++ "\treturn res, err"

/-- The closing brace of `Save` (lines 473-474). -/
def saveClose : String :=
  "\n\x7d"

/-- The generated `Delete` (lines 486-492). -/
def deleteFunc (env : Env) (table whereStrQuery whereStrQueryValues : String) : String :=
  "\n\n//Deletes record from database\n"
    ++ "func ("
    ++ env.toLower table
    ++ " *"
    ++ env.uppercaseFirst table
    ++ "Obj) Delete() (sql.Result, error) \x7b\n"
    ++ "\treturn Exec(\"DELETE FROM "
    ++ table
    ++ " WHERE"
    ++ whereStrQuery
    ++ "\", "
    ++ whereStrQueryValues
    ++ ")\n"
    ++ "\x7d\n"

/-- The generated `ReadById` (lines 532-536). -/
def readByIdFunc (env : Env) (table paramStr whereStrQuery whereStrValues : String) : String :=
  "\n//Returns a single object as pointer\n"
    ++ "func ReadById("
    ++ paramStr
    ++ ") (*"
    ++ env.uppercaseFirst table
    ++ "Obj, error) \x7b\n"
    ++ "\treturn ReadOneByQuery(\"SELECT * FROM "
    ++ table
    ++ " WHERE"
    ++ whereStrQuery
    ++ "\", "
    ++ whereStrValues
    ++ ")\n"
    ++ "\x7d"

/-- The generated `ReadAll` (lines 539-548). -/
def readAllFunc (env : Env) (table : String) : String :=
  "\n\n//Returns all records in the table\n"
    ++ "func ReadAll(order string) ([]*"
    ++ env.uppercaseFirst table
    ++ "Obj, error) \x7b\n"
    ++ "\tquery := \"SELECT * FROM "
    ++ table
    ++ "\"\n"
    ++ "\tif order != \"\" \x7b\n"
    ++ "\t\tquery += \" ORDER BY \" + order\n"
    ++ "\t\x7d\n"
    ++ "\treturn ReadByQuery(query)\n"
    ++ "\x7d"

/-- The generated `ReadByQuery`, `ReadOneByQuery` and `Exec` (lines 550-600); `object0` is `objects[0]`. -/
def queryFuncs (env : Env) (table : String) (object0 : TableObj) (string2 : String) : String :=
  "\n\n//Returns a slice of "
    ++ env.uppercaseFirst table
    ++ "Obj pointers\n"
    ++ "//\n"
    ++ "//Accepts a query string, and an order string\n"
    ++ "func ReadByQuery(query string, args ...interface\x7b\x7d) ([]*"
    ++ env.uppercaseFirst table
    ++ "Obj, error) \x7b\n"
    ++ "\tcon := connection.Get()\n"
    ++ "\tobjects := make([]*"
    ++ env.uppercaseFirst table
    ++ "Obj, 0)\n"
    ++ "\tquery = strings.Replace(query, \"'\", \"\\\"\", -1)\n"
    ++ "\trows, err := con.Query(query, args...)\n"
    ++ "\tif err != nil \x7b\n"
    ++ "\t\treturn objects, err\n"
    ++ "\t\x7d else \x7b\n"
    ++ "\t\tfor rows.Next() \x7b\n"
    ++ "\t\t\tvar "
    ++ env.toLower table
    ++ " "
    ++ env.uppercaseFirst table
    ++ "Obj\n"
    ++ "\t\t\terr = rows.Scan(&"
    ++ env.toLower table
    ++ "."
    ++ env.uppercaseFirst object0.Name
    ++ string2
    ++ ")\n"
    ++ "\t\t\tif err != nil \x7b\n"
    ++ "\t\t\t\treturn objects, err\n"
    ++ "\t\t\t\x7d\n"
    ++ "\t\t\tobjects = append(objects, &"
    ++ env.toLower table
    ++ ")\n"
    ++ "\t\t\x7d\n"
    ++ "\t\terr = rows.Err()\n"
    ++ "\t\tif len(objects) == 0 \x7b\n"
    ++ "\t\t\treturn objects, sql.ErrNoRows\n"
    ++ "\t\t\x7d else if err != nil && err != sql.ErrNoRows \x7b\n"
    ++ "\t\t\treturn objects, err\n"
    ++ "\t\t\x7d\n"
    ++ "\t\trows.Close()\n"
    ++ "\t\x7d\n"
    ++ "\n\treturn objects, nil\n"
    ++ "\x7d\n"
    ++ "\n//Returns a single object as pointer\n"
    ++ "//\n"
    ++ "//Serves as the LIMIT 1\n"
    ++ "func ReadOneByQuery(query string, args ...interface\x7b\x7d) (*"
    ++ env.uppercaseFirst table
    ++ "Obj, error) \x7b\n"
    ++ "\tvar "
    ++ env.toLower table
    ++ " "
    ++ env.uppercaseFirst table
    ++ "Obj\n"
    ++ "\n\tcon := connection.Get()\n"
    ++ "\tquery = strings.Replace(query, \"'\", \"\\\"\", -1)\n"
    ++ "\terr := con.QueryRow(query, args...).Scan(&"
    ++ env.toLower table
    ++ "."
    ++ env.uppercaseFirst object0.Name
    ++ string2
    ++ ")\n"
    ++ "\n\treturn &"
    ++ env.toLower table
    ++ ", err\n"
    ++ "\x7d\n"
    ++ "\n//Method for executing UPDATE queries\n"
    ++ "func Exec(query string, args ...interface\x7b\x7d) (sql.Result, error) \x7b\n"
    ++ "\tcon := connection.Get()\n"
    ++ "\treturn con.Exec(query, args...)\n"
    ++ "\x7d"


/-- The loop of lines 477-484 from index `k` over the remaining keys; the pair is
`(whereStrQuery, whereStrQueryValues)`. -/
def whereLoop (env : Env) (table : String) :
    Nat → List String → String × String → String × String
  | _, [], acc => acc
  | k, key :: keys, (whereStrQuery, whereStrQueryValues) =>
    let whereStrQuery := if k > 0 then whereStrQuery ++ " AND" else whereStrQuery
    let whereStrQueryValues :=
      if k > 0 then whereStrQueryValues ++ "," else whereStrQueryValues
    whereLoop env table (k + 1) keys
      (whereStrQuery ++ (" " ++ key ++ " = ?"),
        whereStrQueryValues ++ (" " ++ env.toLower table ++ "." ++ env.uppercaseFirst key))

/-- The parameter name chosen at lines 495-502. -/
def paramName (key : String) : String :=
  if key = "type" then "objType"
  else if key = "typeId" then "objTypeId"
  else key

/-- The `switch primaryKeyTypes[k]` of lines 504-516: `(dataType, paramTypeStr)`. -/
def paramType (keyType param : String) : String × String :=
  if keyType = "int" then ("int", "strconv.Itoa(" ++ param ++ ")")
  else if keyType = "float64" then
    ("float64", "strconv.FormatFloat(" ++ param ++ ", 'f', -1, 64)")
  else ("string", param)

/-- The three strings built by the loop of lines 493-530. -/
structure ReadByIdStrings where
  paramStr : String
  whereStr : String
  whereStrValues : String
deriving DecidableEq, Repr

/-- The loop of lines 494-530 from index `k` over the remaining keys.  An index
outside `primaryKeyTypes` is the run-time panic of Go. -/
def readByIdLoop (primaryKeys primaryKeyTypes : List String) :
    Nat → List String → ReadByIdStrings → Except String ReadByIdStrings
  | _, [], acc => .ok acc
  | k, key :: keys, acc =>
    let param := paramName key
    match primaryKeyTypes[k]? with
    | none => .error "panic: runtime error: index out of range"
    | some keyType =>
      let dataType := (paramType keyType param).1
      let paramTypeStr := (paramType keyType param).2
      let paramStr := acc.paramStr ++ (param ++ " " ++ dataType)
      let whereStr := if k > 0 then acc.whereStr ++ " AND" else acc.whereStr
      let whereStrValues := if k > 0 then acc.whereStrValues ++ "," else acc.whereStrValues
      if k = primaryKeys.length - 1 then
        readByIdLoop primaryKeys primaryKeyTypes (k + 1) keys
          { paramStr := paramStr
            whereStr := whereStr ++ (" " ++ param ++ " = '\" + " ++ paramTypeStr ++ " + \"'\"")
            whereStrValues := whereStrValues ++ (" " ++ param) }
      else
        readByIdLoop primaryKeys primaryKeyTypes (k + 1) keys
          { paramStr := paramStr ++ ", "
            whereStr := whereStr ++ (" " ++ param ++ " = '\" + " ++ paramTypeStr ++ " + \"'")
            whereStrValues := whereStrValues ++ (" " ++ param) }

/-- The `if len(primaryKeys) > 0` block of lines 409-537: the text appended to
`string1` and the text appended to `importString`. -/
def keyFuncs (env : Env) (table : String) (primaryKeys primaryKeyTypes : List String) :
    Except String (String × String) :=
  if primaryKeys.length > 0 then
    let saveEnd : Except String (String × String) :=
      if primaryKeys.length > 1 then .ok (saveDirect, "")
      else
        match primaryKeyTypes[0]?, primaryKeys[0]? with
        | some keyType0, some key0 =>
          if keyType0 = "string" then
            .ok (saveCapture env table key0 "strconv.FormatInt(id, 10)", importStrconvLine)
          else .ok (saveCapture env table key0 "int(id)", "")
        | _, _ => .error "panic: runtime error: index out of range"
    match saveEnd with
    | .error err => .error err
    | .ok (saveTail, importAdd) =>
      let w := whereLoop env table 0 primaryKeys ("", "")
      match readByIdLoop primaryKeys primaryKeyTypes 0 primaryKeys
          { paramStr := "", whereStr := "", whereStrValues := "" } with
      | .error err => .error err
      | .ok r =>
        .ok (saveHead env table ++ saveTail ++ saveClose
            ++ deleteFunc env table w.1 w.2
            ++ readByIdFunc env table r.paramStr w.1 r.whereStrValues,
          importAdd)
  else .ok ("", "")

/-- The `importString` after lines 398-405. -/
def importAfterLoop (st : CruxState) : String :=
  let importString := importHead
  let importString := if st.importTime then importString ++ importTimeLine else importString
  let importString := if st.importDate then importString ++ importDateLine else importString
  importString

/-- The text of `CRUX_<Table>.go` that `buildCruxFile` hands to `writeFile`
(`contents`, line 603), with the state left by the column loop.  A failing
distinct-values query is returned as the error; `objects[0]` of an empty list is
the run-time panic of Go. -/
def buildCruxContents (env : Env) (gs : Gostruct) (table : String) (objects : List TableObj) :
    Except String (String × CruxState) :=
  match cruxLoop env gs table 0 objects (initState env table) with
  | .error err => .error err
  | .ok st =>
    let string1 := st.string1 ++ "\n\x7d"
    let importString := importAfterLoop st
    match keyFuncs env table st.primaryKeys st.primaryKeyTypes with
    | .error err => .error err
    | .ok (keyText, importAdd) =>
      let importString := importString ++ importAdd
      let string1 := string1 ++ keyText
      let string1 := string1 ++ readAllFunc env table
      match objects with
      | [] => .error "panic: runtime error: index out of range"
      | object0 :: _ =>
        let string1 := string1 ++ queryFuncs env table object0 st.string2
        let importString := importString ++ "\n)"
        .ok (initialString env gs table ++ importString ++ string1, st)

/-! ## The generated utilities (`utils.go`, lines 795-1026) -/

/-- The values that the generated entity fields hold and that the utilities hand
on as query arguments.  A `float64` is represented by a rational and a `time.Time`
by its `String()` rendering; the utilities only test the one for a zero integer
part and the other for the zero time. -/
inductive GoValue where
  | nil
  | string (s : String)
  | int (n : Int)
  | int64 (n : Int)
  | float64 (f : ℚ)
  | bool (b : Bool)
  | time (t : String)
  | nullString (s : String) (valid : Bool)
  | nullInt64 (n : Int) (valid : Bool)
  | nullFloat64 (f : ℚ) (valid : Bool)
  | nullBool (b : Bool) (valid : Bool)
  | nullTime (t : String) (valid : Bool)
deriving DecidableEq, Repr

/-- The struct tag of a generated field, as read with `Tag.Get` (line 394 writes
the keys `column`, `default`, `type`, `key` and `extra`). -/
structure FieldTag where
  column : String
  defaultVal : String
  typeTag : String
  key : String
  extra : String
deriving DecidableEq, Repr

/-- Go function `strings.TrimLeft`: the leading characters contained in `cutset` are removed. -/
def stringsTrimLeft (s cutset : String) : String :=
  ⟨s.data.dropWhile (fun c => c ∈ cutset.data)⟩

/-- Go function `strings.TrimRight`: the trailing characters contained in `cutset` are removed. -/
def stringsTrimRight (s cutset : String) : String :=
  ⟨(s.data.reverse.dropWhile (fun c => c ∈ cutset.data)).reverse⟩

/-- Go function `strings.Contains`: `substr` occurs in `s`. -/
def stringsContains (s substr : String) : Bool :=
  s.data.tails.any (fun t => substr.data.isPrefixOf t)

/-- The scan of `strings.Split` for a non-empty separator: `skip` counts the
characters of a matched separator still to be passed over, `cur` holds the current
piece in reverse. -/
def splitGo (sep : List Char) : List Char → Nat → List Char → List String
  | [], _, cur => [⟨cur.reverse⟩]
  | _ :: cs, skip + 1, cur => splitGo sep cs skip cur
  | c :: cs, 0, cur =>
    if sep.isPrefixOf (c :: cs) then ⟨cur.reverse⟩ :: splitGo sep cs (sep.length - 1) []
    else splitGo sep cs 0 (c :: cur)

/-- Go function `strings.Split`: the pieces of `s` between the occurrences of `sep`, taken from
the left; an empty separator splits after every character. -/
def stringsSplit (s sep : String) : List String :=
  if sep = "" then s.data.map (fun c => ⟨[c]⟩) else splitGo sep.data s.data 0 []

/-- Function `Between` (lines 956-959). -/
def Between (initial beginning end_ : String) : String :=
  stringsTrimLeft (stringsTrimRight initial end_) beginning

/-- Function `InArray` (lines 961-969). -/
def InArray (char : String) (strings : List String) : Bool :=
  strings.any (fun a => a = char)

/-- Function `isEmpty` (lines 905-934). -/
def isEmpty : GoValue → Bool
  | .string v => v = ""
  | .int v => v = 0
  | .int64 v => v = 0
  | .float64 v => -1 < v ∧ v < 1
  | .bool v => v = false
  | .time v => v = "0001-01-01 00:00:00 +0000 UTC"
  | _ => false

/-- Function `Empty` (lines 856-903).  For a `string`, `int`, `int64`, `float64`,
`bool` or `time.Time` it is `isEmpty`; every other value here is `nil` or a struct
value (`sql.NullString`, ..., `date.NullTime`), for which the default case calls
`reflect.ValueOf(val).Elem()`, the run-time panic of Go. -/
def Empty : GoValue → Except String Bool
  | .string v => .ok (isEmpty (.string v))
  | .int v => .ok (isEmpty (.int v))
  | .int64 v => .ok (isEmpty (.int64 v))
  | .float64 v => .ok (isEmpty (.float64 v))
  | .bool v => .ok (isEmpty (.bool v))
  | .time v => .ok (isEmpty (.time v))
  | .nil => .error "panic: reflect: call of reflect.Value.Elem on zero Value"
  | _ => .error "panic: reflect: call of reflect.Value.Elem on struct Value"

/-- Function `NewNullString` (lines 806-814). -/
def NewNullString (s : String) : Except String GoValue :=
  match Empty (.string s) with
  | .error err => .error err
  | .ok empty => if empty then .ok (.nullString "" false) else .ok (.nullString s true)

/-- Function `NewNullInt` (lines 816-824). -/
def NewNullInt (i : Int) : Except String GoValue :=
  match Empty (.int64 i) with
  | .error err => .error err
  | .ok empty => if empty then .ok (.nullInt64 0 false) else .ok (.nullInt64 i true)

/-- Function `NewNullFloat` (lines 826-834). -/
def NewNullFloat (f : ℚ) : Except String GoValue :=
  match Empty (.float64 f) with
  | .error err => .error err
  | .ok empty => if empty then .ok (.nullFloat64 0 false) else .ok (.nullFloat64 f true)

/-- Function `NewNullBool` (lines 836-844). -/
def NewNullBool (b : Bool) : Except String GoValue :=
  match Empty (.bool b) with
  | .error err => .error err
  | .ok empty => if empty then .ok (.nullBool false false) else .ok (.nullBool b true)

/-- Function `NewNullTime` (lines 846-854); the zero `date.NullTime` holds the zero time. -/
def NewNullTime (t : String) : Except String GoValue :=
  match Empty (.time t) with
  | .error err => .error err
  | .ok empty =>
    if empty then .ok (.nullTime "0001-01-01 00:00:00 +0000 UTC" false)
    else .ok (.nullTime t true)

/-- The branch shared by the six plain cases of `GetFieldValue` (lines 976-1011):
the value itself unless it is empty, the default otherwise. -/
def valueOrDefault (t : GoValue) (defaultVal : String) : Except String GoValue :=
  match Empty t with
  | .error err => .error err
  | .ok empty => if !empty then .ok t else .ok (.string defaultVal)

/-- Function `GetFieldValue` (lines 971-1025). -/
def GetFieldValue (field : GoValue) (defaultVal : String) : Except String GoValue :=
  match field with
  | .string t => valueOrDefault (.string t) defaultVal
  | .int t => valueOrDefault (.int t) defaultVal
  | .int64 t => valueOrDefault (.int64 t) defaultVal
  | .float64 t => valueOrDefault (.float64 t) defaultVal
  | .bool t => valueOrDefault (.bool t) defaultVal
  | .time t => valueOrDefault (.time t) defaultVal
  | .nullString t _ => NewNullString t
  | .nullInt64 t _ => NewNullInt t
  | .nullFloat64 t _ => NewNullFloat t
  | .nullBool t _ => NewNullBool t
  | .nullTime t _ => NewNullTime t
  | .nil => .ok .nil

/-- The allowed values of an `enum` type tag as `ValidateField` computes them
(lines 946-947). -/
def enumValues (typeTag : String) : List String :=
  stringsSplit (Between typeTag "enum('" "')") "','"

/-- Function `ValidateField` (lines 937-954): the value to bind, or the error. -/
def ValidateField (val : GoValue) (field : FieldTag) : Except String GoValue :=
  if stringsContains field.typeTag "enum" then
    let s : String :=
      match val with
      | .string t => t
      | .nullString t _ => t
      | _ => ""
    let arr := enumValues field.typeTag
    if !InArray s arr then
      .error ("Invalid value: '" ++ s ++ "' for column: " ++ field.column
        ++ ". Possible values are: " ++ ", ".intercalate arr)
    else GetFieldValue val field.defaultVal
  else GetFieldValue val field.defaultVal

/-! ## The generated `Save` (lines 416-442 of the template) -/

/-- The slices and the string that the loop of the generated `Save` builds. -/
structure SaveAcc where
  columnArr : List String
  args : List GoValue
  q : List String
  updateStr : String
deriving DecidableEq, Repr

/-- The loop over the fields in the generated `Save` (template lines 426-439), from
field index `i`; a failing validation ends `Save` with that error. -/
def saveLoop : Nat → List (GoValue × FieldTag) → SaveAcc → Except String SaveAcc
  | _, [], acc => .ok acc
  | i, (v, field) :: fields, acc =>
    match ValidateField v field with
    | .error err => .error err
    | .ok val =>
      let column := field.column
      let updateStr :=
        if i > 0 ∧ acc.updateStr ≠ "" then acc.updateStr ++ ", " else acc.updateStr
      saveLoop (i + 1) fields
        { columnArr := acc.columnArr ++ ["`" ++ column ++ "`"]
          args := acc.args ++ [val]
          q := acc.q ++ ["?"]
          updateStr := updateStr ++ ("`" ++ column ++ "` = ?") }

/-- The `query` and `newArgs` that the generated `Save` hands to `Exec` (template
lines 420-442), for the table the file was generated for. -/
def saveStatement (table : String) (fields : List (GoValue × FieldTag)) :
    Except String (String × List GoValue) :=
  match saveLoop 0 fields { columnArr := [], args := [], q := [], updateStr := "" } with
  | .error err => .error err
  | .ok acc =>
    .ok ("INSERT INTO " ++ table ++ " (" ++ ", ".intercalate acc.columnArr ++ ") VALUES ("
        ++ ", ".intercalate acc.q ++ ") ON DUPLICATE KEY UPDATE " ++ acc.updateStr,
      acc.args ++ acc.args)

/-- What `Exec` hands back on success: the `sql.Result`, of which the generated
code reads `LastInsertId()`. -/
structure SqlResult where
  lastInsertId : Int
  rowsAffected : Int
deriving DecidableEq, Repr

/-- The two ways the generated `Save` ends: the direct return of template lines
445-447, or the capture of the inserted id into the field of the key column `key0`
of template lines 459-470, as `strconv.FormatInt(id, 10)` for a `string` key and as
`int(id)` otherwise. -/
inductive SaveEnd where
  | direct
  | capture (key0 : String) (asString : Bool)
deriving DecidableEq, Repr

/-- One run of the generated `Save`: what it returns (`res, err`), the calls of
`Exec` it made, and the fields of the entity afterwards. -/
structure SaveRun where
  result : Except String SqlResult
  execCalls : List (String × List GoValue)
  fields : List (GoValue × FieldTag)

/-- The value of the entity's field for `column` (`nil` if there is none). -/
def fieldValue (fields : List (GoValue × FieldTag)) (column : String) : GoValue :=
  match fields.find? (fun f => f.2.column = column) with
  | some f => f.1
  | none => .nil

/-- The entity with the field for `column` set to `v`. -/
def setField (fields : List (GoValue × FieldTag)) (column : String) (v : GoValue) :
    List (GoValue × FieldTag) :=
  fields.map (fun f => if f.2.column = column then (v, f.2) else f)

/-- The generated `Save` (template lines 416-474) run on an entity, with `exec`
standing for `con.Exec` behind the generated `Exec`.  In the capture tail
`utils.Empty` is applied to the key field before `Exec`; its panic ends the run. -/
def Save (exec : String → List GoValue → Except String SqlResult) (table : String)
    (saveEnd : SaveEnd) (fields : List (GoValue × FieldTag)) : SaveRun :=
  match saveStatement table fields with
  | .error err => { result := .error err, execCalls := [], fields := fields }
  | .ok (query, newArgs) =>
    match saveEnd with
    | .direct =>
      { result := exec query newArgs, execCalls := [(query, newArgs)], fields := fields }
    | .capture key0 asString =>
      match Empty (fieldValue fields key0) with
      | .error err => { result := .error err, execCalls := [], fields := fields }
      | .ok newRecord =>
        match exec query newArgs with
        | .error err =>
          { result := .error err, execCalls := [(query, newArgs)], fields := fields }
        | .ok res =>
          let id := res.lastInsertId
          { result := .ok res
            execCalls := [(query, newArgs)]
            fields :=
              if newRecord then
                setField fields key0 (if asString then .string (toString id) else .int id)
              else fields }

/-! ## The orchestrator (`handleTable`, lines 129-234) and the file builders -/

/-- The file system as the generator sees it: which directories exist and what
each file holds. -/
structure FileSystem where
  dirs : String → Bool
  files : String → Option String

/-- What a run meets outside the program: the value of `GOPATH`, the outcome of
`sql.Open`, the rows of the column query of line 144 for a table, the failures of
`os.Mkdir`, `os.Chmod` and of writing a file, and what `go fmt` makes of the
contents of a file (or why it fails). -/
structure Sys where
  GOPATH : String
  openError : Option String
  columns : String → Except String (List TableObj)
  mkdirError : String → Option String
  chmodError : String → Option String
  writeError : String → Option String
  goFmt : String → String → Except String String

/-- The package-level state of a run (lines 41-51) together with the file system
and the record of the tables whose columns were queried.  The example strings are
handed from `buildCruxFile` to `buildExamplesFile` as part of `CruxState`. -/
structure World where
  tablesDone : List String
  primaryKey : String
  fs : FileSystem
  queried : List String

/-- Modelled from the spec: the helper `inArray` of the package is declared outside
the given sources; it decides whether a table is "already present in the
processed-set for this run". -/
def inArray (char : String) (strings : List String) : Bool :=
  strings.any (fun a => a = char)

/-- Modelled from the spec: the helper `exists` of the package is declared outside
the given sources; it is the collaborator's "check existence of path P". -/
def pathExists (fs : FileSystem) (path : String) : Bool :=
  fs.dirs path || (fs.files path).isSome

/-- The directories above `path`: `d` followed by `/` begins `path`. -/
def isParentDir (d path : String) : Bool :=
  d ≠ "" ∧ (d.data ++ ['/']).isPrefixOf path.data

/-- Modelled from the spec: the helper `writeFile` of the package is declared
outside the given sources; it is the collaborator's "write file at path P with
contents C, creating parent directories with permissive access if absent", and a
write failure is an error.  The write policy is not its concern ("decided by the
Orchestrator, not by this collaborator"), so the flag `overwrite` changes nothing. -/
def writeFile (sys : Sys) (fs : FileSystem) (path contents : String) (_overwrite : Bool) :
    Option String × FileSystem :=
  match sys.writeError path with
  | some err => (some err, fs)
  | none =>
    (none,
      { dirs := fun d => fs.dirs d || isParentDir d path
        files := fun p => if p = path then some contents else fs.files p })

/-- Modelled from the spec: the helper `runCommand` of the package is declared
outside the given sources; the only commands are `go fmt <path>`, the source
formatter "invoked post-write to normalize generated source": the file at the path
is replaced by what `go fmt` makes of it. -/
def runCommand (sys : Sys) (fs : FileSystem) (command : String) :
    Option String × FileSystem :=
  if "go fmt ".data.isPrefixOf command.data then
    let path : String := ⟨command.data.drop 7⟩
    match fs.files path with
    | none => (some ("go fmt: no such file: " ++ path), fs)
    | some contents =>
      match sys.goFmt path contents with
      | .error err => (some err, fs)
      | .ok formatted =>
        (none, { fs with files := fun p => if p = path then some formatted else fs.files p })
  else (some ("unknown command: " ++ command), fs)

/-- The call `os.Mkdir(path, 0777)`. -/
def osMkdir (sys : Sys) (fs : FileSystem) (path : String) : Option String × FileSystem :=
  match sys.mkdirError path with
  | some err => (some err, fs)
  | none => (none, { fs with dirs := fun d => d = path || fs.dirs d })

/-- The call `os.Chmod(path, 0777)`; permissions are not part of the model. -/
def osChmod (sys : Sys) (path : String) : Option String :=
  sys.chmodError path

/-- The method `CreateDirectory` (lines 113-126). -/
def CreateDirectory (sys : Sys) (fs : FileSystem) (path : String) :
    Option String × FileSystem :=
  match osMkdir sys fs path with
  | (some err, fs) => (some err, fs)
  | (none, fs) =>
    match osChmod sys path with
    | some err => (some err, fs)
    | none => (none, fs)

/-- The directory of the package of `table` (lines 182, 244, 622, ...). -/
def tableDir (sys : Sys) (env : Env) (table : String) : String :=
  sys.GOPATH ++ "/src/models/" ++ env.uppercaseFirst table ++ "/"

/-- The path `cruxFilePath` of line 605. -/
def cruxFilePath (sys : Sys) (env : Env) (table : String) : String :=
  tableDir sys env table ++ "CRUX_" ++ env.uppercaseFirst table ++ ".go"

/-- The path `daoFilePath` of line 623. -/
def daoFilePath (sys : Sys) (env : Env) (table : String) : String :=
  tableDir sys env table ++ "DAO_" ++ env.uppercaseFirst table ++ ".go"

/-- The path `boFilePath` of line 645. -/
def boFilePath (sys : Sys) (env : Env) (table : String) : String :=
  tableDir sys env table ++ "BO_" ++ env.uppercaseFirst table ++ ".go"

/-- The path `testFilePath` of line 667. -/
def testFilePath (sys : Sys) (env : Env) (table : String) : String :=
  tableDir sys env table ++ env.uppercaseFirst table ++ "_test.go"

/-- The path `examplesFilePath` of line 697. -/
def examplesFilePath (sys : Sys) (env : Env) (table : String) : String :=
  tableDir sys env table ++ "examples_test.go"

/-- The path `dateFilePath` of line 1100. -/
def dateFilePath (sys : Sys) : String :=
  sys.GOPATH ++ "/src/date/date.go"

/-- The contents of a new `DAO_<Table>.go` (line 626). -/
def daoContents (env : Env) (table : String) : String :=
  "package "
    ++ env.uppercaseFirst table
    ++ "\n\n//Methods Here"

/-- The contents of a new `BO_<Table>.go` (line 648). -/
def boContents (env : Env) (table : String) : String :=
  "package "
    ++ env.uppercaseFirst table
    ++ "\n\n//Methods Here"

/-- The contents of a new `<Table>_test.go` (lines 670-678). -/
def testContents (env : Env) (table : String) : String :=
  "package "
    ++ env.uppercaseFirst table
    ++ "_test\n"
    ++ "\n\t\timport (\n"
    ++ "\t\t\t\"testing\"\n"
    ++ "\t\t)\n"
    ++ "\n\t\tfunc TestSomething(t *testing.T) \x7b\n"
    ++ "\t\t\t//test stuff here..\n"
    ++ "\t\t\x7d"

/-- The contents of a new `examples_test.go` (lines 700-769), with the example
strings that `buildCruxFile` left in the globals. -/
def examplesContents (env : Env) (table : String) (st : CruxState) : String :=
  "package "
    ++ env.uppercaseFirst table
    ++ "_test\n"
    ++ "\nimport (\n"
    ++ "\t\"fmt\"\n"
    ++ "\t\"models/"
    ++ env.uppercaseFirst table
    ++ "\"\n"
    ++ ")\n"
    ++ "\nfunc Example"
    ++ env.uppercaseFirst table
    ++ "Obj_Save() \x7b\n"
    ++ "\t"
    ++ env.toLower table
    ++ ", err := "
    ++ env.uppercaseFirst table
    ++ ".ReadById("
    ++ st.exampleIdStr
    ++ ")\n"
    ++ "\tif err == nil \x7b\n"
    ++ "\t\t"
    ++ env.toLower table
    ++ "."
    ++ st.exampleColumnStr
    ++ "\n\t\t_, err = "
    ++ env.toLower table
    ++ ".Save()\n"
    ++ "\t\tif err != nil \x7b\n"
    ++ "\t\t\t//Save failed\n"
    ++ "\t\t\x7d\n"
    ++ "\t\x7d\n"
    ++ "\x7d\n"
    ++ "\nfunc Example"
    ++ env.uppercaseFirst table
    ++ "Obj_Delete() \x7b\n"
    ++ "\t"
    ++ env.toLower table
    ++ ", err := "
    ++ env.uppercaseFirst table
    ++ ".ReadById("
    ++ st.exampleIdStr
    ++ ")\n"
    ++ "\tif err == nil \x7b\n"
    ++ "\t\t_, err = "
    ++ env.toLower table
    ++ ".Delete()\n"
    ++ "\t\tif err != nil \x7b\n"
    ++ "\t\t\t//Delete failed\n"
    ++ "\t\t\x7d\n"
    ++ "\t\x7d\n"
    ++ "\x7d\n"
    ++ "\nfunc ExampleReadAll() \x7b\n"
    ++ "\t"
    ++ env.toLower table
    ++ "s, err := "
    ++ env.uppercaseFirst table
    ++ ".ReadAll(\""
    ++ st.exampleOrderStr
    ++ "\")\n"
    ++ "\tif err == nil \x7b\n"
    ++ "\t\tfor i := range "
    ++ env.toLower table
    ++ "s \x7b\n"
    ++ "\t\t\t"
    ++ env.toLower table
    ++ " := "
    ++ env.toLower table
    ++ "s[i]\n"
    ++ "\t\t\tfmt.Println("
    ++ env.toLower table
    ++ ")\n"
    ++ "\t\t\x7d\n"
    ++ "\t\x7d\n"
    ++ "\x7d\n"
    ++ "\nfunc ExampleReadById() \x7b\n"
    ++ "\t"
    ++ env.toLower table
    ++ ", err := "
    ++ env.uppercaseFirst table
    ++ ".ReadById("
    ++ st.exampleIdStr
    ++ ")\n"
    ++ "\tif err == nil \x7b\n"
    ++ "\t\t//handle "
    ++ env.toLower table
    ++ " object\n"
    ++ "\t\tfmt.Println("
    ++ env.toLower table
    ++ ")\n"
    ++ "\t\x7d\n"
    ++ "\x7d\n"
    ++ "\nfunc ExampleReadByQuery() \x7b\n"
    ++ "\t"
    ++ env.toLower table
    ++ "s, err := "
    ++ env.uppercaseFirst table
    ++ ".ReadByQuery(\"SELECT * FROM "
    ++ table
    ++ " WHERE "
    ++ st.exampleColumn
    ++ " = ? ORDER BY "
    ++ st.exampleOrderStr
    ++ "\", \"some string\")\n"
    ++ "\tif err == nil \x7b\n"
    ++ "\t\tfor i := range "
    ++ env.toLower table
    ++ "s \x7b\n"
    ++ "\t\t\t"
    ++ env.toLower table
    ++ " := "
    ++ env.toLower table
    ++ "s[i]\n"
    ++ "\t\t\tfmt.Println("
    ++ env.toLower table
    ++ ")\n"
    ++ "\t\t\x7d\n"
    ++ "\t\x7d\n"
    ++ "\x7d\n"
    ++ "\nfunc ExampleReadOneByQuery() \x7b\n"
    ++ "\t"
    ++ env.toLower table
    ++ ", err := "
    ++ env.uppercaseFirst table
    ++ ".ReadOneByQuery(\"SELECT * FROM "
    ++ table
    ++ " WHERE "
    ++ st.exampleColumn
    ++ " = ? ORDER BY "
    ++ st.exampleOrderStr
    ++ "\", \"some string\")\n"
    ++ "\tif err == nil \x7b\n"
    ++ "\t\t//handle "
    ++ env.toLower table
    ++ " object\n"
    ++ "\t\tfmt.Println("
    ++ env.toLower table
    ++ ")\n"
    ++ "\t\x7d\n"
    ++ "\x7d\n"
    ++ "\nfunc ExampleExec() \x7b\n"
    ++ "\t_, err := "
    ++ env.uppercaseFirst table
    ++ ".Exec(\"UPDATE "
    ++ table
    ++ " SET "
    ++ st.exampleColumn
    ++ " = ? WHERE id = ?\", \"some string\", "
    ++ st.exampleIdStr
    ++ ")\n"
    ++ "\tif err != nil \x7b\n"
    ++ "\t\t//Exec failed\n"
    ++ "\t\x7d\n"
    ++ "\x7d"

/-- The contents of `date.go` (lines 1101-1127). -/
def dateContents : String :=
  "package date\n"
    ++ "import (\n"
    ++ "\t\"time\"\n"
    ++ "\t\"database/sql/driver\"\n"
    ++ ")\n"
    ++ "\nconst DEFAULT_FORMAT = \"2006-01-02 15:04:05\"\n"
    ++ "\n// In place of a sql.NullTime struct\n"
    ++ "type NullTime struct \x7b\n"
    ++ "\tTime  time.Time\n"
    ++ "\tValid bool // Valid is true if Time is not NULL\n"
    ++ "\x7d\n"
    ++ "\n// Scan implements the Scanner interface.\n"
    ++ "func (nt *NullTime) Scan(value interface\x7b\x7d) error \x7b\n"
    ++ "\tnt.Time, nt.Valid = value.(time.Time)\n"
    ++ "\treturn nil\n"
    ++ "\x7d\n"
    ++ "\n// Value implements the driver Valuer interface.\n"
    ++ "func (nt NullTime) Value() (driver.Value, error) \x7b\n"
    ++ "\tif !nt.Valid \x7b\n"
    ++ "\t\treturn nil, nil\n"
    ++ "\t\x7d\n"
    ++ "\treturn nt.Time, nil\n"
    ++ "\x7d"


/-- The method `buildCruxFile` (lines 237-617): the text is generated, written over
`CRUX_<Table>.go` and formatted.  Returns the state with the example strings, or
the error, and the file system. -/
def buildCruxFile (sys : Sys) (env : Env) (gs : Gostruct) (objects : List TableObj)
    (table : String) (fs : FileSystem) : Except String CruxState × FileSystem :=
  match buildCruxContents env gs table objects with
  | .error err => (.error err, fs)
  | .ok (contents, st) =>
    match writeFile sys fs (cruxFilePath sys env table) contents true with
    | (some err, fs) => (.error err, fs)
    | (none, fs) =>
      match runCommand sys fs ("go fmt " ++ cruxFilePath sys env table) with
      | (some err, fs) => (.error err, fs)
      | (none, fs) => (.ok st, fs)

/-- The shape shared by `buildDaoFile`, `buildBoFile`, `buildTestFile` and
`buildExamplesFile`: the file is written only if it does not exist, and formatted
in either case. -/
def buildOnce (sys : Sys) (fs : FileSystem) (path contents : String) :
    Option String × FileSystem :=
  if !pathExists fs path then
    match writeFile sys fs path contents false with
    | (some err, fs) => (some err, fs)
    | (none, fs) => runCommand sys fs ("go fmt " ++ path)
  else runCommand sys fs ("go fmt " ++ path)

/-- The method `buildDaoFile` (lines 620-639). -/
def buildDaoFile (sys : Sys) (env : Env) (table : String) (fs : FileSystem) :
    Option String × FileSystem :=
  buildOnce sys fs (daoFilePath sys env table) (daoContents env table)

/-- The method `buildBoFile` (lines 642-661). -/
def buildBoFile (sys : Sys) (env : Env) (table : String) (fs : FileSystem) :
    Option String × FileSystem :=
  buildOnce sys fs (boFilePath sys env table) (boContents env table)

/-- The method `buildTestFile` (lines 664-691). -/
def buildTestFile (sys : Sys) (env : Env) (table : String) (fs : FileSystem) :
    Option String × FileSystem :=
  buildOnce sys fs (testFilePath sys env table) (testContents env table)

/-- The method `buildExamplesFile` (lines 694-782). -/
def buildExamplesFile (sys : Sys) (env : Env) (table : String) (st : CruxState)
    (fs : FileSystem) : Option String × FileSystem :=
  buildOnce sys fs (examplesFilePath sys env table) (examplesContents env table st)

/-- The method `buildDatePackage` (lines 1092-1139). -/
def buildDatePackage (sys : Sys) (fs : FileSystem) : Option String × FileSystem :=
  let made : Option String × FileSystem :=
    if !pathExists fs (sys.GOPATH ++ "/src/date") then
      CreateDirectory sys fs (sys.GOPATH ++ "/src/date")
    else (none, fs)
  match made with
  | (some err, fs) => (some err, fs)
  | (none, fs) =>
    match writeFile sys fs (dateFilePath sys) dateContents false with
    | (some err, fs) => (some err, fs)
    | (none, fs) => runCommand sys fs ("go fmt " ++ dateFilePath sys)

/-- Lines 181-231 of `handleTable`: the directory of the table and the six build
steps, each ending the call at its first error. -/
def buildAll (sys : Sys) (env : Env) (gs : Gostruct) (objects : List TableObj)
    (table : String) (fs : FileSystem) : Option String × FileSystem :=
  let dir := tableDir sys env table
  let made : Option String × FileSystem :=
    if !pathExists fs dir then
      match osMkdir sys fs dir with
      | (some err, fs) => (some err, fs)
      | (none, fs) =>
        match osChmod sys dir with
        | some err => (some err, fs)
        | none => (none, fs)
    else (none, fs)
  match made with
  | (some err, fs) => (some err, fs)
  | (none, fs) =>
    match buildCruxFile sys env gs objects table fs with
    | (.error err, fs) => (some err, fs)
    | (.ok st, fs) =>
      match buildDaoFile sys env table fs with
      | (some err, fs) => (some err, fs)
      | (none, fs) =>
        match buildBoFile sys env table fs with
        | (some err, fs) => (some err, fs)
        | (none, fs) =>
          match buildTestFile sys env table fs with
          | (some err, fs) => (some err, fs)
          | (none, fs) =>
            match buildExamplesFile sys env table st fs with
            | (some err, fs) => (some err, fs)
            | (none, fs) => buildDatePackage sys fs

/-- The method `handleTable` (lines 129-234): the error it returns (`none` for
`nil`) and the state it leaves. -/
def handleTable (sys : Sys) (env : Env) (gs : Gostruct) (table : String) (w : World) :
    Option String × World :=
  if inArray table w.tablesDone then (none, w)
  else
    let w := { w with tablesDone := w.tablesDone ++ [table] }
    match sys.openError with
    | some err => (some err, w)
    | none =>
      let w := { w with queried := w.queried ++ [table] }
      match sys.columns table with
      | .error err => (some err, w)
      | .ok objects =>
        let w := { w with primaryKey := "" }
        if objects.length = 0 then (some ("No results for table: " ++ table), w)
        else
          let primaryKey :=
            match objects.find? (fun object => object.Key = "PRI") with
            | some object => object.Name
            | none => ""
          let w := { w with primaryKey := primaryKey }
          let r := buildAll sys env gs objects table w.fs
          (r.1, { w with fs := r.2 })

/-- A run of `handleTable` for each of the `names` in turn, from the state `w`. -/
def handleTables (sys : Sys) (env : Env) (gs : Gostruct) : List String → World → World
  | [], w => w
  | name :: names, w => handleTables sys env gs names (handleTable sys env gs name w).2

/-! ## Specification-side functions -/

/-- The rows in declared order with every row dropped whose column name already
occurred in an earlier row (the first row of each name is retained). -/
def firstByName : List TableObj → List TableObj
  | [] => []
  | o :: os => o :: (firstByName os).filter (fun p => p.Name ≠ o.Name)

/-- The rows that are retained when the names `used` have been seen before. -/
def retainFrom (used : List String) : List TableObj → List TableObj
  | [] => []
  | o :: os =>
    if o.Name ∈ used then retainFrom used os else o :: retainFrom (used ++ [o.Name]) os

/-- The rows of the primary key: the retained rows whose `Key` is `"PRI"`. -/
def keyRows (objects : List TableObj) : List TableObj :=
  (firstByName objects).filter (fun o => o.Key = "PRI")

/-- The data type resolved for a row (the empty string if the distinct-values query
of the row fails). -/
def dataTypeOf (env : Env) (gs : Gostruct) (table : String) (o : TableObj) : String :=
  match resolvedDataType env gs table 0 o (initState env table) with
  | .ok dataType => dataType
  | .error _ => ""

/-- The predicate `k1 = ? AND ... AND kn = ?` over the key columns. -/
def wherePredicate (keys : List String) : String :=
  " AND ".intercalate (keys.map (fun key => key ++ " = ?"))

/-- The entity's fields for the key columns, separated by `", "`. -/
def fieldArgs (env : Env) (table : String) (keys : List String) : String :=
  ", ".intercalate (keys.map (fun key => env.toLower table ++ "." ++ env.uppercaseFirst key))

/-- One parameter declaration of `ReadById`: the parameter name and its Go type. -/
def paramDecl (key keyType : String) : String :=
  paramName key ++ " " ++ (paramType keyType (paramName key)).1

/-- The parameter declarations of `ReadById`, separated by `", "`. -/
def paramDecls (keys keyTypes : List String) : String :=
  ", ".intercalate (List.zipWith paramDecl keys keyTypes)

/-- The parameter names of `ReadById`, separated by `", "`. -/
def paramArgs (keys : List String) : String :=
  ", ".intercalate (keys.map paramName)

/-- The scan targets for the rows, separated by `", "`. -/
def scanArgs (env : Env) (table : String) (rows : List TableObj) : String :=
  ", ".intercalate
    (rows.map (fun o => "&" ++ env.toLower table ++ "." ++ env.uppercaseFirst o.Name))

/-- The text of lines 550-565 before the `rows.Scan` call of `ReadByQuery`. -/
def queryHead (env : Env) (table : String) : String :=
  "\n\n//Returns a slice of "
    ++ env.uppercaseFirst table
    ++ "Obj pointers\n"
    ++ "//\n"
    ++ "//Accepts a query string, and an order string\n"
    ++ "func ReadByQuery(query string, args ...interface\x7b\x7d) ([]*"
    ++ env.uppercaseFirst table
    ++ "Obj, error) \x7b\n"
    ++ "\tcon := connection.Get()\n"
    ++ "\tobjects := make([]*"
    ++ env.uppercaseFirst table
    ++ "Obj, 0)\n"
    ++ "\tquery = strings.Replace(query, \"'\", \"\\\"\", -1)\n"
    ++ "\trows, err := con.Query(query, args...)\n"
    ++ "\tif err != nil \x7b\n"
    ++ "\t\treturn objects, err\n"
    ++ "\t\x7d else \x7b\n"
    ++ "\t\tfor rows.Next() \x7b\n"
    ++ "\t\t\tvar "
    ++ env.toLower table
    ++ " "
    ++ env.uppercaseFirst table
    ++ "Obj\n"
    ++ "\t\t\terr = "

/-- The text of lines 565-591 between the two `Scan` calls. -/
def queryMid (env : Env) (table : String) : String :=
  "\n"
    ++ "\t\t\tif err != nil \x7b\n"
    ++ "\t\t\t\treturn objects, err\n"
    ++ "\t\t\t\x7d\n"
    ++ "\t\t\tobjects = append(objects, &"
    ++ env.toLower table
    ++ ")\n"
    ++ "\t\t\x7d\n"
    ++ "\t\terr = rows.Err()\n"
    ++ "\t\tif len(objects) == 0 \x7b\n"
    ++ "\t\t\treturn objects, sql.ErrNoRows\n"
    ++ "\t\t\x7d else if err != nil && err != sql.ErrNoRows \x7b\n"
    ++ "\t\t\treturn objects, err\n"
    ++ "\t\t\x7d\n"
    ++ "\t\trows.Close()\n"
    ++ "\t\x7d\n"
    ++ "\n\treturn objects, nil\n"
    ++ "\x7d\n"
    ++ "\n//Returns a single object as pointer\n"
    ++ "//\n"
    ++ "//Serves as the LIMIT 1\n"
    ++ "func ReadOneByQuery(query string, args ...interface\x7b\x7d) (*"
    ++ env.uppercaseFirst table
    ++ "Obj, error) \x7b\n"
    ++ "\tvar "
    ++ env.toLower table
    ++ " "
    ++ env.uppercaseFirst table
    ++ "Obj\n"
    ++ "\n\tcon := connection.Get()\n"
    ++ "\tquery = strings.Replace(query, \"'\", \"\\\"\", -1)\n"
    ++ "\terr := "

/-- The text of lines 591-600 after the `Scan` call of `ReadOneByQuery`. -/
def queryTail (env : Env) (table : String) : String :=
  "\n"
    ++ "\n\treturn &"
    ++ env.toLower table
    ++ ", err\n"
    ++ "\x7d\n"
    ++ "\n//Method for executing UPDATE queries\n"
    ++ "func Exec(query string, args ...interface\x7b\x7d) (sql.Result, error) \x7b\n"
    ++ "\tcon := connection.Get()\n"
    ++ "\treturn con.Exec(query, args...)\n"
    ++ "\x7d"


/-- The fields validated in order: the values to bind, or the first error. -/
def validateAll : List (GoValue × FieldTag) → Except String (List GoValue)
  | [] => .ok []
  | (v, field) :: fields =>
    match ValidateField v field with
    | .error err => .error err
    | .ok val =>
      match validateAll fields with
      | .error err => .error err
      | .ok vals => .ok (val :: vals)

/-- The statement that inserts all columns and, on a duplicate key, assigns the
columns `updated`. -/
def upsertStatement (table : String) (columns updated : List String) : String :=
  "INSERT INTO " ++ table ++ " ("
    ++ ", ".intercalate (columns.map (fun c => "`" ++ c ++ "`"))
    ++ ") VALUES (" ++ ", ".intercalate (columns.map (fun _ => "?"))
    ++ ") ON DUPLICATE KEY UPDATE "
    ++ ", ".intercalate (updated.map (fun c => "`" ++ c ++ "` = ?"))

/-- The contents `new` result from `old` by zero or more runs of `go fmt` on the
file at `path`. -/
def FormattedFrom (sys : Sys) (path old new : String) : Prop :=
  Relation.ReflTransGen (fun a b => sys.goFmt path a = .ok b) old new

/-- The file at `path` holds `old` or what `go fmt` has made of it. -/
def HoldsFormatted (sys : Sys) (path old : String) (fs : FileSystem) : Prop :=
  ∃ new, fs.files path = some new ∧ FormattedFrom sys path old new

/-- The custom files of a table: `DAO_<Table>.go`, `BO_<Table>.go`,
`<Table>_test.go` and `examples_test.go`. -/
def customFiles (sys : Sys) (env : Env) (table : String) : List String :=
  [daoFilePath sys env table, boFilePath sys env table, testFilePath sys env table,
    examplesFilePath sys env table]

/-! ## Example inputs -/

/-- Lower-casing of the ASCII letters. -/
def asciiLower (s : String) : String := ⟨s.data.map Char.toLower⟩

/-- Upper-casing of a leading ASCII letter. -/
def asciiUpperFirst (s : String) : String :=
  match s.data with
  | [] => ""
  | c :: cs => ⟨c.toUpper :: cs⟩

/-- An environment for the examples: ASCII capitalisation and lower-casing, and a
connection whose distinct-values query returns the rows `"0"` and `"1"`. -/
def demoEnv : Env :=
  { uppercaseFirst := asciiUpperFirst
    toLower := asciiLower
    query := fun _ => .ok [{ Value := ⟨"0", true⟩ }, { Value := ⟨"1", true⟩ }] }

/-- An environment whose distinct-values query also returns the value `"2"`. -/
def demoEnvThree : Env :=
  { demoEnv with
    query := fun _ =>
      .ok [{ Value := ⟨"0", true⟩ }, { Value := ⟨"1", true⟩ }, { Value := ⟨"2", true⟩ }] }

/-- The generator settings of the examples. -/
def demoGs : Gostruct :=
  { Username := "u", Password := "p", Host := "h", Port := "3306", Database := "db" }

/-- A schema row with no default and no extra. -/
def column (name isNullable key dataType columnType : String) : TableObj :=
  { Name := name, IsNullable := isNullable, Key := key, DataType := dataType,
    ColumnType := columnType, Default := ⟨"", false⟩, Extra := ⟨"", false⟩ }

/-- Rows with a two-column key `a`, `b`, a repeated row for `a`, and a text column. -/
def demoRows : List TableObj :=
  [column "a" "NO" "PRI" "int" "int(11)", column "b" "NO" "PRI" "int" "int(11)",
    column "a" "NO" "PRI" "int" "int(11)", column "label" "YES" "" "varchar" "varchar(20)"]

/-- The rows of a table with the two-column key `(a int, b int)`. -/
def pairRows : List TableObj :=
  [column "a" "NO" "PRI" "int" "int(11)", column "b" "NO" "PRI" "int" "int(11)"]

/-- The rows of a table with the single text key `code`. -/
def itemRows : List TableObj :=
  [column "code" "NO" "PRI" "varchar" "varchar(8)",
    column "label" "YES" "" "varchar" "varchar(20)"]

/-- A text field of an entity with its tags. -/
def textField (value column typeTag key : String) : GoValue × FieldTag :=
  (.string value,
    { column := column, defaultVal := "", typeTag := typeTag, key := key, extra := "" })

/-- An entity of table `users`: the key `id` and the column `name`. -/
def userEntity : List (GoValue × FieldTag) :=
  [(.int 7,
      { column := "id", defaultVal := "", typeTag := "int(11)", key := "PRI",
        extra := "auto_increment" }),
    textField "ann" "name" "varchar(20)" ""]

/-- The error message of `ValidateField` for the value `s` of `column` with the
allowed values `allowed`. -/
def invalidEnumMessage (s column : String) (allowed : List String) : String :=
  "Invalid value: '" ++ s ++ "' for column: " ++ column ++ ". Possible values are: "
    ++ ", ".intercalate allowed

/-- A field of type `enum('A','B','C')` for the column `status`, holding `D`. -/
def statusField : GoValue × FieldTag :=
  textField "D" "status" "enum('A','B','C')" ""

/-- A formatter that ends a file in a newline, as `go fmt` does, and changes
nothing else. -/
def fmtNewline (_path contents : String) : Except String String :=
  if contents.data.getLast? = some '\n' then .ok contents else .ok (contents ++ "\n")

/-- An outside world for the examples: the table `pairs` has the rows `pairRows`,
every other table has no rows, nothing fails, and `go fmt` is `fmtNewline`. -/
def demoSys : Sys :=
  { GOPATH := "/go"
    openError := none
    columns := fun table => if table = "pairs" then .ok pairRows else .ok []
    mkdirError := fun _ => none
    chmodError := fun _ => none
    writeError := fun _ => none
    goFmt := fmtNewline }

/-- The empty file system. -/
def emptyFs : FileSystem :=
  { dirs := fun _ => false, files := fun _ => none }

/-- The state at the start of a run over the file system `fs`. -/
def initWorld (fs : FileSystem) : World :=
  { tablesDone := [], primaryKey := "", fs := fs, queried := [] }

/-- A state in which the table `pairs` has been processed. -/
def doneWorld : World :=
  { tablesDone := ["pairs"], primaryKey := "a", fs := emptyFs, queried := ["pairs"] }

/-- A file system in which the four custom files of the table `pairs` exist; the
hand-written `DAO_Pairs.go` does not end in a newline. -/
def customFs : FileSystem :=
  { dirs := fun d => d = "/go/src/models/Pairs/"
    files := fun p =>
      if p = "/go/src/models/Pairs/DAO_Pairs.go" then some "package Pairs\n\nfunc Mine() \x7b\x7d"
      else if p = "/go/src/models/Pairs/BO_Pairs.go" then some "package Pairs\n"
      else if p = "/go/src/models/Pairs/Pairs_test.go" then some "package Pairs_test\n"
      else if p = "/go/src/models/Pairs/examples_test.go" then some "package Pairs_test\n"
      else none }

/-- The file system `customFs` with a `CRUX_Pairs.go` left by an earlier run. -/
def staleFs : FileSystem :=
  { customFs with
    files := fun p =>
      if p = "/go/src/models/Pairs/CRUX_Pairs.go" then some "package Pairs\n//stale\n"
      else customFs.files p }

/-! ## Type resolution -/

/-- The `isBool` and `dataType` computed by the switch depend neither on the loop
index nor on the state. -/
theorem typeSwitch_type_indep (env : Env) (gs : Gostruct) (table : String) (i j : Nat)
    (object : TableObj) (st st' : CruxState) :
    (typeSwitch env gs table i object st).map (fun r => (r.1, r.2.1))
      = (typeSwitch env gs table j object st').map (fun r => (r.1, r.2.1)) := by
  unfold typeSwitch
  simp only []
  repeat' split
  all_goals rfl

/-- The resolved data type depends neither on the loop index nor on the state. -/
theorem resolvedDataType_indep (env : Env) (gs : Gostruct) (table : String) (i j : Nat)
    (object : TableObj) (st st' : CruxState) :
    resolvedDataType env gs table i object st = resolvedDataType env gs table j object st' := by
  have h := typeSwitch_type_indep env gs table i j object st st'
  unfold resolvedDataType
  cases h1 : typeSwitch env gs table i object st with
  | error e =>
    cases h2 : typeSwitch env gs table j object st' with
    | error e' => simp [h1, h2, Except.map] at h; simp [h]
    | ok r => simp [h1, h2, Except.map] at h
  | ok r =>
    cases h2 : typeSwitch env gs table j object st' with
    | error e' => simp [h1, h2, Except.map] at h
    | ok r' =>
      simp only [h1, h2, Except.map, Except.ok.injEq, Prod.mk.injEq] at h
      obtain ⟨b, d, s1⟩ := r
      obtain ⟨b', d', s1'⟩ := r'
      simp only at h
      obtain ⟨hb, hd⟩ := h
      subst hb hd
      simp only [primaryKeyBlock]
      split <;> rfl

/-- The switch leaves `string1`, `string2`, the used columns and the key lists as
they are. -/
theorem typeSwitch_string1 (env : Env) (gs : Gostruct) (table : String) (i : Nat)
    (object : TableObj) (st : CruxState) (r : Bool × String × CruxState)
    (h : typeSwitch env gs table i object st = .ok r) :
    r.2.2.string1 = st.string1 ∧ r.2.2.string2 = st.string2
      ∧ r.2.2.usedColumns = st.usedColumns ∧ r.2.2.primaryKeys = st.primaryKeys
      ∧ r.2.2.primaryKeyTypes = st.primaryKeyTypes := by
  unfold typeSwitch at h
  simp only [] at h
  repeat' split at h
  all_goals first
    | (simp only [Except.ok.injEq] at h; subst h; simp)
    | exact absurd h (by simp)

/-- A successful pass of the loop body, taken apart into its three blocks. -/
theorem loopBody_ok (env : Env) (gs : Gostruct) (table : String) (i : Nat)
    (object : TableObj) (st st1 : CruxState)
    (h : loopBody env gs table i object st = .ok st1) :
    ∃ isBool dataType st2,
      typeSwitch env gs table i object (markUsed object st) = .ok (isBool, dataType, st2) ∧
      st1 = appendField env table i object (primaryKeyBlock object isBool dataType st2).1
        (primaryKeyBlock object isBool dataType st2).2 := by
  unfold loopBody at h
  cases hts : typeSwitch env gs table i object (markUsed object st) with
  | error e => rw [hts] at h; exact absurd h (by simp)
  | ok r =>
    obtain ⟨isBool, dataType, st2⟩ := r
    rw [hts] at h
    simp only [Except.ok.injEq] at h
    exact ⟨isBool, dataType, st2, rfl, h.symm⟩

/-- What one pass of the loop body does to `string1`: it appends the field line of
the column with its resolved data type. -/
theorem loopBody_string1 (env : Env) (gs : Gostruct) (table : String) (i : Nat)
    (object : TableObj) (st st1 : CruxState)
    (h : loopBody env gs table i object st = .ok st1) :
    ∃ dataType, resolvedDataType env gs table i object st = .ok dataType ∧
      st1.string1 = st.string1 ++ fieldLine env object dataType := by
  obtain ⟨isBool, dataType, st2, hts, rfl⟩ := loopBody_ok env gs table i object st st1 h
  rw [resolvedDataType_indep env gs table i i object st (markUsed object st)]
  refine ⟨(primaryKeyBlock object isBool dataType st2).1, ?_, ?_⟩
  · simp only [resolvedDataType, hts]
  · have h2 : st2.string1 = st.string1 :=
      (typeSwitch_string1 env gs table i object _ _ hts).1
    simp only [appendField, primaryKeyBlock]
    split <;> simp [h2]

/-- C1. For a column that is not a primary key, `buildCruxFile` resolves the native
types `bool`/`boolean` to `bool` or `sql.NullBool`, `float`/`decimal` to `float64` or
`sql.NullFloat64`, `date`/`datetime`/`timestamp` to `time.Time` or `date.NullTime`,
and every native type outside the switch cases (such as `varchar`, `char`, `text`)
to `string` or `sql.NullString`; the plain type is chosen exactly when `IsNullable`
is `"NO"`, and it is the type written on the column's struct field line. -/
theorem C1_resolution_table (env : Env) (gs : Gostruct) (table : String) (i : Nat)
    (object : TableObj) (st : CruxState) (hkey : object.Key ≠ "PRI") :
    ((object.DataType = "bool" ∨ object.DataType = "boolean") →
      resolvedDataType env gs table i object st
        = .ok (if object.IsNullable = "NO" then "bool" else "sql.NullBool")) ∧
    ((object.DataType = "float" ∨ object.DataType = "decimal") →
      resolvedDataType env gs table i object st
        = .ok (if object.IsNullable = "NO" then "float64" else "sql.NullFloat64")) ∧
    ((object.DataType = "date" ∨ object.DataType = "datetime"
        ∨ object.DataType = "timestamp") →
      resolvedDataType env gs table i object st
        = .ok (if object.IsNullable = "NO" then "time.Time" else "date.NullTime")) ∧
    ((object.DataType ∉ ["int", "tinyint", "bool", "boolean", "float", "decimal", "date",
        "datetime", "timestamp"]) →
      resolvedDataType env gs table i object st
        = .ok (if object.IsNullable = "NO" then "string" else "sql.NullString")) ∧
    (∀ st1, loopBody env gs table i object st = .ok st1 →
      ∃ dataType, resolvedDataType env gs table i object st = .ok dataType ∧
        st1.string1 = st.string1 ++ fieldLine env object dataType) := by
  refine ⟨?_, ?_, ?_, ?_, fun st1 h => loopBody_string1 env gs table i object st st1 h⟩
  · intro h
    by_cases hn : object.IsNullable = "NO" <;> rcases h with h | h <;>
      simp [resolvedDataType, typeSwitch, primaryKeyBlock, h, hkey, hn]
  · intro h
    by_cases hn : object.IsNullable = "NO" <;> rcases h with h | h <;>
      simp [resolvedDataType, typeSwitch, primaryKeyBlock, h, hkey, hn]
  · intro h
    by_cases hn : object.IsNullable = "NO" <;> rcases h with h | h | h <;>
      simp [resolvedDataType, typeSwitch, primaryKeyBlock, h, hkey, hn]
  · intro h
    simp only [List.mem_cons, List.mem_singleton, List.not_mem_nil, or_false, not_or] at h
    by_cases hn : object.IsNullable = "NO" <;>
      by_cases hi : i > 1 ∧ st.exampleColumn = "" <;>
      simp [resolvedDataType, typeSwitch, primaryKeyBlock, h, hkey, hn, hi]

/-- Witness for C1: a non-nullable, non-key `varchar` column resolves to `string`. -/
theorem C1_resolution_table_witness :
    resolvedDataType demoEnv demoGs "users" 1 (column "name" "NO" "" "varchar" "varchar(20)")
      (initState demoEnv "users") = .ok "string" :=
  (C1_resolution_table demoEnv demoGs "users" 1 (column "name" "NO" "" "varchar" "varchar(20)")
    (initState demoEnv "users") (by decide)).2.2.2.1 (by decide)

/-- The scan of the distinct values keeps `isBool` exactly when it was set and every
value is `"0"` or `"1"`. -/
theorem scanIsBool_eq (rows : List UniqueValues) (isBool : Bool) :
    scanIsBool rows isBool = true ↔
      isBool = true ∧ ∀ u ∈ rows, u.Value.String = "0" ∨ u.Value.String = "1" := by
  induction rows generalizing isBool with
  | nil => simp [scanIsBool]
  | cons u rows ih =>
    unfold scanIsBool
    by_cases h0 : u.Value.String = "0"
    · simp [h0, ih]
    · by_cases h1 : u.Value.String = "1"
      · simp [h1, ih]
      · simp [h0, h1, ih]

/-- C2. For a non-primary-key `tinyint` column whose distinct-values query returns
`rows` (a NULL being scanned as the empty string), the resolved type is `bool`
(`sql.NullBool` when nullable) if every value is `"0"` or `"1"`, and `int`
(`sql.NullInt64` when nullable) as soon as one value is anything else. -/
theorem C2_tinyint_disambiguation (env : Env) (gs : Gostruct) (table : String) (i : Nat)
    (object : TableObj) (st : CruxState) (rows : List UniqueValues)
    (hkey : object.Key ≠ "PRI") (htype : object.DataType = "tinyint")
    (hq : env.query ("SELECT DISTINCT(`" ++ object.Name ++ "`) FROM " ++ gs.Database ++ "."
      ++ table) = .ok rows) :
    ((∀ u ∈ rows, u.Value.String = "0" ∨ u.Value.String = "1") →
      resolvedDataType env gs table i object st
        = .ok (if object.IsNullable = "NO" then "bool" else "sql.NullBool")) ∧
    ((∃ u ∈ rows, u.Value.String ≠ "0" ∧ u.Value.String ≠ "1") →
      resolvedDataType env gs table i object st
        = .ok (if object.IsNullable = "NO" then "int" else "sql.NullInt64")) := by
  constructor
  · intro h
    have hb : scanIsBool rows true = true := (scanIsBool_eq rows true).2 ⟨rfl, h⟩
    by_cases hn : object.IsNullable = "NO" <;>
      simp [resolvedDataType, typeSwitch, primaryKeyBlock, htype, hkey, hq, hb, hn]
  · rintro ⟨u, hu, h0, h1⟩
    have hb : scanIsBool rows true = false := by
      rw [Bool.eq_false_iff]
      intro hc
      rcases ((scanIsBool_eq rows true).1 hc).2 u hu with h | h
      · exact h0 h
      · exact h1 h
    by_cases hn : object.IsNullable = "NO" <;>
      simp [resolvedDataType, typeSwitch, primaryKeyBlock, htype, hkey, hq, hb, hn]

/-- Witness for C2: with the values `"0"`, `"1"` a nullable `tinyint` column is
`sql.NullBool`. -/
theorem C2_tinyint_disambiguation_witness :
    resolvedDataType demoEnv demoGs "users" 2 (column "active" "YES" "" "tinyint" "tinyint(1)")
      (initState demoEnv "users") = .ok "sql.NullBool" :=
  (C2_tinyint_disambiguation demoEnv demoGs "users" 2
    (column "active" "YES" "" "tinyint" "tinyint(1)") (initState demoEnv "users")
    [{ Value := ⟨"0", true⟩ }, { Value := ⟨"1", true⟩ }] (by decide) rfl rfl).1 (by decide)

/-- What one pass of the loop body does to the key lists: a column flagged `"PRI"`
appends its name and its resolved data type, any other column leaves them alone. -/
theorem loopBody_keys (env : Env) (gs : Gostruct) (table : String) (i : Nat)
    (object : TableObj) (st st1 : CruxState)
    (h : loopBody env gs table i object st = .ok st1) :
    ∃ dataType, resolvedDataType env gs table i object st = .ok dataType ∧
      st1.primaryKeys
        = st.primaryKeys ++ (if object.Key = "PRI" then [object.Name] else []) ∧
      st1.primaryKeyTypes
        = st.primaryKeyTypes ++ (if object.Key = "PRI" then [dataType] else []) := by
  obtain ⟨isBool, dataType, st2, hts, rfl⟩ := loopBody_ok env gs table i object st st1 h
  rw [resolvedDataType_indep env gs table i i object st (markUsed object st)]
  refine ⟨(primaryKeyBlock object isBool dataType st2).1, ?_, ?_, ?_⟩
  · simp only [resolvedDataType, hts]
  · have h2 : st2.primaryKeys = st.primaryKeys :=
      (typeSwitch_string1 env gs table i object _ _ hts).2.2.2.1
    simp only [appendField, primaryKeyBlock]
    split <;> simp [h2]
  · have h2 : st2.primaryKeyTypes = st.primaryKeyTypes :=
      (typeSwitch_string1 env gs table i object _ _ hts).2.2.2.2
    simp only [appendField, primaryKeyBlock]
    split <;> simp [h2]

/-- C3. A column whose `Key` is `"PRI"` and whose native type is `tinyint`, `bool` or
`boolean` never resolves to `bool` or `sql.NullBool`, whatever values were sampled:
its type, also the one recorded in `primaryKeyTypes`, is `int` when `IsNullable` is
`"NO"` and `sql.NullInt64` otherwise.  (A failing distinct-values query aborts the
generation; with any returned rows the resolution succeeds.) -/
theorem C3_primary_never_bool (env : Env) (gs : Gostruct) (table : String) (i : Nat)
    (object : TableObj) (st : CruxState) (hkey : object.Key = "PRI")
    (htype : object.DataType = "tinyint" ∨ object.DataType = "bool"
      ∨ object.DataType = "boolean") :
    (∀ dataType, resolvedDataType env gs table i object st = .ok dataType →
      dataType ≠ "bool" ∧ dataType ≠ "sql.NullBool" ∧
      dataType = (if object.IsNullable = "NO" then "int" else "sql.NullInt64")) ∧
    (object.DataType ≠ "tinyint" →
      resolvedDataType env gs table i object st
        = .ok (if object.IsNullable = "NO" then "int" else "sql.NullInt64")) ∧
    (∀ rows, env.query ("SELECT DISTINCT(`" ++ object.Name ++ "`) FROM " ++ gs.Database
        ++ "." ++ table) = .ok rows →
      resolvedDataType env gs table i object st
        = .ok (if object.IsNullable = "NO" then "int" else "sql.NullInt64")) ∧
    (∀ st1, loopBody env gs table i object st = .ok st1 →
      st1.primaryKeyTypes = st.primaryKeyTypes
        ++ [if object.IsNullable = "NO" then "int" else "sql.NullInt64"]) := by
  have hrows : ∀ rows, env.query ("SELECT DISTINCT(`" ++ object.Name ++ "`) FROM "
      ++ gs.Database ++ "." ++ table) = .ok rows →
      resolvedDataType env gs table i object st
        = .ok (if object.IsNullable = "NO" then "int" else "sql.NullInt64") := by
    intro rows hq
    by_cases hn : object.IsNullable = "NO" <;> rcases htype with h | h | h <;>
      cases hb : scanIsBool rows true <;>
      simp [resolvedDataType, typeSwitch, primaryKeyBlock, h, hkey, hq, hb, hn]
  have hall : ∀ dataType, resolvedDataType env gs table i object st = .ok dataType →
      dataType = (if object.IsNullable = "NO" then "int" else "sql.NullInt64") := by
    intro dataType hd
    cases hq : env.query ("SELECT DISTINCT(`" ++ object.Name ++ "`) FROM "
      ++ gs.Database ++ "." ++ table) with
    | ok rows =>
      rw [hrows rows hq] at hd
      exact (Except.ok.inj hd).symm
    | error e =>
      rcases htype with h | h | h
      · simp [resolvedDataType, typeSwitch, h, hq] at hd
      · by_cases hn : object.IsNullable = "NO" <;>
          simp [resolvedDataType, typeSwitch, primaryKeyBlock, h, hkey, hn] at hd <;>
          simp [hd, hn]
      · by_cases hn : object.IsNullable = "NO" <;>
          simp [resolvedDataType, typeSwitch, primaryKeyBlock, h, hkey, hn] at hd <;>
          simp [hd, hn]
  refine ⟨?_, ?_, hrows, ?_⟩
  · intro dataType hd
    have := hall dataType hd
    subst this
    by_cases hn : object.IsNullable = "NO" <;> simp [hn]
  · intro hne
    by_cases hn : object.IsNullable = "NO" <;> rcases htype with h | h | h <;>
      first
        | exact absurd h hne
        | simp [resolvedDataType, typeSwitch, primaryKeyBlock, h, hkey, hn]
  · intro st1 h1
    obtain ⟨dataType, hd, -, ht⟩ := loopBody_keys env gs table i object st st1 h1
    rw [ht, hall dataType hd]
    simp [hkey]

/-- Witness for C3: a non-nullable `tinyint` primary key holding only `"0"` and
`"1"` is an `int`. -/
theorem C3_primary_never_bool_witness :
    resolvedDataType demoEnv demoGs "flags" 0 (column "id" "NO" "PRI" "tinyint" "tinyint(1)")
      (initState demoEnv "flags") = .ok "int" :=
  (C3_primary_never_bool demoEnv demoGs "flags" 0
    (column "id" "NO" "PRI" "tinyint" "tinyint(1)") (initState demoEnv "flags") rfl
    (Or.inl rfl)).2.2.1 _ rfl

/-- Counterexample to C4 as stated: a non-nullable `smallint` column is not one of
the cases of the switch and resolves to `string`, not to `int`. -/
theorem C4_smallint_counterexample :
    resolvedDataType demoEnv demoGs "orders" 1 (column "qty" "NO" "" "smallint" "smallint(6)")
      (initState demoEnv "orders") = .ok "string" ∧
    resolvedDataType demoEnv demoGs "orders" 1 (column "qty" "NO" "" "smallint" "smallint(6)")
      (initState demoEnv "orders") ≠ .ok "int" := by
  have h : resolvedDataType demoEnv demoGs "orders" 1
      (column "qty" "NO" "" "smallint" "smallint(6)") (initState demoEnv "orders")
      = .ok "string" := by
    simp [resolvedDataType, typeSwitch, primaryKeyBlock, column]
  refine ⟨h, ?_⟩
  rw [h]
  intro hc
  exact absurd (Except.ok.inj hc) (by decide)

/-- C4 (amended). A column whose native type is exactly `int` resolves to `int` when
`IsNullable` is `"NO"` and to `sql.NullInt64` otherwise, whether or not it is a
primary key. -/
theorem C4_int_resolution (env : Env) (gs : Gostruct) (table : String) (i : Nat)
    (object : TableObj) (st : CruxState) (htype : object.DataType = "int") :
    resolvedDataType env gs table i object st
      = .ok (if object.IsNullable = "NO" then "int" else "sql.NullInt64") := by
  by_cases hn : object.IsNullable = "NO" <;> by_cases hk : object.Key = "PRI" <;>
    simp [resolvedDataType, typeSwitch, primaryKeyBlock, htype, hk, hn]

/-- Witness for C4 (amended): a nullable `int` column is `sql.NullInt64`. -/
theorem C4_int_resolution_witness :
    resolvedDataType demoEnv demoGs "orders" 1 (column "total" "YES" "" "int" "int(11)")
      (initState demoEnv "orders") = .ok "sql.NullInt64" :=
  C4_int_resolution demoEnv demoGs "orders" 1 (column "total" "YES" "" "int" "int(11)")
    (initState demoEnv "orders") rfl

/-! ## The column loop as a whole -/

/-- With the names `used` seen before, the retained rows are the first rows of each
name that is not in `used`. -/
theorem retainFrom_eq_filter (used : List String) (objects : List TableObj) :
    retainFrom used objects = (firstByName objects).filter (fun p => p.Name ∉ used) := by
  induction objects generalizing used with
  | nil => rfl
  | cons o os ih =>
    by_cases hu : o.Name ∈ used
    · simp only [retainFrom, hu, if_true, firstByName]
      rw [ih, List.filter_cons]
      simp only [hu, not_true_eq_false, decide_False, Bool.false_eq_true, if_false,
        List.filter_filter]
      apply List.filter_congr
      intro p _
      by_cases hp : p.Name ∈ used
      · simp [hp]
      · have : p.Name ≠ o.Name := fun h => hp (h ▸ hu)
        simp [hp, this]
    · simp only [retainFrom, hu, if_false, firstByName]
      rw [ih, List.filter_cons]
      simp only [hu, not_false_eq_true, decide_True, if_true, List.filter_filter]
      congr 1
      apply List.filter_congr
      intro p _
      by_cases hp : p.Name ∈ used <;> by_cases hn : p.Name = o.Name <;> simp [hp, hn]

/-- From the start of the loop the retained rows are `firstByName`. -/
theorem retainFrom_nil (objects : List TableObj) :
    retainFrom [] objects = firstByName objects := by
  simp [retainFrom_eq_filter]

/-- No column name occurs twice among the retained rows. -/
theorem firstByName_nodup (objects : List TableObj) :
    ((firstByName objects).map (fun o => o.Name)).Nodup := by
  induction objects with
  | nil => simp [firstByName]
  | cons o os ih =>
    simp only [firstByName, List.map_cons, List.nodup_cons]
    constructor
    · intro hmem
      obtain ⟨p, hp, hpn⟩ := List.mem_map.1 hmem
      have := (List.mem_filter.1 hp).2
      simp at this
      exact this hpn
    · exact ih.sublist ((List.filter_sublist _).map _)

/-- The retained rows are the given rows when no name is repeated. -/
theorem firstByName_of_nodup (objects : List TableObj)
    (h : (objects.map (fun o => o.Name)).Nodup) : firstByName objects = objects := by
  induction objects with
  | nil => rfl
  | cons o os ih =>
    simp only [List.map_cons, List.nodup_cons] at h
    simp only [firstByName, ih h.2]
    congr 1
    rw [List.filter_eq_self]
    intro p hp
    have : p.Name ≠ o.Name := fun hpo => h.1 (hpo ▸ List.mem_map_of_mem _ hp)
    simp [this]

/-- The inner loop over the used columns is a membership test on their names. -/
theorem isUsed_iff (usedColumns : List UsedColumn) (name : String) :
    isUsed usedColumns name = true ↔ name ∈ usedColumns.map (fun c => c.Name) := by
  simp only [isUsed, List.any_eq_true, decide_eq_true_eq, List.mem_map]

/-- Everything one pass of the loop body does to the state that the later text
depends on. -/
theorem loopBody_spec (env : Env) (gs : Gostruct) (table : String) (i : Nat)
    (object : TableObj) (st st1 : CruxState)
    (h : loopBody env gs table i object st = .ok st1) :
    ∃ dataType,
      resolvedDataType env gs table 0 object (initState env table) = .ok dataType ∧
      st1.usedColumns = st.usedColumns ++ [{ Name := object.Name }] ∧
      st1.string1 = st.string1 ++ fieldLine env object dataType ∧
      st1.string2
        = (if i > 0 then st.string2 ++ scanTarget env table object else st.string2) ∧
      st1.primaryKeys
        = st.primaryKeys ++ (if object.Key = "PRI" then [object.Name] else []) ∧
      st1.primaryKeyTypes
        = st.primaryKeyTypes ++ (if object.Key = "PRI" then [dataType] else []) := by
  obtain ⟨d1, hd1, hs1⟩ := loopBody_string1 env gs table i object st st1 h
  obtain ⟨d2, hd2, hk, hkt⟩ := loopBody_keys env gs table i object st st1 h
  have hdd : d2 = d1 := Except.ok.inj (hd2.symm.trans hd1)
  subst hdd
  rw [resolvedDataType_indep env gs table i 0 object st (initState env table)] at hd1
  refine ⟨d2, hd1, ?_, hs1, ?_, hk, hkt⟩
  · obtain ⟨isBool, dataType, st2, hts, rfl⟩ := loopBody_ok env gs table i object st st1 h
    have h2 : st2.usedColumns = (markUsed object st).usedColumns :=
      (typeSwitch_string1 env gs table i object _ _ hts).2.2.1
    simp only [appendField, primaryKeyBlock]
    split <;> simp [h2, markUsed]
  · obtain ⟨isBool, dataType, st2, hts, rfl⟩ := loopBody_ok env gs table i object st st1 h
    have h2 : st2.string2 = (markUsed object st).string2 :=
      (typeSwitch_string1 env gs table i object _ _ hts).2.1
    by_cases hkey : object.Key = "PRI" <;> by_cases hi : i > 0 <;>
      simp [appendField, primaryKeyBlock, hkey, hi, h2, markUsed]

/-- Joining a list of strings, head first. -/
theorem join_cons (a : String) (l : List String) :
    String.join (a :: l) = a ++ String.join l := by
  apply String.ext
  simp [String.join_eq]

/-- Joining no strings. -/
theorem join_nil : String.join [] = "" := rfl

/-- The accumulating loop of `strings.Join`. -/
theorem intercalate_go (acc sep : String) (l : List String) :
    String.intercalate.go acc sep l = acc ++ String.join (l.map (fun a => sep ++ a)) := by
  induction l generalizing acc with
  | nil => simp [String.intercalate.go, join_nil]
  | cons a l ih =>
    simp only [String.intercalate.go, ih, List.map_cons, join_cons, String.append_assoc]

/-- The value of `strings.Join` on a non-empty list. -/
theorem intercalate_cons (sep a : String) (l : List String) :
    sep.intercalate (a :: l) = a ++ String.join (l.map (fun b => sep ++ b)) := by
  simp only [String.intercalate, intercalate_go]

/-- The state after the loop has run from a positive index over `objects`. -/
theorem cruxLoop_spec (env : Env) (gs : Gostruct) (table : String)
    (objects : List TableObj) (i : Nat) (st st' : CruxState) (hi : 0 < i)
    (h : cruxLoop env gs table i objects st = .ok st') :
    (∀ o ∈ retainFrom (st.usedColumns.map (fun c => c.Name)) objects,
      resolvedDataType env gs table 0 o (initState env table)
        = .ok (dataTypeOf env gs table o)) ∧
    st'.usedColumns = st.usedColumns
      ++ (retainFrom (st.usedColumns.map (fun c => c.Name)) objects).map
        (fun o => { Name := o.Name }) ∧
    st'.string1 = st.string1
      ++ String.join ((retainFrom (st.usedColumns.map (fun c => c.Name)) objects).map
        (fun o => fieldLine env o (dataTypeOf env gs table o))) ∧
    st'.string2 = st.string2
      ++ String.join ((retainFrom (st.usedColumns.map (fun c => c.Name)) objects).map
        (scanTarget env table)) ∧
    st'.primaryKeys = st.primaryKeys
      ++ ((retainFrom (st.usedColumns.map (fun c => c.Name)) objects).filter
        (fun o => o.Key = "PRI")).map (fun o => o.Name) ∧
    st'.primaryKeyTypes = st.primaryKeyTypes
      ++ ((retainFrom (st.usedColumns.map (fun c => c.Name)) objects).filter
        (fun o => o.Key = "PRI")).map (dataTypeOf env gs table) := by
  induction objects generalizing i st with
  | nil =>
    simp only [cruxLoop, Except.ok.injEq] at h
    subst h
    simp [retainFrom, join_nil]
  | cons o os ih =>
    unfold cruxLoop at h
    by_cases hu : isUsed st.usedColumns o.Name = true
    · rw [if_pos hu] at h
      have hmem := (isUsed_iff _ _).1 hu
      have := ih (i + 1) st (Nat.succ_pos i) h
      simpa only [retainFrom, hmem, if_true] using this
    · rw [if_neg hu] at h
      have hmem : o.Name ∉ st.usedColumns.map (fun c => c.Name) :=
        fun hc => hu ((isUsed_iff _ _).2 hc)
      cases hb : loopBody env gs table i o st with
      | error e => rw [hb] at h; exact absurd h (by simp)
      | ok st1 =>
        rw [hb] at h
        simp only at h
        obtain ⟨d, hd, hused, hs1, hs2, hk, hkt⟩ := loopBody_spec env gs table i o st st1 hb
        have hdt : dataTypeOf env gs table o = d := by simp [dataTypeOf, hd]
        have hu1 : st1.usedColumns.map (fun c => c.Name)
            = st.usedColumns.map (fun c => c.Name) ++ [o.Name] := by
          simp [hused]
        obtain ⟨r1, r2, r3, r4, r5, r6⟩ := ih (i + 1) st1 (Nat.succ_pos i) h
        rw [hu1] at r1 r2 r3 r4 r5 r6
        simp only [retainFrom, hmem, if_false]
        refine ⟨?_, ?_, ?_, ?_, ?_, ?_⟩
        · intro p hp
          rcases List.mem_cons.1 hp with rfl | hp
          · rw [hdt]; exact hd
          · exact r1 p hp
        · rw [r2, hused]; simp
        · rw [r3, hs1, List.map_cons, join_cons, hdt, String.append_assoc]
        · rw [r4, hs2, if_pos hi, List.map_cons, join_cons, String.append_assoc]
        · rw [r5, hk]
          by_cases hkey : o.Key = "PRI" <;> simp [hkey, List.filter_cons]
        · rw [r6, hkt]
          by_cases hkey : o.Key = "PRI" <;> simp [hkey, List.filter_cons, hdt]

/-- The state after the whole column loop of `buildCruxFile`: the struct fields are
the retained rows, the scan targets of `string2` the retained rows but the first,
and the key lists the retained rows flagged `"PRI"`. -/
theorem cruxLoop_init (env : Env) (gs : Gostruct) (table : String)
    (objects : List TableObj) (st : CruxState)
    (h : cruxLoop env gs table 0 objects (initState env table) = .ok st) :
    (∀ o ∈ firstByName objects,
      resolvedDataType env gs table 0 o (initState env table)
        = .ok (dataTypeOf env gs table o)) ∧
    st.string1 = structHead env table
      ++ String.join ((firstByName objects).map
        (fun o => fieldLine env o (dataTypeOf env gs table o))) ∧
    st.string2 = String.join ((firstByName objects).tail.map (scanTarget env table)) ∧
    st.primaryKeys = (keyRows objects).map (fun o => o.Name) ∧
    st.primaryKeyTypes = (keyRows objects).map (dataTypeOf env gs table) := by
  cases objects with
  | nil =>
    simp only [cruxLoop, Except.ok.injEq] at h
    subst h
    simp [firstByName, keyRows, initState, join_nil]
  | cons o os =>
    unfold cruxLoop at h
    have hu : isUsed (initState env table).usedColumns o.Name = false := rfl
    rw [hu] at h
    simp only [Bool.false_eq_true, if_false] at h
    cases hb : loopBody env gs table 0 o (initState env table) with
    | error e => rw [hb] at h; exact absurd h (by simp)
    | ok st1 =>
      rw [hb] at h
      simp only at h
      obtain ⟨d, hd, hused, hs1, hs2, hk, hkt⟩ :=
        loopBody_spec env gs table 0 o (initState env table) st1 hb
      have hdt : dataTypeOf env gs table o = d := by simp [dataTypeOf, hd]
      have hu1 : st1.usedColumns.map (fun c => c.Name) = [o.Name] := by
        simp [hused, initState]
      obtain ⟨r1, r2, r3, r4, r5, r6⟩ := cruxLoop_spec env gs table os 1 st1 st Nat.one_pos h
      rw [hu1] at r1 r2 r3 r4 r5 r6
      have hret : retainFrom [o.Name] os
          = (firstByName os).filter (fun p => p.Name ≠ o.Name) := by
        rw [retainFrom_eq_filter]
        apply List.filter_congr
        intro p _
        simp
      rw [hret] at r1 r2 r3 r4 r5 r6
      simp only [firstByName, keyRows]
      refine ⟨?_, ?_, ?_, ?_, ?_⟩
      · intro p hp
        rcases List.mem_cons.1 hp with rfl | hp
        · rw [hdt]; exact hd
        · exact r1 p hp
      · rw [r3, hs1, List.map_cons, join_cons, hdt, String.append_assoc]
        rfl
      · rw [r4, hs2]
        simp [initState]
      · rw [r5, hk]
        by_cases hkey : o.Key = "PRI" <;> simp [hkey, List.filter_cons, initState]
      · rw [r6, hkt]
        by_cases hkey : o.Key = "PRI" <;> simp [hkey, List.filter_cons, hdt, initState]

/-- The column loop returns a state whenever the distinct-values query succeeds. -/
theorem cruxLoop_total (env : Env) (gs : Gostruct) (table : String)
    (hq : ∀ q, ∃ rows, env.query q = .ok rows)
    (objects : List TableObj) (i : Nat) (st : CruxState) :
    ∃ st', cruxLoop env gs table i objects st = .ok st' := by
  induction objects generalizing i st with
  | nil => exact ⟨st, rfl⟩
  | cons o os ih =>
    unfold cruxLoop
    by_cases hu : isUsed st.usedColumns o.Name = true
    · rw [if_pos hu]; exact ih (i + 1) st
    · rw [if_neg hu]
      have hts : ∃ r, typeSwitch env gs table i o (markUsed o st) = .ok r := by
        obtain ⟨rows, hrows⟩ := hq ("SELECT DISTINCT(`" ++ o.Name ++ "`) FROM "
          ++ gs.Database ++ "." ++ table)
        unfold typeSwitch
        simp only [hrows]
        repeat' split
        all_goals exact ⟨_, rfl⟩
      obtain ⟨r, hr⟩ := hts
      have hb : ∃ st1, loopBody env gs table i o st = .ok st1 := by
        unfold loopBody
        rw [hr]
        exact ⟨_, rfl⟩
      obtain ⟨st1, hst1⟩ := hb
      rw [hst1]
      exact ih (i + 1) st1

/-! ## Primary keys -/

/-- C5. The column loop of `buildCruxFile` returns whenever the distinct-values
queries succeed, and then `primaryKeys` holds, in declared order, the names of the
retained rows flagged `"PRI"` (of several rows with one column name only the first
is retained), `primaryKeyTypes` holds their resolved data types in step, no name
occurs twice, both lists have the same length, and when no column name is repeated
the list is that of all rows flagged `"PRI"`. -/
theorem C5_primary_keys (env : Env) (gs : Gostruct) (table : String)
    (objects : List TableObj) :
    ((∀ q, ∃ rows, env.query q = .ok rows) →
      ∃ st, cruxLoop env gs table 0 objects (initState env table) = .ok st) ∧
    ∀ st, cruxLoop env gs table 0 objects (initState env table) = .ok st →
      st.primaryKeys = (keyRows objects).map (fun o => o.Name) ∧
      st.primaryKeyTypes = (keyRows objects).map (dataTypeOf env gs table) ∧
      (∀ o ∈ keyRows objects, resolvedDataType env gs table 0 o (initState env table)
        = .ok (dataTypeOf env gs table o)) ∧
      st.primaryKeys.Nodup ∧
      st.primaryKeyTypes.length = st.primaryKeys.length ∧
      ((objects.map (fun o => o.Name)).Nodup →
        st.primaryKeys = (objects.filter (fun o => o.Key = "PRI")).map (fun o => o.Name)) := by
  refine ⟨fun hq => cruxLoop_total env gs table hq objects 0 _, ?_⟩
  intro st h
  obtain ⟨hres, -, -, hk, hkt⟩ := cruxLoop_init env gs table objects st h
  refine ⟨hk, hkt, ?_, ?_, ?_, ?_⟩
  · intro o ho
    exact hres o (List.mem_filter.1 ho).1
  · rw [hk]
    exact (firstByName_nodup objects).sublist ((List.filter_sublist _).map _)
  · rw [hk, hkt]; simp
  · intro hnd
    rw [hk, keyRows, firstByName_of_nodup objects hnd]

/-- Witness for C5: of the rows `a`, `b`, `a`, `label` the keys are `a` and `b`. -/
theorem C5_primary_keys_witness :
    ∃ st, cruxLoop demoEnv demoGs "pairs" 0 demoRows (initState demoEnv "pairs") = .ok st ∧
      st.primaryKeys = ["a", "b"] ∧ st.primaryKeyTypes = ["int", "int"] := by
  obtain ⟨st, hst⟩ := (C5_primary_keys demoEnv demoGs "pairs" demoRows).1 (fun _ => ⟨_, rfl⟩)
  obtain ⟨hk, hkt, -⟩ := (C5_primary_keys demoEnv demoGs "pairs" demoRows).2 st hst
  refine ⟨st, hst, ?_, ?_⟩
  · rw [hk]; decide
  · rw [hkt]
    simp [keyRows, firstByName, demoRows, column, dataTypeOf, resolvedDataType, typeSwitch,
      primaryKeyBlock]

/-! ## The functions generated for the primary key -/

/-- Go function `strings.Join` of a list with at least two elements. -/
theorem intercalate_cons_cons (sep a b : String) (l : List String) :
    sep.intercalate (a :: b :: l) = a ++ sep ++ sep.intercalate (b :: l) := by
  simp only [intercalate_cons, List.map_cons, join_cons, String.append_assoc]

/-- The loop of lines 477-484 from a positive index. -/
theorem whereLoop_pos (env : Env) (table : String) (keys : List String) (k : Nat)
    (hk : 0 < k) (q v : String) :
    whereLoop env table k keys (q, v)
      = (q ++ String.join (keys.map (fun key => " AND " ++ (key ++ " = ?"))),
         v ++ String.join (keys.map
           (fun key => ", " ++ (env.toLower table ++ "." ++ env.uppercaseFirst key)))) := by
  induction keys generalizing k q v with
  | nil => simp [whereLoop, join_nil]
  | cons key keys ih =>
    simp only [whereLoop, hk, if_true, ih (k + 1) (Nat.succ_pos k), List.map_cons, join_cons,
      String.append_assoc]
    have h1 : " AND" ++ (" " ++ (key ++ (" = ?" ++ String.join
        (keys.map (fun key => " AND " ++ (key ++ " = ?"))))))
        = " AND " ++ (key ++ (" = ?" ++ String.join
          (keys.map (fun key => " AND " ++ (key ++ " = ?"))))) := by
      rw [← String.append_assoc]; rfl
    have h2 : "," ++ (" " ++ (env.toLower table ++ ("." ++ (env.uppercaseFirst key
        ++ String.join (keys.map
          (fun key => ", " ++ (env.toLower table ++ ("." ++ env.uppercaseFirst key))))))))
        = ", " ++ (env.toLower table ++ ("." ++ (env.uppercaseFirst key
          ++ String.join (keys.map
            (fun key => ", " ++ (env.toLower table ++ ("." ++ env.uppercaseFirst key))))))) := by
      rw [← String.append_assoc]; rfl
    rw [h1, h2]

/-- The two strings built by the loop of lines 476-484 for a non-empty key. -/
theorem whereLoop_init (env : Env) (table : String) (key : String) (keys : List String) :
    whereLoop env table 0 (key :: keys) ("", "")
      = (" " ++ wherePredicate (key :: keys), " " ++ fieldArgs env table (key :: keys)) := by
  simp only [whereLoop, Nat.lt_irrefl, gt_iff_lt, if_false, whereLoop_pos env table keys 1
    Nat.one_pos, wherePredicate, fieldArgs, List.map_cons, intercalate_cons, List.map_map,
    String.append_assoc]
  have e1 : ("" : String) ++ (" " ++ (key ++ (" = ?" ++ String.join
      (keys.map (fun key => " AND " ++ (key ++ " = ?"))))))
      = " " ++ (key ++ (" = ?" ++ String.join
        (keys.map (fun key => " AND " ++ (key ++ " = ?"))))) := String.empty_append _
  have e2 : ("" : String) ++ (" " ++ (env.toLower table ++ ("." ++ (env.uppercaseFirst key
      ++ String.join (keys.map
        (fun key => ", " ++ (env.toLower table ++ ("." ++ env.uppercaseFirst key))))))))
      = " " ++ (env.toLower table ++ ("." ++ (env.uppercaseFirst key
        ++ String.join (keys.map
          (fun key => ", " ++ (env.toLower table ++ ("." ++ env.uppercaseFirst key))))))) :=
    String.empty_append _
  rw [e1, e2]
  rfl

/-- One pass of the loop of lines 494-530 at index `k`. -/
theorem readByIdLoop_cons (primaryKeys primaryKeyTypes : List String)
    (key keyType : String) (rest : List String) (k : Nat) (acc : ReadByIdStrings)
    (ht : primaryKeyTypes[k]? = some keyType) :
    readByIdLoop primaryKeys primaryKeyTypes k (key :: rest) acc
      = readByIdLoop primaryKeys primaryKeyTypes (k + 1) rest
          { paramStr := acc.paramStr ++ paramDecl key keyType
              ++ (if k = primaryKeys.length - 1 then "" else ", ")
            whereStr := (if k > 0 then acc.whereStr ++ " AND" else acc.whereStr)
              ++ (" " ++ paramName key ++ " = '\" + "
                ++ (paramType keyType (paramName key)).2
                ++ (if k = primaryKeys.length - 1 then " + \"'\"" else " + \"'"))
            whereStrValues := (if k > 0 then acc.whereStrValues ++ "," else acc.whereStrValues)
              ++ (" " ++ paramName key) } := by
  rw [readByIdLoop]
  simp only [ht]
  by_cases hlast : k = primaryKeys.length - 1
  · simp only [if_pos hlast, paramDecl, String.append_empty]
  · simp only [if_neg hlast, paramDecl]

/-- The loop of lines 494-530 from a positive index `k`, where `rest` and
`restTypes` are the keys and key types from `k` on: the parameter declarations get
a `", "` after each but the last, the parameter names a `","` before each. -/
theorem readByIdLoop_pos (primaryKeys primaryKeyTypes : List String)
    (rest restTypes : List String) (k : Nat) (acc : ReadByIdStrings) (hk : 0 < k)
    (htypes : ∀ j, primaryKeyTypes[k + j]? = restTypes[j]?)
    (hlen : rest.length = restTypes.length)
    (hkeys : primaryKeys.length = k + rest.length) :
    ∃ r, readByIdLoop primaryKeys primaryKeyTypes k rest acc = .ok r ∧
      r.paramStr = acc.paramStr ++ ", ".intercalate (List.zipWith paramDecl rest restTypes) ∧
      r.whereStrValues = acc.whereStrValues
        ++ String.join (rest.map (fun key => ", " ++ paramName key)) := by
  induction rest generalizing k acc restTypes with
  | nil =>
    refine ⟨acc, rfl, ?_, ?_⟩
    · simp [String.intercalate]
    · simp [join_nil]
  | cons key rest ih =>
    cases restTypes with
    | nil => simp at hlen
    | cons keyType restTypes =>
      have ht : primaryKeyTypes[k]? = some keyType := by simpa using htypes 0
      have htypes1 : ∀ j, primaryKeyTypes[k + 1 + j]? = restTypes[j]? := by
        intro j
        have := htypes (j + 1)
        rw [show k + 1 + j = k + (j + 1) by omega]
        simpa using this
      have hlen1 : rest.length = restTypes.length := by simpa using hlen
      have hkeys1 : primaryKeys.length = k + 1 + rest.length := by
        simp only [List.length_cons] at hkeys; omega
      rw [readByIdLoop_cons primaryKeys primaryKeyTypes key keyType rest k acc ht]
      obtain ⟨r, hr, hp, hv⟩ := ih restTypes (k + 1) _ (Nat.succ_pos k) htypes1 hlen1 hkeys1
      refine ⟨r, hr, ?_, ?_⟩
      · rw [hp]
        cases rest with
        | nil =>
          have hlast : k = primaryKeys.length - 1 := by simp at hkeys1; omega
          simp [hlast, String.intercalate, String.intercalate.go]
        | cons key2 rest2 =>
          cases restTypes with
          | nil => simp at hlen1
          | cons t2 ts2 =>
            have hlast : k ≠ primaryKeys.length - 1 := by
              simp only [List.length_cons] at hkeys1; omega
            simp only [if_neg hlast, List.zipWith_cons_cons]
            rw [intercalate_cons_cons]
            simp only [String.append_assoc]
      · rw [hv]
        simp only [hk, if_true, List.map_cons, join_cons, String.append_assoc]
        have e : "," ++ (" " ++ (paramName key
            ++ String.join (rest.map (fun key => ", " ++ paramName key))))
            = ", " ++ (paramName key
              ++ String.join (rest.map (fun key => ", " ++ paramName key))) := by
          rw [← String.append_assoc]; rfl
        rw [e]

/-- The strings built by the loop of lines 493-530 for a non-empty key with as many
key types as keys. -/
theorem readByIdLoop_init (key : String) (keys : List String) (keyTypes : List String)
    (hlen : (key :: keys).length = keyTypes.length) :
    ∃ r, readByIdLoop (key :: keys) keyTypes 0 (key :: keys)
        { paramStr := "", whereStr := "", whereStrValues := "" } = .ok r ∧
      r.paramStr = paramDecls (key :: keys) keyTypes ∧
      r.whereStrValues = " " ++ paramArgs (key :: keys) := by
  cases keyTypes with
  | nil => simp at hlen
  | cons keyType restTypes =>
    have hlen1 : keys.length = restTypes.length := by simpa using hlen
    rw [readByIdLoop_cons (key :: keys) (keyType :: restTypes) key keyType keys 0 _
      (by simp)]
    obtain ⟨r, hr, hp, hv⟩ := readByIdLoop_pos (key :: keys) (keyType :: restTypes) keys
      restTypes (0 + 1) _ Nat.one_pos (fun j => by simp [Nat.add_comm 1 j]) hlen1
      (by simp [Nat.add_comm])
    refine ⟨r, hr, ?_, ?_⟩
    · rw [hp, paramDecls]
      cases keys with
      | nil =>
        cases restTypes with
        | nil => simp [String.intercalate, String.intercalate.go]
        | cons t ts => simp at hlen1
      | cons key2 keys2 =>
        cases restTypes with
        | nil => simp at hlen1
        | cons t2 ts2 =>
          simp only [List.zipWith_cons_cons]
          rw [intercalate_cons_cons]
          simp [String.append_assoc]
    · rw [hv, paramArgs, List.map_cons, intercalate_cons, List.map_map]
      simp only [Nat.lt_irrefl, gt_iff_lt, if_false, String.empty_append,
        String.append_assoc]
      rfl

/-- The block of lines 409-537 for a non-empty key with as many key types as keys:
`Save`, `Delete` and `ReadById`, where `Save` ends in the direct return for a key
of several columns and in the capture of the inserted id for a key of one. -/
theorem keyFuncs_spec (env : Env) (table : String) (key : String) (keys : List String)
    (keyTypes : List String) (hlen : (key :: keys).length = keyTypes.length) :
    ∃ saveTail importAdd,
      keyFuncs env table (key :: keys) keyTypes
        = .ok (saveHead env table ++ saveTail ++ saveClose
            ++ deleteFunc env table (" " ++ wherePredicate (key :: keys))
                (" " ++ fieldArgs env table (key :: keys))
            ++ readByIdFunc env table (paramDecls (key :: keys) keyTypes)
                (" " ++ wherePredicate (key :: keys)) (" " ++ paramArgs (key :: keys)),
          importAdd) ∧
      (keys ≠ [] → saveTail = saveDirect ∧ importAdd = "") ∧
      (keys = [] → ∃ insertIdStr, saveTail = saveCapture env table key insertIdStr) := by
  obtain ⟨r, hr, hp, hv⟩ := readByIdLoop_init key keys keyTypes hlen
  cases keyTypes with
  | nil => simp at hlen
  | cons keyType restTypes =>
    cases keys with
    | nil =>
      by_cases hs : keyType = "string"
      · subst hs
        refine ⟨saveCapture env table key "strconv.FormatInt(id, 10)", importStrconvLine,
          ?_, fun hne => absurd rfl hne, fun _ => ⟨_, rfl⟩⟩
        simp only [keyFuncs, List.length_cons, List.length_nil, Nat.lt_irrefl, gt_iff_lt,
          Nat.zero_add, Nat.lt_one_iff, if_true, if_false, Nat.one_pos,
          List.getElem?_cons_zero, whereLoop_init, hr, hp, hv]
      · refine ⟨saveCapture env table key "int(id)", "",
          ?_, fun hne => absurd rfl hne, fun _ => ⟨_, rfl⟩⟩
        simp only [keyFuncs, List.length_cons, List.length_nil, Nat.lt_irrefl, gt_iff_lt,
          Nat.zero_add, Nat.lt_one_iff, if_true, if_false, Nat.one_pos,
          List.getElem?_cons_zero, hs, whereLoop_init, hr, hp, hv]
    | cons key2 keys2 =>
      refine ⟨saveDirect, "", ?_, fun _ => ⟨rfl, rfl⟩, fun hc => absurd hc (by simp)⟩
      have h1 : (key :: key2 :: keys2).length > 0 := by simp
      have h2 : (key :: key2 :: keys2).length > 1 := by simp
      simp only [keyFuncs, h1, h2, if_true, whereLoop_init, hr, hp, hv]

/-- A successful `buildCruxContents`, taken apart: the column loop, the block for
the primary key, and the text that is always emitted. -/
theorem buildCruxContents_ok (env : Env) (gs : Gostruct) (table : String)
    (objects : List TableObj) (contents : String) (st : CruxState)
    (h : buildCruxContents env gs table objects = .ok (contents, st)) :
    cruxLoop env gs table 0 objects (initState env table) = .ok st ∧
    ∃ object0 rest keyText importAdd,
      objects = object0 :: rest ∧
      keyFuncs env table st.primaryKeys st.primaryKeyTypes = .ok (keyText, importAdd) ∧
      contents = initialString env gs table
        ++ (importAfterLoop st ++ importAdd ++ "\n)")
        ++ (st.string1 ++ "\n\x7d" ++ keyText ++ readAllFunc env table
          ++ queryFuncs env table object0 st.string2) := by
  unfold buildCruxContents at h
  cases hl : cruxLoop env gs table 0 objects (initState env table) with
  | error e => rw [hl] at h; exact absurd h (by simp)
  | ok st0 =>
    rw [hl] at h
    simp only at h
    cases hk : keyFuncs env table st0.primaryKeys st0.primaryKeyTypes with
    | error e => rw [hk] at h; exact absurd h (by simp)
    | ok r =>
      obtain ⟨keyText, importAdd⟩ := r
      rw [hk] at h
      simp only at h
      cases objects with
      | nil => exact absurd h (by simp)
      | cons object0 rest =>
        simp only [Except.ok.injEq, Prod.mk.injEq] at h
        obtain ⟨hc, hst⟩ := h
        subst hst
        exact ⟨rfl, object0, rest, keyText, importAdd, rfl, hk, hc.symm⟩

/-- The generation of the text returns for every non-empty list of rows whenever the
distinct-values queries succeed. -/
theorem buildCruxContents_total (env : Env) (gs : Gostruct) (table : String)
    (objects : List TableObj) (hq : ∀ q, ∃ rows, env.query q = .ok rows)
    (hne : objects ≠ []) :
    ∃ contents st, buildCruxContents env gs table objects = .ok (contents, st) := by
  obtain ⟨st, hst⟩ := cruxLoop_total env gs table hq objects 0 (initState env table)
  obtain ⟨-, -, -, hk, hkt⟩ := cruxLoop_init env gs table objects st hst
  have hlen : st.primaryKeys.length = st.primaryKeyTypes.length := by rw [hk, hkt]; simp
  have hkf : ∃ r, keyFuncs env table st.primaryKeys st.primaryKeyTypes = .ok r := by
    cases hpk : st.primaryKeys with
    | nil => exact ⟨("", ""), by simp [keyFuncs]⟩
    | cons key keys =>
      rw [hpk] at hlen
      obtain ⟨saveTail, importAdd, hkf, -⟩ :=
        keyFuncs_spec env table key keys st.primaryKeyTypes hlen
      exact ⟨_, hkf⟩
  obtain ⟨⟨keyText, importAdd⟩, hkf⟩ := hkf
  cases objects with
  | nil => exact absurd rfl hne
  | cons object0 rest =>
    unfold buildCruxContents
    rw [hst]
    simp only [hkf]
    exact ⟨_, _, rfl⟩

/-- The generated file of a table with a primary key: the struct, then `Save`,
`Delete` and `ReadById` for the key columns, then the functions without key. -/
theorem buildCruxContents_keyed (env : Env) (gs : Gostruct) (table : String)
    (objects : List TableObj) (contents : String) (st : CruxState)
    (h : buildCruxContents env gs table objects = .ok (contents, st))
    (hne : keyRows objects ≠ []) :
    ∃ object0 rest saveTail importAdd key keys,
      objects = object0 :: rest ∧
      st.primaryKeys = key :: keys ∧
      st.primaryKeys = (keyRows objects).map (fun o => o.Name) ∧
      st.primaryKeyTypes = (keyRows objects).map (dataTypeOf env gs table) ∧
      (keys ≠ [] → saveTail = saveDirect ∧ importAdd = "") ∧
      (keys = [] → ∃ insertIdStr, saveTail = saveCapture env table key insertIdStr) ∧
      contents = initialString env gs table
        ++ (importAfterLoop st ++ importAdd ++ "\n)")
        ++ (st.string1 ++ "\n\x7d"
          ++ (saveHead env table ++ saveTail ++ saveClose
            ++ deleteFunc env table (" " ++ wherePredicate st.primaryKeys)
                (" " ++ fieldArgs env table st.primaryKeys)
            ++ readByIdFunc env table (paramDecls st.primaryKeys st.primaryKeyTypes)
                (" " ++ wherePredicate st.primaryKeys) (" " ++ paramArgs st.primaryKeys))
          ++ readAllFunc env table
          ++ queryFuncs env table object0 st.string2) := by
  obtain ⟨hloop, object0, rest, keyText, importAdd, hobj, hkf, hc⟩ :=
    buildCruxContents_ok env gs table objects contents st h
  obtain ⟨-, -, -, hk, hkt⟩ := cruxLoop_init env gs table objects st hloop
  have hlen : st.primaryKeys.length = st.primaryKeyTypes.length := by rw [hk, hkt]; simp
  cases hpk : st.primaryKeys with
  | nil =>
    rw [hpk] at hk
    exact absurd (List.map_eq_nil_iff.1 hk.symm) hne
  | cons key keys =>
    rw [hpk] at hlen
    obtain ⟨saveTail, importAdd', hkf', hdirect, hcapture⟩ :=
      keyFuncs_spec env table key keys st.primaryKeyTypes hlen
    rw [hpk, hkf'] at hkf
    simp only [Except.ok.injEq, Prod.mk.injEq] at hkf
    obtain ⟨hkt1, hia⟩ := hkf
    subst hia
    refine ⟨object0, rest, saveTail, importAdd', key, keys, hobj, rfl, hpk ▸ hk, hkt,
      hdirect, hcapture, ?_⟩
    rw [hc, ← hkt1]

/-- The generated `Delete` with the statement and its arguments written out. -/
theorem deleteFunc_text (env : Env) (table predicate args : String) :
    deleteFunc env table (" " ++ predicate) (" " ++ args)
      = "\n\n//Deletes record from database\nfunc (" ++ env.toLower table ++ " *"
        ++ env.uppercaseFirst table
        ++ "Obj) Delete() (sql.Result, error) \x7b\n\treturn Exec(\"DELETE FROM " ++ table
        ++ " WHERE " ++ predicate ++ "\",  " ++ args ++ ")\n\x7d\n" := by
  apply String.ext
  simp only [deleteFunc, String.data_append, List.append_assoc]
  rfl

/-- The generated `ReadById` with the parameters, the statement and its arguments
written out. -/
theorem readByIdFunc_text (env : Env) (table params predicate args : String) :
    readByIdFunc env table params (" " ++ predicate) (" " ++ args)
      = "\n//Returns a single object as pointer\nfunc ReadById(" ++ params ++ ") (*"
        ++ env.uppercaseFirst table
        ++ "Obj, error) \x7b\n\treturn ReadOneByQuery(\"SELECT * FROM " ++ table
        ++ " WHERE " ++ predicate ++ "\",  " ++ args ++ ")\n\x7d" := by
  apply String.ext
  simp only [readByIdFunc, String.data_append, List.append_assoc]
  rfl

/-- C6. For a table whose primary key has at least two columns, the generated file
holds a `Save` that ends in `return Exec(query, newArgs...)`, with no capture of
the inserted id, followed by a `Delete` that executes
`DELETE FROM <table> WHERE k1 = ? AND ... AND kn = ?` with the entity's fields for
`k1`, ..., `kn` as arguments in the same order, the keys being the key columns in
declared order.  The generation returns whenever the distinct-values queries do. -/
theorem C6_composite_key (env : Env) (gs : Gostruct) (table : String)
    (objects : List TableObj) :
    ((∀ q, ∃ rows, env.query q = .ok rows) → objects ≠ [] →
      ∃ contents st, buildCruxContents env gs table objects = .ok (contents, st)) ∧
    ∀ contents st, buildCruxContents env gs table objects = .ok (contents, st) →
      2 ≤ (keyRows objects).length →
      st.primaryKeys = (keyRows objects).map (fun o => o.Name) ∧
      ∃ pre post, contents = pre
        ++ (saveHead env table ++ "\n\n\treturn Exec(query, newArgs...)" ++ "\n\x7d")
        ++ ("\n\n//Deletes record from database\nfunc (" ++ env.toLower table ++ " *"
          ++ env.uppercaseFirst table
          ++ "Obj) Delete() (sql.Result, error) \x7b\n\treturn Exec(\"DELETE FROM " ++ table
          ++ " WHERE " ++ wherePredicate st.primaryKeys ++ "\",  "
          ++ fieldArgs env table st.primaryKeys ++ ")\n\x7d\n")
        ++ post := by
  refine ⟨fun hq hne => buildCruxContents_total env gs table objects hq hne, ?_⟩
  intro contents st h hn
  have hne : keyRows objects ≠ [] := by
    intro hc; rw [hc] at hn; simp at hn
  obtain ⟨object0, rest, saveTail, importAdd, key, keys, -, hpk, hk, -, hdirect, -, hc⟩ :=
    buildCruxContents_keyed env gs table objects contents st h hne
  have hkeys : keys ≠ [] := by
    intro hc2
    have : (keyRows objects).length = 1 := by
      have := congrArg List.length hk
      rw [hpk, hc2] at this
      simpa using this.symm
    omega
  obtain ⟨hst, -⟩ := hdirect hkeys
  refine ⟨hk, initialString env gs table ++ (importAfterLoop st ++ importAdd ++ "\n)")
    ++ (st.string1 ++ "\n\x7d"),
    readByIdFunc env table (paramDecls st.primaryKeys st.primaryKeyTypes)
      (" " ++ wherePredicate st.primaryKeys) (" " ++ paramArgs st.primaryKeys)
    ++ readAllFunc env table ++ queryFuncs env table object0 st.string2, ?_⟩
  rw [hc, hst, deleteFunc_text]
  simp only [saveDirect, saveClose, String.append_assoc]

set_option maxRecDepth 20000 in
/-- Witness for C6: for the key `(a int, b int)` of table `pairs` the generated
`Save` returns `Exec` directly and `Delete` runs the predicate `a = ? AND b = ?`
on the fields `A`, `B`. -/
theorem C6_composite_key_witness :
    ∃ contents st, buildCruxContents demoEnv demoGs "pairs" pairRows = .ok (contents, st) ∧
      ∃ pre post, contents = pre
        ++ "\treturn Exec(query, newArgs...)\n\x7d\n\n//Deletes record from database\nfunc (pairs *PairsObj) Delete() (sql.Result, error) \x7b\n\treturn Exec(\"DELETE FROM pairs WHERE a = ? AND b = ?\",  pairs.A, pairs.B)\n\x7d\n"
        ++ post := by
  obtain ⟨contents, st, h⟩ := (C6_composite_key demoEnv demoGs "pairs" pairRows).1
    (fun _ => ⟨_, rfl⟩) (by decide)
  obtain ⟨hk, pre, post, hc⟩ := (C6_composite_key demoEnv demoGs "pairs" pairRows).2
    contents st h (by decide)
  have hkeys : st.primaryKeys = ["a", "b"] := by rw [hk]; decide
  have hw : wherePredicate ["a", "b"] = "a = ? AND b = ?" := by decide
  have hf : fieldArgs demoEnv "pairs" ["a", "b"] = "pairs.A, pairs.B" := by decide
  have hl : demoEnv.toLower "pairs" = "pairs" := by decide
  have hu : demoEnv.uppercaseFirst "pairs" = "Pairs" := by decide
  refine ⟨contents, st, h, pre ++ (saveHead demoEnv "pairs" ++ "\n\n"), post, ?_⟩
  rw [hc, hkeys, hw, hf, hl, hu]
  apply String.ext
  simp only [String.data_append, List.append_assoc]
  rfl

/-- C7. For a table with a non-empty primary key, the generated `ReadById` declares
one parameter per key column, in key order, separated by `", "` with nothing after
the last, each typed from the resolved type of its key (`int` gives `int`,
`float64` gives `float64`, `string` gives `string`), and passes the parameters to
the query in the same order; a single key of type `string` gives exactly one
parameter, of type `string`.  The generation returns whenever the distinct-values
queries do. -/
theorem C7_read_by_id (env : Env) (gs : Gostruct) (table : String)
    (objects : List TableObj) :
    ((∀ q, ∃ rows, env.query q = .ok rows) → objects ≠ [] →
      ∃ contents st, buildCruxContents env gs table objects = .ok (contents, st)) ∧
    ∀ contents st, buildCruxContents env gs table objects = .ok (contents, st) →
      keyRows objects ≠ [] →
      st.primaryKeys = (keyRows objects).map (fun o => o.Name) ∧
      st.primaryKeyTypes = (keyRows objects).map (dataTypeOf env gs table) ∧
      (List.zipWith paramDecl st.primaryKeys st.primaryKeyTypes).length
        = (keyRows objects).length ∧
      (∃ pre post, contents = pre
        ++ ("\n//Returns a single object as pointer\nfunc ReadById("
          ++ ", ".intercalate (List.zipWith paramDecl st.primaryKeys st.primaryKeyTypes)
          ++ ") (*" ++ env.uppercaseFirst table
          ++ "Obj, error) \x7b\n\treturn ReadOneByQuery(\"SELECT * FROM " ++ table
          ++ " WHERE " ++ wherePredicate st.primaryKeys ++ "\",  "
          ++ ", ".intercalate (st.primaryKeys.map paramName) ++ ")\n\x7d")
        ++ post) ∧
      (∀ key, paramDecl key "int" = paramName key ++ " int" ∧
        paramDecl key "float64" = paramName key ++ " float64" ∧
        paramDecl key "string" = paramName key ++ " string") ∧
      (st.primaryKeyTypes = ["string"] → ∃ key, st.primaryKeys = [key] ∧
        ", ".intercalate (List.zipWith paramDecl st.primaryKeys st.primaryKeyTypes)
          = paramName key ++ " string") := by
  refine ⟨fun hq hne => buildCruxContents_total env gs table objects hq hne, ?_⟩
  intro contents st h hne
  obtain ⟨object0, rest, saveTail, importAdd, key, keys, -, hpk, hk, hkt, -, -, hc⟩ :=
    buildCruxContents_keyed env gs table objects contents st h hne
  have hdecl : ∀ key, paramDecl key "int" = paramName key ++ " int" ∧
      paramDecl key "float64" = paramName key ++ " float64" ∧
      paramDecl key "string" = paramName key ++ " string" := by
    intro key
    refine ⟨?_, ?_, ?_⟩ <;> simp [paramDecl, paramType, String.append_assoc]
  refine ⟨hk, hkt, ?_, ?_, hdecl, ?_⟩
  · rw [hk, hkt]; simp
  · refine ⟨initialString env gs table ++ (importAfterLoop st ++ importAdd ++ "\n)")
      ++ (st.string1 ++ "\n\x7d" ++ (saveHead env table ++ saveTail ++ saveClose
        ++ deleteFunc env table (" " ++ wherePredicate st.primaryKeys)
          (" " ++ fieldArgs env table st.primaryKeys))),
      readAllFunc env table ++ queryFuncs env table object0 st.string2, ?_⟩
    rw [hc, readByIdFunc_text, paramDecls, paramArgs]
    simp only [String.append_assoc]
  · intro hty
    have hlen : st.primaryKeys.length = st.primaryKeyTypes.length := by rw [hk, hkt]; simp
    rw [hpk, hty] at hlen
    have hkeys : keys = [] := by
      cases keys with
      | nil => rfl
      | cons a l => simp at hlen
    subst hkeys
    refine ⟨key, hpk, ?_⟩
    rw [hpk, hty]
    simp [String.intercalate, String.intercalate.go, (hdecl key).2.2]

set_option maxRecDepth 20000 in
/-- Witness for C7: the table `items` with the single text key `code` gets a
`ReadById` with the one parameter `code string`. -/
theorem C7_read_by_id_witness :
    ∃ contents st, buildCruxContents demoEnv demoGs "items" itemRows = .ok (contents, st) ∧
      ∃ pre post, contents = pre
        ++ "func ReadById(code string) (*ItemsObj, error) \x7b\n\treturn ReadOneByQuery(\"SELECT * FROM items WHERE code = ?\",  code)\n\x7d"
        ++ post := by
  obtain ⟨contents, st, h⟩ := (C7_read_by_id demoEnv demoGs "items" itemRows).1
    (fun _ => ⟨_, rfl⟩) (by decide)
  obtain ⟨hk, hkt, -, ⟨pre, post, hc⟩, -⟩ := (C7_read_by_id demoEnv demoGs "items" itemRows).2
    contents st h (by decide)
  have hkeys : st.primaryKeys = ["code"] := by rw [hk]; decide
  have htypes : st.primaryKeyTypes = ["string"] := by
    rw [hkt]
    simp [keyRows, firstByName, itemRows, column, dataTypeOf, resolvedDataType, typeSwitch,
      primaryKeyBlock]
  have hp : ", ".intercalate (List.zipWith paramDecl ["code"] ["string"]) = "code string" := by
    decide
  have hw : wherePredicate ["code"] = "code = ?" := by decide
  have ha : ", ".intercalate (["code"].map paramName) = "code" := by decide
  have hu : demoEnv.uppercaseFirst "items" = "Items" := by decide
  refine ⟨contents, st, h, pre ++ "\n//Returns a single object as pointer\n", post, ?_⟩
  rw [hc, hkeys, htypes, hp, hw, ha, hu]
  apply String.ext
  simp only [String.data_append, List.append_assoc]
  rfl

/-! ## Field order -/

/-- The generated query functions, with the two `Scan` calls set apart. -/
theorem queryFuncs_scan (env : Env) (table : String) (object0 : TableObj)
    (string2 : String) :
    queryFuncs env table object0 string2
      = queryHead env table
        ++ ("rows.Scan("
          ++ ("&" ++ env.toLower table ++ "." ++ env.uppercaseFirst object0.Name ++ string2)
          ++ ")")
        ++ queryMid env table
        ++ ("con.QueryRow(query, args...).Scan("
          ++ ("&" ++ env.toLower table ++ "." ++ env.uppercaseFirst object0.Name ++ string2)
          ++ ")")
        ++ queryTail env table := by
  apply String.ext
  simp only [queryFuncs, queryHead, queryMid, queryTail, String.data_append,
    List.append_assoc]
  rfl

/-- The first scan target followed by `string2` is the list of scan targets of the
retained rows. -/
theorem scanList_eq (env : Env) (table : String) (object0 : TableObj)
    (rows : List TableObj) :
    "&" ++ env.toLower table ++ "." ++ env.uppercaseFirst object0.Name
        ++ String.join (rows.map (scanTarget env table))
      = scanArgs env table (object0 :: rows) := by
  rw [scanArgs, List.map_cons, intercalate_cons, List.map_map]
  congr 2

/-- C8. For every non-empty list of rows the generated file declares a struct whose
fields are, in declared order, those of the retained rows (a repeated column name
dropped after its first row), each field named by `uppercaseFirst` of its column,
and both `ReadByQuery` and `ReadOneByQuery` scan into exactly these fields, by the
same names in the same order.  The generation returns whenever the distinct-values
queries do. -/
theorem C8_scan_order (env : Env) (gs : Gostruct) (table : String)
    (objects : List TableObj) :
    ((∀ q, ∃ rows, env.query q = .ok rows) → objects ≠ [] →
      ∃ contents st, buildCruxContents env gs table objects = .ok (contents, st)) ∧
    ∀ contents st, buildCruxContents env gs table objects = .ok (contents, st) →
      ((firstByName objects).map (fun o => o.Name)).Nodup ∧
      ∃ pre mid mid2 post, contents = pre
        ++ ("type " ++ env.uppercaseFirst table ++ "Obj struct \x7b"
          ++ String.join ((firstByName objects).map (fun o =>
              "\n\t" ++ env.uppercaseFirst o.Name ++ "\t\t" ++ dataTypeOf env gs table o
                ++ "\t\t`column:\"" ++ o.Name ++ "\" default:\"" ++ defaultValOf env o
                ++ "\" type:\"" ++ o.ColumnType ++ "\" key:\"" ++ o.Key ++ "\" extra:\""
                ++ o.Extra.String ++ "\"`"))
          ++ "\n\x7d")
        ++ mid
        ++ ("rows.Scan("
          ++ ", ".intercalate ((firstByName objects).map (fun o =>
              "&" ++ env.toLower table ++ "." ++ env.uppercaseFirst o.Name))
          ++ ")")
        ++ mid2
        ++ ("con.QueryRow(query, args...).Scan("
          ++ ", ".intercalate ((firstByName objects).map (fun o =>
              "&" ++ env.toLower table ++ "." ++ env.uppercaseFirst o.Name))
          ++ ")")
        ++ post := by
  refine ⟨fun hq hne => buildCruxContents_total env gs table objects hq hne, ?_⟩
  intro contents st h
  refine ⟨firstByName_nodup objects, ?_⟩
  obtain ⟨hloop, object0, rest, keyText, importAdd, hobj, -, hc⟩ :=
    buildCruxContents_ok env gs table objects contents st h
  obtain ⟨-, hs1, hs2, -, -⟩ := cruxLoop_init env gs table objects st hloop
  have hfirst : firstByName objects
      = object0 :: (firstByName rest).filter (fun p => p.Name ≠ object0.Name) := by
    rw [hobj, firstByName]
  have hscan : "&" ++ env.toLower table ++ "." ++ env.uppercaseFirst object0.Name ++ st.string2
      = ", ".intercalate ((firstByName objects).map (fun o =>
          "&" ++ env.toLower table ++ "." ++ env.uppercaseFirst o.Name)) := by
    rw [hs2, hfirst, List.tail_cons, scanList_eq, scanArgs]
  have hfield : (fun o => fieldLine env o (dataTypeOf env gs table o))
      = (fun o => "\n\t" ++ env.uppercaseFirst o.Name ++ "\t\t" ++ dataTypeOf env gs table o
          ++ "\t\t`column:\"" ++ o.Name ++ "\" default:\"" ++ defaultValOf env o
          ++ "\" type:\"" ++ o.ColumnType ++ "\" key:\"" ++ o.Key ++ "\" extra:\""
          ++ o.Extra.String ++ "\"`") := by
    funext o
    rfl
  refine ⟨initialString env gs table ++ (importAfterLoop st ++ importAdd ++ "\n)")
      ++ "\n\n//" ++ env.uppercaseFirst table
      ++ "Obj is the structure of the home table\n//\n//This contains all columns that exist in the database\n",
    keyText ++ readAllFunc env table ++ queryHead env table, queryMid env table,
    queryTail env table, ?_⟩
  rw [hc, queryFuncs_scan, hscan, hs1, hfield]
  apply String.ext
  simp only [structHead, String.data_append, List.append_assoc]
  rfl

set_option maxRecDepth 20000 in
/-- Witness for C8: of the rows `a`, `b`, `a`, `label` of table `pairs` the struct
declares the fields `A`, `B`, `Label`, and both scans target `A`, `B`, `Label` in
that order. -/
theorem C8_scan_order_witness :
    ∃ contents st, buildCruxContents demoEnv demoGs "pairs" demoRows = .ok (contents, st) ∧
      (firstByName demoRows).map (fun o => o.Name) = ["a", "b", "label"] ∧
      ∃ pre mid mid2 post, contents = pre
        ++ "type PairsObj struct \x7b\n\tA\t\tint\t\t`column:\"a\" default:\"\" type:\"int(11)\" key:\"PRI\" extra:\"\"`\n\tB\t\tint\t\t`column:\"b\" default:\"\" type:\"int(11)\" key:\"PRI\" extra:\"\"`\n\tLabel\t\tsql.NullString\t\t`column:\"label\" default:\"\" type:\"varchar(20)\" key:\"\" extra:\"\"`\n\x7d"
        ++ mid
        ++ "rows.Scan(&pairs.A, &pairs.B, &pairs.Label)"
        ++ mid2
        ++ "con.QueryRow(query, args...).Scan(&pairs.A, &pairs.B, &pairs.Label)"
        ++ post := by
  obtain ⟨contents, st, h⟩ := (C8_scan_order demoEnv demoGs "pairs" demoRows).1
    (fun _ => ⟨_, rfl⟩) (by decide)
  obtain ⟨-, pre, mid, mid2, post, hc⟩ := (C8_scan_order demoEnv demoGs "pairs" demoRows).2
    contents st h
  have hs : ", ".intercalate ((firstByName demoRows).map (fun o =>
      "&" ++ demoEnv.toLower "pairs" ++ "." ++ demoEnv.uppercaseFirst o.Name))
      = "&pairs.A, &pairs.B, &pairs.Label" := by decide
  have hf : String.join ((firstByName demoRows).map (fun o =>
      "\n\t" ++ demoEnv.uppercaseFirst o.Name ++ "\t\t" ++ dataTypeOf demoEnv demoGs "pairs" o
        ++ "\t\t`column:\"" ++ o.Name ++ "\" default:\"" ++ defaultValOf demoEnv o
        ++ "\" type:\"" ++ o.ColumnType ++ "\" key:\"" ++ o.Key ++ "\" extra:\""
        ++ o.Extra.String ++ "\"`"))
      = "\n\tA\t\tint\t\t`column:\"a\" default:\"\" type:\"int(11)\" key:\"PRI\" extra:\"\"`\n\tB\t\tint\t\t`column:\"b\" default:\"\" type:\"int(11)\" key:\"PRI\" extra:\"\"`\n\tLabel\t\tsql.NullString\t\t`column:\"label\" default:\"\" type:\"varchar(20)\" key:\"\" extra:\"\"`" := by
    rfl
  have hu : demoEnv.uppercaseFirst "pairs" = "Pairs" := by decide
  refine ⟨contents, st, h, by decide, pre, mid, mid2, post, ?_⟩
  rw [hc, hs, hf, hu]
  apply String.ext
  simp only [String.data_append, List.append_assoc]
  rfl

/-! ## The generated `Save` and the enum values -/

/-- Counterexample to C9 as stated: for the entity of table `users` with the key
column `id` and the column `name`, the update list of the statement assigns the
key column `id` too. -/
theorem C9_update_assigns_key :
    (userEntity.map (fun f => (f.2.column, f.2.key))) = [("id", "PRI"), ("name", "")] ∧
    saveStatement "users" userEntity
      = .ok ("INSERT INTO users (`id`, `name`) VALUES (?, ?) ON DUPLICATE KEY UPDATE `id` = ?, `name` = ?",
          [.int 7, .string "ann", .int 7, .string "ann"]) ∧
    saveStatement "users" userEntity
      ≠ .ok (upsertStatement "users" ["id", "name"] ["name"],
          [.int 7, .string "ann", .int 7, .string "ann"]) := by
  have h : saveStatement "users" userEntity
      = .ok ("INSERT INTO users (`id`, `name`) VALUES (?, ?) ON DUPLICATE KEY UPDATE `id` = ?, `name` = ?",
          [.int 7, .string "ann", .int 7, .string "ann"]) := by rfl
  refine ⟨by decide, h, ?_⟩
  rw [h]
  intro hc
  have hq := congrArg Prod.fst (Except.ok.inj hc)
  exact absurd hq (by decide)

/-- The code at the failing input of C10: for `enum('male','female')` the trim of
the leading characters also removes the `m` of `male`; for `enum('A','B','C')` the
values are `A`, `B`, `C`. -/
theorem C10_enum_values_eval :
    Between "enum('male','female')" "enum('" "')" = "ale','female" ∧
    enumValues "enum('male','female')" = ["ale", "female"] ∧
    enumValues "enum('A','B','C')" = ["A", "B", "C"] := by
  refine ⟨by decide, by decide, by decide⟩

/-- A string that ends in a non-empty string is not empty. -/
theorem append_ne_empty (a b : String) (hb : b ≠ "") : a ++ b ≠ "" := by
  intro h
  have hd := congrArg String.data h
  simp only [String.data_append] at hd
  have hbd : b.data = [] := (List.append_eq_nil.1 hd).2
  exact hb (String.ext hbd)

/-- An assignment of the update list is not empty. -/
theorem assignment_ne_empty (column : String) : "`" ++ column ++ "` = ?" ≠ "" :=
  append_ne_empty _ _ (by decide)

/-- The loop of the generated `Save` from a positive index with a non-empty
`updateStr`: every field adds its quoted column, its validated value, a question
mark and, after a `", "`, its assignment. -/
theorem saveLoop_pos (fields : List (GoValue × FieldTag)) (i : Nat) (acc : SaveAcc)
    (hi : 0 < i) (hu : acc.updateStr ≠ "") :
    saveLoop i fields acc = (validateAll fields).map (fun vals =>
      { columnArr := acc.columnArr ++ fields.map (fun f => "`" ++ f.2.column ++ "`")
        args := acc.args ++ vals
        q := acc.q ++ fields.map (fun _ => "?")
        updateStr := acc.updateStr
          ++ String.join (fields.map (fun f => ", " ++ ("`" ++ f.2.column ++ "` = ?"))) }) := by
  induction fields generalizing i acc with
  | nil => simp [saveLoop, validateAll, Except.map, join_nil]
  | cons f fields ih =>
    obtain ⟨v, field⟩ := f
    simp only [saveLoop, validateAll]
    cases hv : ValidateField v field with
    | error e => simp [Except.map]
    | ok val =>
      simp only
      rw [ih (i + 1) _ (Nat.succ_pos i) (append_ne_empty _ _ (assignment_ne_empty _))]
      cases hall : validateAll fields with
      | error e => simp [Except.map]
      | ok vals =>
        simp only [Except.map, hi, hu, gt_iff_lt, ne_eq, not_false_eq_true, and_self, if_true,
          List.map_cons, join_cons, List.append_assoc, List.singleton_append,
          String.append_assoc]

/-- C9 (amended). The statement built by the generated `Save` inserts all columns
of the entity and its `ON DUPLICATE KEY UPDATE` clause assigns every column of the
entity in field order, the primary-key columns included; the arguments are the
validated values of the fields, twice; a field that fails validation makes `Save`
return that error instead. -/
theorem C9_save_statement (table : String) (fields : List (GoValue × FieldTag)) :
    saveStatement table fields = (validateAll fields).map (fun vals =>
      (upsertStatement table (fields.map (fun f => f.2.column))
        (fields.map (fun f => f.2.column)), vals ++ vals)) := by
  cases fields with
  | nil =>
    simp only [saveStatement, saveLoop, validateAll, Except.map, upsertStatement, List.map_nil,
      List.append_nil, String.intercalate, String.append_empty]
  | cons f fields =>
    obtain ⟨v, field⟩ := f
    simp only [saveStatement, saveLoop, validateAll]
    cases hv : ValidateField v field with
    | error e => simp [Except.map]
    | ok val =>
      simp only
      rw [saveLoop_pos fields 1 _ Nat.one_pos (append_ne_empty _ _ (assignment_ne_empty _))]
      cases hall : validateAll fields with
      | error e => simp [Except.map]
      | ok vals =>
        simp only [Except.map, upsertStatement, Nat.lt_irrefl, gt_iff_lt, false_and, if_false,
          List.map_cons, List.map_map, intercalate_cons, List.nil_append,
          String.empty_append, Except.ok.injEq, Prod.mk.injEq, List.cons_append, and_true]
        rfl

/-! ## Enum validation on save -/

/-- The membership test of `InArray`. -/
theorem InArray_iff (char : String) (strings : List String) :
    InArray char strings = true ↔ char ∈ strings := by
  simp only [InArray, List.any_eq_true, decide_eq_true_eq]
  constructor
  · rintro ⟨a, ha, rfl⟩
    exact ha
  · intro h
    exact ⟨char, h, rfl⟩

/-- The loop of the generated `Save` stops with the error of the first field that
fails validation. -/
theorem saveLoop_error (pre post : List (GoValue × FieldTag)) (f : GoValue × FieldTag)
    (vals : List GoValue) (err : String) (i : Nat) (acc : SaveAcc)
    (hpre : validateAll pre = .ok vals) (hf : ValidateField f.1 f.2 = .error err) :
    saveLoop i (pre ++ f :: post) acc = .error err := by
  induction pre generalizing i acc vals with
  | nil =>
    obtain ⟨v, field⟩ := f
    simp only [List.nil_append, saveLoop]
    simp only at hf
    rw [hf]
  | cons g pre ih =>
    obtain ⟨v, field⟩ := g
    simp only [validateAll] at hpre
    cases hv : ValidateField v field with
    | error e => rw [hv] at hpre; exact absurd hpre (by simp)
    | ok val =>
      rw [hv] at hpre
      cases hall : validateAll pre with
      | error e => rw [hall] at hpre; exact absurd hpre (by simp)
      | ok vals' =>
        simp only [List.cons_append, saveLoop, hv]
        exact ih vals' _ _ hall

/-- C11. For a field whose type tag contains `enum` and a string value `s` (held
as `string` or as `sql.NullString`) that is not among the extracted allowed values,
`ValidateField` returns an error and no value; the message names `s`, the column
and the allowed values joined by `", "`; and a `Save` of an entity in which this is
the first field to fail returns that error without any call of `Exec`, leaving the
entity as it was. -/
theorem C11_invalid_enum (val : GoValue) (field : FieldTag) (s : String)
    (htag : stringsContains field.typeTag "enum" = true)
    (hval : val = .string s ∨ ∃ valid, val = .nullString s valid)
    (hnot : s ∉ enumValues field.typeTag) :
    ValidateField val field
      = .error ("Invalid value: '" ++ s ++ "' for column: " ++ field.column
          ++ ". Possible values are: " ++ ", ".intercalate (enumValues field.typeTag)) ∧
    ∀ (exec : String → List GoValue → Except String SqlResult) (table : String)
      (saveEnd : SaveEnd) (pre post : List (GoValue × FieldTag)) (vals : List GoValue),
      validateAll pre = .ok vals →
      (Save exec table saveEnd (pre ++ (val, field) :: post)).result
        = .error (invalidEnumMessage s field.column (enumValues field.typeTag)) ∧
      (Save exec table saveEnd (pre ++ (val, field) :: post)).execCalls = [] ∧
      (Save exec table saveEnd (pre ++ (val, field) :: post)).fields
        = pre ++ (val, field) :: post := by
  have hin : InArray s (enumValues field.typeTag) = false := by
    rw [Bool.eq_false_iff]
    intro hc
    exact hnot ((InArray_iff _ _).1 hc)
  have hv : ValidateField val field
      = .error (invalidEnumMessage s field.column (enumValues field.typeTag)) := by
    rcases hval with rfl | ⟨valid, rfl⟩ <;>
      simp [ValidateField, htag, hin, invalidEnumMessage]
  refine ⟨hv, ?_⟩
  intro exec table saveEnd pre post vals hpre
  have hloop := saveLoop_error pre post (val, field) vals _ 0
    { columnArr := [], args := [], q := [], updateStr := "" } hpre hv
  have hst : saveStatement table (pre ++ (val, field) :: post)
      = .error (invalidEnumMessage s field.column (enumValues field.typeTag)) := by
    simp only [saveStatement, hloop]
  simp only [Save, hst, and_self]

/-- Witness for C11: saving `D` into the column `status` of type
`enum('A','B','C')` fails, before any `Exec`, with a message that lists `A, B, C`. -/
theorem C11_invalid_enum_witness :
    ValidateField statusField.1 statusField.2
      = .error "Invalid value: 'D' for column: status. Possible values are: A, B, C" ∧
    (Save (fun _ _ => .ok ⟨1, 1⟩) "tasks" .direct (userEntity ++ [statusField])).result
      = .error "Invalid value: 'D' for column: status. Possible values are: A, B, C" ∧
    (Save (fun _ _ => .ok ⟨1, 1⟩) "tasks" .direct (userEntity ++ [statusField])).execCalls
      = [] := by
  have h := C11_invalid_enum (.string "D") statusField.2 "D" (by decide) (Or.inl rfl)
    (by decide)
  have hm : invalidEnumMessage "D" statusField.2.column (enumValues statusField.2.typeTag)
      = "Invalid value: 'D' for column: status. Possible values are: A, B, C" := by decide
  have hs := h.2 (fun _ _ => .ok ⟨1, 1⟩) "tasks" .direct userEntity []
    [.int 7, .string "ann"] rfl
  rw [hm] at hs
  exact ⟨h.1.trans (congrArg Except.error hm), hs.1, hs.2.1⟩

/-! ## The orchestrator -/

/-- The membership test of `inArray`. -/
theorem inArray_iff (char : String) (strings : List String) :
    inArray char strings = true ↔ char ∈ strings := by
  simp only [inArray, List.any_eq_true, decide_eq_true_eq]
  constructor
  · rintro ⟨a, ha, rfl⟩
    exact ha
  · intro h
    exact ⟨char, h, rfl⟩

/-- What a call of `handleTable` does to the processed list: a name that is in it
leaves it as it is, any other name is appended. -/
theorem handleTable_tablesDone (sys : Sys) (env : Env) (gs : Gostruct) (name : String)
    (w : World) :
    (handleTable sys env gs name w).2.tablesDone
      = if name ∈ w.tablesDone then w.tablesDone else w.tablesDone ++ [name] := by
  unfold handleTable
  by_cases hin : inArray name w.tablesDone = true
  · simp [hin, (inArray_iff _ _).1 hin]
  · have hmem : name ∉ w.tablesDone := fun hc => hin ((inArray_iff _ _).2 hc)
    simp only [hin, hmem, if_false, Bool.false_eq_true]
    cases sys.openError with
    | some err => rfl
    | none =>
      simp only
      cases sys.columns name with
      | error err => rfl
      | ok objects =>
        simp only
        split <;> rfl

/-- A call of `handleTable` for a processed table returns `nil` and changes
nothing. -/
theorem handleTable_done (sys : Sys) (env : Env) (gs : Gostruct) (table : String)
    (w : World) (h : table ∈ w.tablesDone) :
    handleTable sys env gs table w = (none, w) := by
  unfold handleTable
  simp [(inArray_iff _ _).2 h]

/-- A run of calls keeps every processed name and keeps the list free of
repetitions. -/
theorem handleTables_tablesDone (sys : Sys) (env : Env) (gs : Gostruct)
    (names : List String) (w : World) :
    (∀ x ∈ w.tablesDone, x ∈ (handleTables sys env gs names w).tablesDone) ∧
    (w.tablesDone.Nodup → (handleTables sys env gs names w).tablesDone.Nodup) := by
  induction names generalizing w with
  | nil => exact ⟨fun _ h => h, fun h => h⟩
  | cons name names ih =>
    simp only [handleTables]
    obtain ⟨ih1, ih2⟩ := ih (handleTable sys env gs name w).2
    have hd := handleTable_tablesDone sys env gs name w
    constructor
    · intro x hx
      apply ih1
      rw [hd]
      split
      · exact hx
      · exact List.mem_append_left _ hx
    · intro hnd
      apply ih2
      rw [hd]
      split
      · exact hnd
      · rename_i hmem
        exact List.Nodup.append hnd (List.nodup_singleton _)
          (by
          intro a ha hs
          rw [List.mem_singleton] at hs
          exact hmem (hs ▸ ha))

/-- C12. Once `handleTable` has been called for a table, the table is in
`tablesDone` and stays there through every later call; a call for a table that is
in `tablesDone` returns `nil` and leaves the whole state as it is (no column query,
no change of the file system); and no call makes a name occur twice in
`tablesDone`.  So after a first call for `table` and any further calls, another
call for `table` is without effect. -/
theorem C12_processed_once (sys : Sys) (env : Env) (gs : Gostruct) (table : String) :
    (∀ w, table ∈ (handleTable sys env gs table w).2.tablesDone) ∧
    (∀ w name, table ∈ w.tablesDone →
      table ∈ (handleTable sys env gs name w).2.tablesDone) ∧
    (∀ w, table ∈ w.tablesDone → handleTable sys env gs table w = (none, w)) ∧
    (∀ w name, w.tablesDone.Nodup → (handleTable sys env gs name w).2.tablesDone.Nodup) ∧
    (∀ w names,
      handleTable sys env gs table
          (handleTables sys env gs names (handleTable sys env gs table w).2)
        = (none, handleTables sys env gs names (handleTable sys env gs table w).2) ∧
      (w.tablesDone.Nodup →
        (handleTables sys env gs names (handleTable sys env gs table w).2).tablesDone.Nodup)) := by
  have h1 : ∀ w, table ∈ (handleTable sys env gs table w).2.tablesDone := by
    intro w
    rw [handleTable_tablesDone]
    split
    · assumption
    · exact List.mem_append_right _ (List.mem_singleton_self _)
  have h2 : ∀ w name, table ∈ w.tablesDone →
      table ∈ (handleTable sys env gs name w).2.tablesDone := by
    intro w name h
    rw [handleTable_tablesDone]
    split
    · exact h
    · exact List.mem_append_left _ h
  have h4 : ∀ w name, w.tablesDone.Nodup →
      (handleTable sys env gs name w).2.tablesDone.Nodup := by
    intro w name hnd
    rw [handleTable_tablesDone]
    split
    · exact hnd
    · rename_i hmem
      exact List.Nodup.append hnd (List.nodup_singleton _)
        (by
          intro a ha hs
          rw [List.mem_singleton] at hs
          exact hmem (hs ▸ ha))
  refine ⟨h1, h2, fun w h => handleTable_done sys env gs table w h, h4, ?_⟩
  intro w names
  obtain ⟨hk, hn⟩ := handleTables_tablesDone sys env gs names (handleTable sys env gs table w).2
  exact ⟨handleTable_done sys env gs table _ (hk table (h1 w)), fun hnd => hn (h4 w table hnd)⟩

/-- Witness for C12: in a state where `pairs` is processed, a call for `pairs`
returns `nil` and changes nothing. -/
theorem C12_processed_once_witness :
    handleTable demoSys demoEnv demoGs "pairs" doneWorld = (none, doneWorld) :=
  (C12_processed_once demoSys demoEnv demoGs "pairs").2.2.1 doneWorld (by decide)

/-- C14. When a table that is not yet processed is queried for its columns (the
connection opens) and the query returns no rows, `handleTable` returns the error
`No results for table: <table>`, and the file system is as before: no directory is
created and no file written. -/
theorem C14_no_columns (sys : Sys) (env : Env) (gs : Gostruct) (table : String) (w : World)
    (hnew : table ∉ w.tablesDone) (hopen : sys.openError = none)
    (hcols : sys.columns table = .ok []) :
    (handleTable sys env gs table w).1 = some ("No results for table: " ++ table) ∧
    (handleTable sys env gs table w).2.fs = w.fs ∧
    (handleTable sys env gs table w).2.queried = w.queried ++ [table] := by
  have hin : inArray table w.tablesDone = false := by
    rw [Bool.eq_false_iff]
    exact fun hc => hnew ((inArray_iff _ _).1 hc)
  unfold handleTable
  simp [hin, hopen, hcols]

/-- Witness for C14: the table `ghost` has no columns; the call fails with
`No results for table: ghost` and the empty file system stays empty. -/
theorem C14_no_columns_witness :
    (handleTable demoSys demoEnv demoGs "ghost" (initWorld emptyFs)).1
      = some "No results for table: ghost" ∧
    (handleTable demoSys demoEnv demoGs "ghost" (initWorld emptyFs)).2.fs = emptyFs :=
  ⟨(C14_no_columns demoSys demoEnv demoGs "ghost" (initWorld emptyFs) (by decide) rfl rfl).1,
    (C14_no_columns demoSys demoEnv demoGs "ghost" (initWorld emptyFs) (by decide) rfl rfl).2.1⟩

/-! ## Regeneration over existing files -/

/-- The command `go fmt <path>` formats the file at `path`. -/
theorem runCommand_fmt (sys : Sys) (fs : FileSystem) (path : String) :
    runCommand sys fs ("go fmt " ++ path)
      = match fs.files path with
        | none => (some ("go fmt: no such file: " ++ path), fs)
        | some contents =>
          match sys.goFmt path contents with
          | .error err => (some err, fs)
          | .ok formatted =>
            (none,
              { fs with files := fun p => if p = path then some formatted else fs.files p }) := by
  have hpre : "go fmt ".data.isPrefixOf ("go fmt " ++ path).data = true := by
    simp only [String.data_append]
    simp
  have hdrop : (⟨("go fmt " ++ path).data.drop 7⟩ : String) = path := by
    simp only [String.data_append]
    rfl
  simp only [runCommand, hpre, if_true, hdrop]

/-- Formatting any file keeps a file at its old contents or a formatted form of
them. -/
theorem runCommand_holds (sys : Sys) (fs : FileSystem) (p old q : String)
    (h : HoldsFormatted sys p old fs) :
    HoldsFormatted sys p old (runCommand sys fs ("go fmt " ++ q)).2 := by
  rw [runCommand_fmt]
  cases hq : fs.files q with
  | none => exact h
  | some contents =>
    simp only
    cases hf : sys.goFmt q contents with
    | error err => exact h
    | ok formatted =>
      simp only
      obtain ⟨new, hnew, hreach⟩ := h
      by_cases hpq : p = q
      · subst hpq
        rw [hnew] at hq
        cases hq
        exact ⟨formatted, by simp, hreach.tail hf⟩
      · exact ⟨new, by simp [hpq, hnew], hreach⟩

/-- Writing another file keeps a file as it is. -/
theorem writeFile_holds (sys : Sys) (fs : FileSystem) (p old q contents : String)
    (overwrite : Bool) (hpq : p ≠ q) (h : HoldsFormatted sys p old fs) :
    HoldsFormatted sys p old (writeFile sys fs q contents overwrite).2 := by
  unfold writeFile
  cases sys.writeError q with
  | some err => exact h
  | none =>
    obtain ⟨new, hnew, hreach⟩ := h
    exact ⟨new, by simp [hpq, hnew], hreach⟩

/-- A write that does not fail leaves the written contents in the file. -/
theorem writeFile_written (sys : Sys) (fs : FileSystem) (q contents : String)
    (overwrite : Bool) (hw : sys.writeError q = none) :
    (writeFile sys fs q contents overwrite).1 = none ∧
    HoldsFormatted sys q contents (writeFile sys fs q contents overwrite).2 := by
  unfold writeFile
  rw [hw]
  exact ⟨rfl, contents, by simp, Relation.ReflTransGen.refl⟩

/-- A write-once builder never replaces an existing file: it keeps every such file
at its old contents or a formatted form of them. -/
theorem buildOnce_holds (sys : Sys) (fs : FileSystem) (p old q contents : String)
    (h : HoldsFormatted sys p old fs) :
    HoldsFormatted sys p old (buildOnce sys fs q contents).2 := by
  unfold buildOnce
  by_cases hex : pathExists fs q = true
  · simp only [hex, Bool.not_true, Bool.false_eq_true, if_false]
    exact runCommand_holds sys fs p old q h
  · have hq : fs.files q = none := by
      cases hfq : fs.files q with
      | none => rfl
      | some c => exact absurd (by simp [pathExists, hfq]) hex
    have hpq : p ≠ q := by
      rintro rfl
      obtain ⟨new, hnew, -⟩ := h
      rw [hq] at hnew
      cases hnew
    simp only [hex, Bool.not_false, if_true]
    have hw := writeFile_holds sys fs p old q contents false hpq h
    cases hwf : writeFile sys fs q contents false with
    | mk e fs1 =>
      rw [hwf] at hw
      cases e with
      | some err => exact hw
      | none => exact runCommand_holds sys fs1 p old q hw

/-- Creating a directory leaves every file as it is. -/
theorem CreateDirectory_files (sys : Sys) (fs : FileSystem) (path : String) :
    (CreateDirectory sys fs path).2.files = fs.files := by
  unfold CreateDirectory osMkdir osChmod
  cases sys.mkdirError path with
  | some err => rfl
  | none =>
    simp only
    cases sys.chmodError path <;> rfl

/-- The date package is built without touching any file but `date.go`. -/
theorem buildDatePackage_holds (sys : Sys) (fs : FileSystem) (p old : String)
    (hp : p ≠ dateFilePath sys) (h : HoldsFormatted sys p old fs) :
    HoldsFormatted sys p old (buildDatePackage sys fs).2 := by
  unfold buildDatePackage
  have hmade : ∀ r : Option String × FileSystem, r.2.files = fs.files →
      HoldsFormatted sys p old
        (match r with
        | (some err, fs) => (some err, fs)
        | (none, fs) =>
          match writeFile sys fs (dateFilePath sys) dateContents false with
          | (some err, fs) => (some err, fs)
          | (none, fs) => runCommand sys fs ("go fmt " ++ dateFilePath sys)).2 := by
    rintro ⟨e, fs1⟩ hfiles
    have h1 : HoldsFormatted sys p old fs1 := by
      obtain ⟨new, hnew, hreach⟩ := h
      exact ⟨new, by simp only at hfiles; rw [hfiles]; exact hnew, hreach⟩
    cases e with
    | some err => exact h1
    | none =>
      simp only
      have hw := writeFile_holds sys fs1 p old (dateFilePath sys) dateContents false hp h1
      cases hwf : writeFile sys fs1 (dateFilePath sys) dateContents false with
      | mk e2 fs2 =>
        rw [hwf] at hw
        cases e2 with
        | some err => exact hw
        | none => exact runCommand_holds sys fs2 p old _ hw
  by_cases hex : pathExists fs (sys.GOPATH ++ "/src/date") = true
  · simp only [hex, Bool.not_true, Bool.false_eq_true, if_false]
    exact hmade (none, fs) rfl
  · simp only [hex, Bool.not_false, if_true]
    exact hmade _ (CreateDirectory_files sys fs _)

/-- Building the CRUX file touches no file but `CRUX_<Table>.go`. -/
theorem buildCruxFile_holds (sys : Sys) (env : Env) (gs : Gostruct)
    (objects : List TableObj) (table : String) (fs : FileSystem) (p old : String)
    (hp : p ≠ cruxFilePath sys env table) (h : HoldsFormatted sys p old fs) :
    HoldsFormatted sys p old (buildCruxFile sys env gs objects table fs).2 := by
  unfold buildCruxFile
  cases buildCruxContents env gs table objects with
  | error err => exact h
  | ok r =>
    obtain ⟨contents, st⟩ := r
    simp only
    have hw := writeFile_holds sys fs p old (cruxFilePath sys env table) contents true hp h
    cases hwf : writeFile sys fs (cruxFilePath sys env table) contents true with
    | mk e fs1 =>
      rw [hwf] at hw
      cases e with
      | some err => exact hw
      | none =>
        simp only
        have hr := runCommand_holds sys fs1 p old (cruxFilePath sys env table) hw
        cases hrc : runCommand sys fs1 ("go fmt " ++ cruxFilePath sys env table) with
        | mk e2 fs2 =>
          rw [hrc] at hr
          cases e2 <;> exact hr

/-- Once the text is generated and the write does not fail, `CRUX_<Table>.go` holds
the generated text or its formatted form. -/
theorem buildCruxFile_written (sys : Sys) (env : Env) (gs : Gostruct)
    (objects : List TableObj) (table : String) (fs : FileSystem) (contents : String)
    (st : CruxState) (hc : buildCruxContents env gs table objects = .ok (contents, st))
    (hw : sys.writeError (cruxFilePath sys env table) = none) :
    HoldsFormatted sys (cruxFilePath sys env table) contents
      (buildCruxFile sys env gs objects table fs).2 := by
  unfold buildCruxFile
  rw [hc]
  simp only
  obtain ⟨hnone, hheld⟩ := writeFile_written sys fs (cruxFilePath sys env table) contents true hw
  cases hwf : writeFile sys fs (cruxFilePath sys env table) contents true with
  | mk e fs1 =>
    rw [hwf] at hnone hheld
    simp only at hnone
    subst hnone
    simp only
    have hr := runCommand_holds sys fs1 _ contents (cruxFilePath sys env table) hheld
    cases hrc : runCommand sys fs1 ("go fmt " ++ cruxFilePath sys env table) with
    | mk e2 fs2 =>
      rw [hrc] at hr
      cases e2 <;> exact hr

/-- None of the custom files is the CRUX file. -/
theorem customFiles_ne_crux (sys : Sys) (env : Env) (table : String) (p : String)
    (hp : p ∈ customFiles sys env table) : p ≠ cruxFilePath sys env table := by
  simp only [customFiles, List.mem_cons, List.mem_singleton, List.not_mem_nil, or_false] at hp
  rcases hp with rfl | rfl | rfl | rfl
  · intro h
    have h2 := congrArg String.data h
    simp only [daoFilePath, cruxFilePath, String.data_append, List.append_assoc,
      List.append_right_inj] at h2
    simp at h2
  · intro h
    have h2 := congrArg String.data h
    simp only [boFilePath, cruxFilePath, String.data_append, List.append_assoc,
      List.append_right_inj] at h2
    simp at h2
  · intro h
    have h2 := congrArg String.data h
    simp only [testFilePath, cruxFilePath, String.data_append, List.append_assoc,
      List.append_right_inj] at h2
    have h3 := congrArg (List.count 't') h2
    simp only [List.count_append] at h3
    have e1 : List.count 't' "_test.go".data = 2 := by decide
    have e2 : List.count 't' "CRUX_".data = 0 := by decide
    have e3 : List.count 't' ".go".data = 0 := by decide
    rw [e1, e2, e3] at h3
    omega
  · intro h
    have h2 := congrArg String.data h
    simp only [examplesFilePath, cruxFilePath, String.data_append, List.append_assoc,
      List.append_right_inj] at h2
    simp at h2

/-- No file of the package of a table is `date.go`. -/
theorem tableDir_ne_date (sys : Sys) (env : Env) (table : String) (name : String) :
    tableDir sys env table ++ name ≠ dateFilePath sys := by
  intro h
  have h2 := congrArg String.data h
  simp only [tableDir, dateFilePath, String.data_append, List.append_assoc,
    List.append_right_inj] at h2
  simp at h2

/-- None of the custom files is `date.go`. -/
theorem customFiles_ne_date (sys : Sys) (env : Env) (table : String) (p : String)
    (hp : p ∈ customFiles sys env table) : p ≠ dateFilePath sys := by
  simp only [customFiles, List.mem_cons, List.mem_singleton, List.not_mem_nil, or_false] at hp
  rcases hp with rfl | rfl | rfl | rfl
  · have := tableDir_ne_date sys env table ("DAO_" ++ env.uppercaseFirst table ++ ".go")
    simpa only [daoFilePath, String.append_assoc] using this
  · have := tableDir_ne_date sys env table ("BO_" ++ env.uppercaseFirst table ++ ".go")
    simpa only [boFilePath, String.append_assoc] using this
  · have := tableDir_ne_date sys env table (env.uppercaseFirst table ++ "_test.go")
    simpa only [testFilePath, String.append_assoc] using this
  · exact tableDir_ne_date sys env table "examples_test.go"

/-- The CRUX file is not `date.go`. -/
theorem crux_ne_date (sys : Sys) (env : Env) (table : String) :
    cruxFilePath sys env table ≠ dateFilePath sys := by
  have := tableDir_ne_date sys env table ("CRUX_" ++ env.uppercaseFirst table ++ ".go")
  simpa only [cruxFilePath, String.append_assoc] using this

/-- The steps of `handleTable` after the CRUX file: every file but `date.go` is
kept at its old contents or a formatted form of them. -/
theorem buildRest_holds (sys : Sys) (env : Env) (table : String) (st : CruxState)
    (fs : FileSystem) (p old : String) (hp : p ≠ dateFilePath sys)
    (h : HoldsFormatted sys p old fs) :
    HoldsFormatted sys p old
      (match buildDaoFile sys env table fs with
      | (some err, fs) => (some err, fs)
      | (none, fs) =>
        match buildBoFile sys env table fs with
        | (some err, fs) => (some err, fs)
        | (none, fs) =>
          match buildTestFile sys env table fs with
          | (some err, fs) => (some err, fs)
          | (none, fs) =>
            match buildExamplesFile sys env table st fs with
            | (some err, fs) => (some err, fs)
            | (none, fs) => buildDatePackage sys fs).2 := by
  have h1 : HoldsFormatted sys p old (buildDaoFile sys env table fs).2 :=
    buildOnce_holds sys fs p old _ _ h
  cases hd : buildDaoFile sys env table fs with
  | mk e1 fs1 =>
    rw [hd] at h1
    cases e1 with
    | some err => exact h1
    | none =>
      simp only
      have h2 : HoldsFormatted sys p old (buildBoFile sys env table fs1).2 :=
        buildOnce_holds sys fs1 p old _ _ h1
      cases hb : buildBoFile sys env table fs1 with
      | mk e2 fs2 =>
        rw [hb] at h2
        cases e2 with
        | some err => exact h2
        | none =>
          simp only
          have h3 : HoldsFormatted sys p old (buildTestFile sys env table fs2).2 :=
            buildOnce_holds sys fs2 p old _ _ h2
          cases ht : buildTestFile sys env table fs2 with
          | mk e3 fs3 =>
            rw [ht] at h3
            cases e3 with
            | some err => exact h3
            | none =>
              simp only
              have h4 : HoldsFormatted sys p old (buildExamplesFile sys env table st fs3).2 :=
                buildOnce_holds sys fs3 p old _ _ h3
              cases hx : buildExamplesFile sys env table st fs3 with
              | mk e4 fs4 =>
                rw [hx] at h4
                cases e4 with
                | some err => exact h4
                | none => exact buildDatePackage_holds sys fs4 p old hp h4

/-- The directory step of `handleTable` (lines 183-194) leaves every file as it
is. -/
theorem tableDirStep_files (sys : Sys) (fs : FileSystem) (dir : String) :
    (if !pathExists fs dir then
        match osMkdir sys fs dir with
        | (some err, fs) => (some err, fs)
        | (none, fs) =>
          match osChmod sys dir with
          | some err => (some err, fs)
          | none => (none, fs)
      else ((none : Option String), fs)).2.files = fs.files := by
  split
  · unfold osMkdir osChmod
    cases sys.mkdirError dir with
    | some err => rfl
    | none =>
      simp only
      cases sys.chmodError dir <;> rfl
  · rfl

/-- The build steps of `handleTable` keep every file other than the CRUX file and
`date.go` at its old contents or a formatted form of them. -/
theorem buildAll_holds (sys : Sys) (env : Env) (gs : Gostruct) (objects : List TableObj)
    (table : String) (fs : FileSystem) (p old : String)
    (hp1 : p ≠ cruxFilePath sys env table) (hp2 : p ≠ dateFilePath sys)
    (h : HoldsFormatted sys p old fs) :
    HoldsFormatted sys p old (buildAll sys env gs objects table fs).2 := by
  unfold buildAll
  simp only
  have hfiles := tableDirStep_files sys fs (tableDir sys env table)
  generalize (if !pathExists fs (tableDir sys env table) then
        match osMkdir sys fs (tableDir sys env table) with
        | (some err, fs) => (some err, fs)
        | (none, fs) =>
          match osChmod sys (tableDir sys env table) with
          | some err => (some err, fs)
          | none => (none, fs)
      else ((none : Option String), fs)) = made at hfiles ⊢
  obtain ⟨e0, fs0⟩ := made
  have h0 : HoldsFormatted sys p old fs0 := by
    obtain ⟨new, hnew, hreach⟩ := h
    simp only at hfiles
    exact ⟨new, by rw [hfiles]; exact hnew, hreach⟩
  cases e0 with
  | some err => exact h0
  | none =>
    simp only
    have hc := buildCruxFile_holds sys env gs objects table fs0 p old hp1 h0
    cases hcf : buildCruxFile sys env gs objects table fs0 with
    | mk r fs1 =>
      rw [hcf] at hc
      cases r with
      | error err => exact hc
      | ok st => exact buildRest_holds sys env table st fs1 p old hp2 hc

/-- A call of `handleTable` keeps every file other than the CRUX file and `date.go`
at its old contents or a formatted form of them. -/
theorem handleTable_holds (sys : Sys) (env : Env) (gs : Gostruct) (table : String)
    (w : World) (p old : String)
    (hp1 : p ≠ cruxFilePath sys env table) (hp2 : p ≠ dateFilePath sys)
    (h : HoldsFormatted sys p old w.fs) :
    HoldsFormatted sys p old (handleTable sys env gs table w).2.fs := by
  unfold handleTable
  split
  · exact h
  · simp only
    cases sys.openError with
    | some err => exact h
    | none =>
      simp only
      cases sys.columns table with
      | error err => exact h
      | ok objects =>
        simp only
        split
        · exact h
        · exact buildAll_holds sys env gs objects table w.fs p old hp1 hp2 h

/-- Contents that `go fmt` leaves as they are stay as they are. -/
theorem FormattedFrom_fixed (sys : Sys) (path old new : String)
    (hfix : ∀ c, sys.goFmt path old = .ok c → c = old)
    (h : FormattedFrom sys path old new) : new = old := by
  unfold FormattedFrom at h
  induction h with
  | refl => rfl
  | tail _ hstep ih =>
    subst ih
    exact hfix _ hstep

/-- When the directory of the table exists or can be made, the text is generated
and the write does not fail, the build steps leave `CRUX_<Table>.go` with the
generated text or its formatted form. -/
theorem buildAll_written (sys : Sys) (env : Env) (gs : Gostruct) (objects : List TableObj)
    (table : String) (fs : FileSystem) (contents : String) (st : CruxState)
    (hdir : pathExists fs (tableDir sys env table) = true ∨
      (sys.mkdirError (tableDir sys env table) = none ∧
        sys.chmodError (tableDir sys env table) = none))
    (hc : buildCruxContents env gs table objects = .ok (contents, st))
    (hw : sys.writeError (cruxFilePath sys env table) = none) :
    HoldsFormatted sys (cruxFilePath sys env table) contents
      (buildAll sys env gs objects table fs).2 := by
  have hmade : ∃ fs0, (if !pathExists fs (tableDir sys env table) then
        match osMkdir sys fs (tableDir sys env table) with
        | (some err, fs) => (some err, fs)
        | (none, fs) =>
          match osChmod sys (tableDir sys env table) with
          | some err => (some err, fs)
          | none => (none, fs)
      else ((none : Option String), fs)) = (none, fs0) := by
    by_cases hex : pathExists fs (tableDir sys env table) = true
    · exact ⟨fs, by simp [hex]⟩
    · rcases hdir with hd | ⟨hm, hch⟩
      · exact absurd hd hex
      · exact ⟨{ fs with dirs := fun d => d = tableDir sys env table || fs.dirs d },
          by simp [hex, osMkdir, osChmod, hm, hch]⟩
  obtain ⟨fs0, hfs0⟩ := hmade
  unfold buildAll
  simp only [hfs0]
  have hwr := buildCruxFile_written sys env gs objects table fs0 contents st hc hw
  cases hcf : buildCruxFile sys env gs objects table fs0 with
  | mk r fs1 =>
    rw [hcf] at hwr
    cases r with
    | error err => exact hwr
    | ok st1 =>
      exact buildRest_holds sys env table st1 fs1 _ contents (crux_ne_date sys env table) hwr

/-- Formatting the file at `q` leaves every other file as it is. -/
theorem runCommand_other (sys : Sys) (fs : FileSystem) (p q : String) (hpq : p ≠ q) :
    (runCommand sys fs ("go fmt " ++ q)).2.files p = fs.files p := by
  rw [runCommand_fmt]
  cases fs.files q with
  | none => rfl
  | some contents =>
    simp only
    cases sys.goFmt q contents with
    | error err => rfl
    | ok formatted => simp [hpq]

/-- A `go fmt` that returns no error has replaced the contents of the file by what
the formatter makes of them. -/
theorem runCommand_ok (sys : Sys) (fs : FileSystem) (q old : String)
    (hold : fs.files q = some old)
    (h : (runCommand sys fs ("go fmt " ++ q)).1 = none) :
    ∃ new, sys.goFmt q old = .ok new ∧
      (runCommand sys fs ("go fmt " ++ q)).2.files q = some new := by
  rw [runCommand_fmt] at h ⊢
  rw [hold] at h ⊢
  simp only at h ⊢
  cases hf : sys.goFmt q old with
  | error err => rw [hf] at h; exact absurd h (by simp)
  | ok formatted => exact ⟨formatted, rfl, by simp⟩

/-- Writing the file at `q` leaves every other file as it is. -/
theorem writeFile_other (sys : Sys) (fs : FileSystem) (p q contents : String)
    (overwrite : Bool) (hpq : p ≠ q) :
    (writeFile sys fs q contents overwrite).2.files p = fs.files p := by
  unfold writeFile
  cases sys.writeError q with
  | some err => rfl
  | none => simp [hpq]

/-- A write that returns no error has put the contents into the file. -/
theorem writeFile_ok (sys : Sys) (fs : FileSystem) (q contents : String) (overwrite : Bool)
    (h : (writeFile sys fs q contents overwrite).1 = none) :
    (writeFile sys fs q contents overwrite).2.files q = some contents := by
  unfold writeFile at h ⊢
  cases hw : sys.writeError q with
  | some err => rw [hw] at h; exact absurd h (by simp)
  | none => simp

/-- A write-once builder for `q` leaves every other file as it is. -/
theorem buildOnce_other (sys : Sys) (fs : FileSystem) (p q contents : String)
    (hpq : p ≠ q) : (buildOnce sys fs q contents).2.files p = fs.files p := by
  unfold buildOnce
  split
  · have hw := writeFile_other sys fs p q contents false hpq
    cases hwf : writeFile sys fs q contents false with
    | mk e fs1 =>
      rw [hwf] at hw
      simp only at hw
      cases e with
      | some err => exact hw
      | none => simp only; rw [runCommand_other sys fs1 p q hpq, hw]
  · exact runCommand_other sys fs p q hpq

/-- A write-once builder that returns no error for an existing file has not written
it but has replaced its contents by what `go fmt` makes of them. -/
theorem buildOnce_existing (sys : Sys) (fs : FileSystem) (q contents old : String)
    (hold : fs.files q = some old) (h : (buildOnce sys fs q contents).1 = none) :
    ∃ new, sys.goFmt q old = .ok new ∧ (buildOnce sys fs q contents).2.files q = some new := by
  have hex : pathExists fs q = true := by simp [pathExists, hold]
  unfold buildOnce at h ⊢
  simp only [hex, Bool.not_true, Bool.false_eq_true, if_false] at h ⊢
  exact runCommand_ok sys fs q old hold h

/-- Building the CRUX file leaves every other file as it is. -/
theorem buildCruxFile_other (sys : Sys) (env : Env) (gs : Gostruct)
    (objects : List TableObj) (table : String) (fs : FileSystem) (p : String)
    (hp : p ≠ cruxFilePath sys env table) :
    (buildCruxFile sys env gs objects table fs).2.files p = fs.files p := by
  unfold buildCruxFile
  cases buildCruxContents env gs table objects with
  | error err => rfl
  | ok r =>
    obtain ⟨contents, st⟩ := r
    simp only
    have hw := writeFile_other sys fs p (cruxFilePath sys env table) contents true hp
    cases hwf : writeFile sys fs (cruxFilePath sys env table) contents true with
    | mk e fs1 =>
      rw [hwf] at hw
      simp only at hw
      cases e with
      | some err => exact hw
      | none =>
        simp only
        have hr := runCommand_other sys fs1 p (cruxFilePath sys env table) hp
        cases hrc : runCommand sys fs1 ("go fmt " ++ cruxFilePath sys env table) with
        | mk e2 fs2 =>
          rw [hrc] at hr
          simp only at hr
          cases e2 <;> exact hr.trans hw

/-- A `buildCruxFile` that returns no error has generated the text, written it over
`CRUX_<Table>.go` and formatted it. -/
theorem buildCruxFile_ok (sys : Sys) (env : Env) (gs : Gostruct)
    (objects : List TableObj) (table : String) (fs : FileSystem) (st : CruxState)
    (fs1 : FileSystem) (h : buildCruxFile sys env gs objects table fs = (.ok st, fs1)) :
    ∃ contents formatted,
      buildCruxContents env gs table objects = .ok (contents, st) ∧
      sys.goFmt (cruxFilePath sys env table) contents = .ok formatted ∧
      fs1.files (cruxFilePath sys env table) = some formatted := by
  unfold buildCruxFile at h
  cases hc : buildCruxContents env gs table objects with
  | error err => rw [hc] at h; simp at h
  | ok r =>
    obtain ⟨contents, st0⟩ := r
    rw [hc] at h
    simp only at h
    cases hwf : writeFile sys fs (cruxFilePath sys env table) contents true with
    | mk e fs0 =>
      have hwok := writeFile_ok sys fs (cruxFilePath sys env table) contents true
      rw [hwf] at h hwok
      cases e with
      | some err => simp at h
      | none =>
        simp only at h
        have hfile : fs0.files (cruxFilePath sys env table) = some contents := hwok rfl
        have hrok := runCommand_ok sys fs0 (cruxFilePath sys env table) contents hfile
        cases hrc : runCommand sys fs0 ("go fmt " ++ cruxFilePath sys env table) with
        | mk e2 fs2 =>
          rw [hrc] at h hrok
          cases e2 with
          | some err => simp at h
          | none =>
            simp only [Prod.mk.injEq, Except.ok.injEq] at h
            obtain ⟨hst, hfs⟩ := h
            subst hst hfs
            obtain ⟨formatted, hfmt, hnew⟩ := hrok rfl
            exact ⟨contents, formatted, rfl, hfmt, hnew⟩

/-- Building the date package leaves every file but `date.go` as it is. -/
theorem buildDatePackage_other (sys : Sys) (fs : FileSystem) (p : String)
    (hp : p ≠ dateFilePath sys) : (buildDatePackage sys fs).2.files p = fs.files p := by
  unfold buildDatePackage
  have hmade : ∀ r : Option String × FileSystem, r.2.files = fs.files →
      (match r with
        | (some err, fs) => (some err, fs)
        | (none, fs) =>
          match writeFile sys fs (dateFilePath sys) dateContents false with
          | (some err, fs) => (some err, fs)
          | (none, fs) => runCommand sys fs ("go fmt " ++ dateFilePath sys)).2.files p
        = fs.files p := by
    rintro ⟨e, fs1⟩ hfiles
    simp only at hfiles
    cases e with
    | some err => simp only; rw [hfiles]
    | none =>
      simp only
      have hw := writeFile_other sys fs1 p (dateFilePath sys) dateContents false hp
      cases hwf : writeFile sys fs1 (dateFilePath sys) dateContents false with
      | mk e2 fs2 =>
        rw [hwf] at hw
        simp only at hw
        cases e2 with
        | some err => simp only; rw [hw, hfiles]
        | none => simp only; rw [runCommand_other sys fs2 p _ hp, hw, hfiles]
  by_cases hex : pathExists fs (sys.GOPATH ++ "/src/date") = true
  · simp only [hex, Bool.not_true, Bool.false_eq_true, if_false]
    exact hmade (none, fs) rfl
  · simp only [hex, Bool.not_false, if_true]
    exact hmade _ (CreateDirectory_files sys fs _)

/-- A run of the build steps that returns no error, taken apart into its steps. -/
theorem buildAll_ok (sys : Sys) (env : Env) (gs : Gostruct) (objects : List TableObj)
    (table : String) (fs : FileSystem)
    (h : (buildAll sys env gs objects table fs).1 = none) :
    ∃ fs0 st fs1 fs2 fs3 fs4 fs5,
      fs0.files = fs.files ∧
      buildCruxFile sys env gs objects table fs0 = (.ok st, fs1) ∧
      buildDaoFile sys env table fs1 = (none, fs2) ∧
      buildBoFile sys env table fs2 = (none, fs3) ∧
      buildTestFile sys env table fs3 = (none, fs4) ∧
      buildExamplesFile sys env table st fs4 = (none, fs5) ∧
      (buildAll sys env gs objects table fs).2 = (buildDatePackage sys fs5).2 := by
  unfold buildAll at h ⊢
  simp only at h ⊢
  have hfiles := tableDirStep_files sys fs (tableDir sys env table)
  generalize (if !pathExists fs (tableDir sys env table) then
        match osMkdir sys fs (tableDir sys env table) with
        | (some err, fs) => (some err, fs)
        | (none, fs) =>
          match osChmod sys (tableDir sys env table) with
          | some err => (some err, fs)
          | none => (none, fs)
      else ((none : Option String), fs)) = made at hfiles h ⊢
  obtain ⟨e0, fs0⟩ := made
  cases e0 with
  | some err => simp at h
  | none =>
    simp only at h hfiles ⊢
    obtain ⟨r, fs1, hcf⟩ : ∃ r fs1, buildCruxFile sys env gs objects table fs0 = (r, fs1) :=
      ⟨_, _, rfl⟩
    rw [hcf] at h ⊢
    cases r with
    | error err => simp at h
    | ok st =>
      simp only at h ⊢
      obtain ⟨e1, fs2, hd⟩ : ∃ e fs2, buildDaoFile sys env table fs1 = (e, fs2) := ⟨_, _, rfl⟩
      rw [hd] at h ⊢
      cases e1 with
      | some err => simp at h
      | none =>
        simp only at h ⊢
        obtain ⟨e2, fs3, hb⟩ : ∃ e fs3, buildBoFile sys env table fs2 = (e, fs3) := ⟨_, _, rfl⟩
        rw [hb] at h ⊢
        cases e2 with
        | some err => simp at h
        | none =>
          simp only at h ⊢
          obtain ⟨e3, fs4, ht⟩ : ∃ e fs4, buildTestFile sys env table fs3 = (e, fs4) :=
            ⟨_, _, rfl⟩
          rw [ht] at h ⊢
          cases e3 with
          | some err => simp at h
          | none =>
            simp only at h ⊢
            obtain ⟨e4, fs5, hx⟩ :
                ∃ e fs5, buildExamplesFile sys env table st fs4 = (e, fs5) := ⟨_, _, rfl⟩
            rw [hx] at h ⊢
            cases e4 with
            | some err => simp at h
            | none =>
              exact ⟨fs0, st, fs1, fs2, fs3, fs4, fs5, hfiles, hcf, hd, hb, ht, hx, rfl⟩

/-- The DAO file is none of the other custom files. -/
theorem dao_ne_others (sys : Sys) (env : Env) (table : String) :
    daoFilePath sys env table ≠ boFilePath sys env table ∧
    daoFilePath sys env table ≠ testFilePath sys env table ∧
    daoFilePath sys env table ≠ examplesFilePath sys env table := by
  refine ⟨?_, ?_, ?_⟩
  · intro h
    have h2 := congrArg String.data h
    simp only [daoFilePath, boFilePath, String.data_append, List.append_assoc,
      List.append_right_inj] at h2
    simp at h2
  · intro h
    have h2 := congrArg String.data h
    simp only [daoFilePath, testFilePath, String.data_append, List.append_assoc,
      List.append_right_inj] at h2
    have h3 := congrArg List.length h2
    simp at h3
  · intro h
    have h2 := congrArg String.data h
    simp only [daoFilePath, examplesFilePath, String.data_append, List.append_assoc,
      List.append_right_inj] at h2
    simp at h2

/-- The BO file is neither the test file nor the examples file. -/
theorem bo_ne_others (sys : Sys) (env : Env) (table : String) :
    boFilePath sys env table ≠ testFilePath sys env table ∧
    boFilePath sys env table ≠ examplesFilePath sys env table := by
  refine ⟨?_, ?_⟩
  · intro h
    have h2 := congrArg String.data h
    simp only [boFilePath, testFilePath, String.data_append, List.append_assoc,
      List.append_right_inj] at h2
    have h3 := congrArg List.length h2
    simp at h3
  · intro h
    have h2 := congrArg String.data h
    simp only [boFilePath, examplesFilePath, String.data_append, List.append_assoc,
      List.append_right_inj] at h2
    simp at h2

/-- One write-once step of a run: the file `p` it is for is formatted, every other
file is left as it is. -/
theorem buildOnce_step (sys : Sys) (fs fs' : FileSystem) (q contents : String)
    (h : buildOnce sys fs q contents = (none, fs')) :
    (∀ p, p ≠ q → fs'.files p = fs.files p) ∧
    (∀ old, fs.files q = some old →
      ∃ new, sys.goFmt q old = .ok new ∧ fs'.files q = some new) := by
  have h1 : (buildOnce sys fs q contents).1 = none := by rw [h]
  have h2 : (buildOnce sys fs q contents).2 = fs' := by rw [h]
  constructor
  · intro p hpq
    rw [← h2]
    exact buildOnce_other sys fs p q contents hpq
  · intro old hold
    rw [← h2]
    exact buildOnce_existing sys fs q contents old hold h1

/-- A run of the build steps that returns no error has formatted each existing
custom file exactly once, the test file and the examples file being two files, and
has left `CRUX_<Table>.go` with the formatted form of the newly generated text. -/
theorem buildAll_exact (sys : Sys) (env : Env) (gs : Gostruct) (objects : List TableObj)
    (table : String) (fs : FileSystem)
    (h : (buildAll sys env gs objects table fs).1 = none) :
    (testFilePath sys env table ≠ examplesFilePath sys env table →
      ∀ p ∈ customFiles sys env table, ∀ old, fs.files p = some old →
        ∃ new, sys.goFmt p old = .ok new ∧
          (buildAll sys env gs objects table fs).2.files p = some new) ∧
    ∃ contents st formatted,
      buildCruxContents env gs table objects = .ok (contents, st) ∧
      sys.goFmt (cruxFilePath sys env table) contents = .ok formatted ∧
      (buildAll sys env gs objects table fs).2.files (cruxFilePath sys env table)
        = some formatted := by
  obtain ⟨fs0, st, fs1, fs2, fs3, fs4, fs5, hfiles, hcf, hd, hb, ht, hx, hfin⟩ :=
    buildAll_ok sys env gs objects table fs h
  have hcrux : ∀ p, p ≠ cruxFilePath sys env table → fs1.files p = fs.files p := by
    intro p hp
    have := buildCruxFile_other sys env gs objects table fs0 p hp
    rw [hcf] at this
    simp only at this
    rw [this, hfiles]
  obtain ⟨hdo, hds⟩ := buildOnce_step sys fs1 fs2 _ _ hd
  obtain ⟨hbo, hbs⟩ := buildOnce_step sys fs2 fs3 _ _ hb
  obtain ⟨hto, hts⟩ := buildOnce_step sys fs3 fs4 _ _ ht
  obtain ⟨hxo, hxs⟩ := buildOnce_step sys fs4 fs5 _ _ hx
  have hdate : ∀ p, p ≠ dateFilePath sys →
      (buildAll sys env gs objects table fs).2.files p = fs5.files p := by
    intro p hp
    rw [hfin]
    exact buildDatePackage_other sys fs5 p hp
  obtain ⟨hdb, hdt, hdx⟩ := dao_ne_others sys env table
  obtain ⟨hbt, hbx⟩ := bo_ne_others sys env table
  constructor
  · intro htx p hp old hold
    have hpc := customFiles_ne_crux sys env table p hp
    have hpd := customFiles_ne_date sys env table p hp
    have h1 : fs1.files p = some old := by rw [hcrux p hpc, hold]
    simp only [customFiles, List.mem_cons, List.mem_singleton, List.not_mem_nil,
      or_false] at hp
    rcases hp with rfl | rfl | rfl | rfl
    · obtain ⟨new, hfmt, hnew⟩ := hds old h1
      refine ⟨new, hfmt, ?_⟩
      rw [hdate _ hpd, hxo _ hdx, hto _ hdt, hbo _ hdb, hnew]
    · have h2 : fs2.files (boFilePath sys env table) = some old := by
        rw [hdo _ (Ne.symm hdb), h1]
      obtain ⟨new, hfmt, hnew⟩ := hbs old h2
      refine ⟨new, hfmt, ?_⟩
      rw [hdate _ hpd, hxo _ hbx, hto _ hbt, hnew]
    · have h2 : fs3.files (testFilePath sys env table) = some old := by
        rw [hbo _ (Ne.symm hbt), hdo _ (Ne.symm hdt), h1]
      obtain ⟨new, hfmt, hnew⟩ := hts old h2
      refine ⟨new, hfmt, ?_⟩
      rw [hdate _ hpd, hxo _ htx, hnew]
    · have h2 : fs4.files (examplesFilePath sys env table) = some old := by
        rw [hto _ (Ne.symm htx), hbo _ (Ne.symm hbx), hdo _ (Ne.symm hdx), h1]
      obtain ⟨new, hfmt, hnew⟩ := hxs old h2
      refine ⟨new, hfmt, ?_⟩
      rw [hdate _ hpd, hnew]
  · obtain ⟨contents, formatted, hc, hfmt, hnew⟩ :=
      buildCruxFile_ok sys env gs objects table fs0 st fs1 hcf
    refine ⟨contents, st, formatted, hc, hfmt, ?_⟩
    have hne : ∀ p ∈ customFiles sys env table, cruxFilePath sys env table ≠ p :=
      fun p hp => Ne.symm (customFiles_ne_crux sys env table p hp)
    rw [hdate _ (crux_ne_date sys env table),
      hxo _ (hne _ (by simp [customFiles])), hto _ (hne _ (by simp [customFiles])),
      hbo _ (hne _ (by simp [customFiles])), hdo _ (hne _ (by simp [customFiles])), hnew]

/-- A call of `handleTable` for a table that is not yet processed returns no error
only if the column query gave rows and the build steps returned no error. -/
theorem handleTable_ok (sys : Sys) (env : Env) (gs : Gostruct) (table : String) (w : World)
    (hnew : table ∉ w.tablesDone) (h : (handleTable sys env gs table w).1 = none) :
    ∃ objects, sys.columns table = .ok objects ∧ objects ≠ [] ∧
      (buildAll sys env gs objects table w.fs).1 = none ∧
      (handleTable sys env gs table w).2.fs = (buildAll sys env gs objects table w.fs).2 := by
  have hin : inArray table w.tablesDone = false := by
    rw [Bool.eq_false_iff]
    exact fun hcon => hnew ((inArray_iff _ _).1 hcon)
  unfold handleTable at h ⊢
  simp only [hin, Bool.false_eq_true, if_false] at h ⊢
  cases hopen : sys.openError with
  | some err => rw [hopen] at h; simp at h
  | none =>
    rw [hopen] at h
    simp only at h ⊢
    cases hcols : sys.columns table with
    | error err => rw [hcols] at h; simp at h
    | ok objects =>
      rw [hcols] at h
      simp only at h ⊢
      by_cases hlen : objects.length = 0
      · simp [hlen] at h
      · simp only [hlen, if_false] at h ⊢
        exact ⟨objects, rfl, fun hc => hlen (by rw [hc]; rfl), h, rfl⟩

/-- C13 (amended). A generation run never writes generated text over an existing
custom file (`DAO_<Table>.go`, `BO_<Table>.go`, `<Table>_test.go`,
`examples_test.go`) but runs `go fmt` on it.  After a run for a table not yet
processed that returns no error, each existing custom file holds what `go fmt`
makes of its old contents (`<Table>_test.go` and `examples_test.go` being two
files), and `CRUX_<Table>.go`, whether or not it existed before, holds what
`go fmt` makes of the newly generated text.  After any run, also one that stops
with an error, an existing custom file holds its old contents or their formatted
form, and exactly its old contents when `go fmt` leaves them as they are; and
`CRUX_<Table>.go` holds the generated text or its formatted form once the text is
generated and the write has not failed. -/
theorem C13_regeneration (sys : Sys) (env : Env) (gs : Gostruct) (table : String)
    (w : World) :
    (table ∉ w.tablesDone → (handleTable sys env gs table w).1 = none →
      (testFilePath sys env table ≠ examplesFilePath sys env table →
        ∀ p ∈ customFiles sys env table, ∀ old, w.fs.files p = some old →
          ∃ new, sys.goFmt p old = .ok new ∧
            (handleTable sys env gs table w).2.fs.files p = some new) ∧
      ∃ objects contents st formatted,
        sys.columns table = .ok objects ∧
        buildCruxContents env gs table objects = .ok (contents, st) ∧
        sys.goFmt (cruxFilePath sys env table) contents = .ok formatted ∧
        (handleTable sys env gs table w).2.fs.files (cruxFilePath sys env table)
          = some formatted) ∧
    (∀ p ∈ customFiles sys env table, ∀ old, w.fs.files p = some old →
      HoldsFormatted sys p old (handleTable sys env gs table w).2.fs ∧
      ((∀ c, sys.goFmt p old = .ok c → c = old) →
        (handleTable sys env gs table w).2.fs.files p = some old)) ∧
    (∀ objects contents st, table ∉ w.tablesDone → sys.openError = none →
      sys.columns table = .ok objects → objects ≠ [] →
      (pathExists w.fs (tableDir sys env table) = true ∨
        (sys.mkdirError (tableDir sys env table) = none ∧
          sys.chmodError (tableDir sys env table) = none)) →
      buildCruxContents env gs table objects = .ok (contents, st) →
      sys.writeError (cruxFilePath sys env table) = none →
      HoldsFormatted sys (cruxFilePath sys env table) contents
        (handleTable sys env gs table w).2.fs) := by
  refine ⟨?_, ?_, ?_⟩
  · intro hnew hok
    obtain ⟨objects, hcols, -, hbuild, hfs⟩ := handleTable_ok sys env gs table w hnew hok
    obtain ⟨hcustom, contents, st, formatted, hc, hfmt, hfile⟩ :=
      buildAll_exact sys env gs objects table w.fs hbuild
    rw [hfs]
    exact ⟨hcustom, objects, contents, st, formatted, hcols, hc, hfmt, hfile⟩
  · intro p hp old hold
    have hh : HoldsFormatted sys p old (handleTable sys env gs table w).2.fs :=
      handleTable_holds sys env gs table w p old (customFiles_ne_crux sys env table p hp)
        (customFiles_ne_date sys env table p hp) ⟨old, hold, Relation.ReflTransGen.refl⟩
    refine ⟨hh, ?_⟩
    intro hfix
    obtain ⟨new, hnew, hreach⟩ := hh
    rw [hnew, FormattedFrom_fixed sys p old new hfix hreach]
  · intro objects contents st hnew hopen hcols hne hdir hc hw
    have hin : inArray table w.tablesDone = false := by
      rw [Bool.eq_false_iff]
      exact fun hcon => hnew ((inArray_iff _ _).1 hcon)
    have hlen : ¬ objects.length = 0 := by
      intro h0
      exact hne (List.length_eq_zero.1 h0)
    unfold handleTable
    simp only [hin, hopen, hcols, hlen, if_false, Bool.false_eq_true]
    exact buildAll_written sys env gs objects table w.fs contents st hdir hc hw

set_option maxRecDepth 100000 in
/-- Counterexample to C13 as stated: the four custom files of `pairs` exist and the
hand-written `DAO_Pairs.go` does not end in a newline.  `buildDaoFile` skips the
write but runs `go fmt` on the file (lines 633-636), and `go fmt` ends a file in a
newline; after the run, which returns no error, the contents of `DAO_Pairs.go` are
not what they were. -/
theorem C13_formatter_counterexample :
    (∀ p ∈ customFiles demoSys demoEnv "pairs", (customFs.files p).isSome = true) ∧
    customFs.files (daoFilePath demoSys demoEnv "pairs")
      = some "package Pairs\n\nfunc Mine() \x7b\x7d" ∧
    (handleTable demoSys demoEnv demoGs "pairs" (initWorld customFs)).1 = none ∧
    (handleTable demoSys demoEnv demoGs "pairs" (initWorld customFs)).2.fs.files
        (daoFilePath demoSys demoEnv "pairs")
      = some "package Pairs\n\nfunc Mine() \x7b\x7d\n" := by
  refine ⟨by decide, by decide, ?_, ?_⟩
  · rfl
  · rfl

set_option maxRecDepth 100000 in
/-- Witness for C13 (amended): over a file system with the four custom files of
`pairs` and a `CRUX_Pairs.go` of an earlier run, the run returns no error;
`DAO_Pairs.go` then holds its old contents with the newline `go fmt` adds,
`BO_Pairs.go`, which `go fmt` leaves as it is, holds its old contents, and
`CRUX_Pairs.go` holds what `go fmt` makes of the newly generated text. -/
theorem C13_regeneration_witness :
    staleFs.files (cruxFilePath demoSys demoEnv "pairs") = some "package Pairs\n//stale\n" ∧
    staleFs.files (daoFilePath demoSys demoEnv "pairs")
      = some "package Pairs\n\nfunc Mine() \x7b\x7d" ∧
    (handleTable demoSys demoEnv demoGs "pairs" (initWorld staleFs)).2.fs.files
        (daoFilePath demoSys demoEnv "pairs")
      = some "package Pairs\n\nfunc Mine() \x7b\x7d\n" ∧
    (handleTable demoSys demoEnv demoGs "pairs" (initWorld staleFs)).2.fs.files
        (boFilePath demoSys demoEnv "pairs")
      = some "package Pairs\n" ∧
    ∃ contents st formatted,
      buildCruxContents demoEnv demoGs "pairs" pairRows = .ok (contents, st) ∧
      fmtNewline (cruxFilePath demoSys demoEnv "pairs") contents = .ok formatted ∧
      (handleTable demoSys demoEnv demoGs "pairs" (initWorld staleFs)).2.fs.files
          (cruxFilePath demoSys demoEnv "pairs")
        = some formatted ∧
      formatted ≠ "package Pairs\n//stale\n" := by
  obtain ⟨hcustom, objects, contents, st, formatted, hcols, hc, hfmt, hfile⟩ :=
    (C13_regeneration demoSys demoEnv demoGs "pairs" (initWorld staleFs)).1 (by decide)
      (by rfl)
  have hobjects : objects = pairRows :=
    (Except.ok.inj ((rfl : demoSys.columns "pairs" = .ok pairRows).symm.trans hcols)).symm
  subst hobjects
  obtain ⟨newDao, hfd, hnd⟩ := hcustom (by decide) (daoFilePath demoSys demoEnv "pairs")
    (by decide) "package Pairs\n\nfunc Mine() \x7b\x7d" (by decide)
  obtain ⟨newBo, hfb, hnb⟩ := hcustom (by decide) (boFilePath demoSys demoEnv "pairs")
    (by decide) "package Pairs\n" (by decide)
  have hd : newDao = "package Pairs\n\nfunc Mine() \x7b\x7d\n" :=
    (Except.ok.inj ((rfl : demoSys.goFmt (daoFilePath demoSys demoEnv "pairs")
      "package Pairs\n\nfunc Mine() \x7b\x7d"
        = .ok "package Pairs\n\nfunc Mine() \x7b\x7d\n").symm.trans hfd)).symm
  have hb : newBo = "package Pairs\n" :=
    (Except.ok.inj ((rfl : demoSys.goFmt (boFilePath demoSys demoEnv "pairs")
      "package Pairs\n" = .ok "package Pairs\n").symm.trans hfb)).symm
  subst hd hb
  have hstale : (handleTable demoSys demoEnv demoGs "pairs" (initWorld staleFs)).2.fs.files
      (cruxFilePath demoSys demoEnv "pairs") ≠ some "package Pairs\n//stale\n" := by
    decide
  have hne : formatted ≠ "package Pairs\n//stale\n" := by
    intro hcon
    rw [hfile, hcon] at hstale
    exact hstale rfl
  exact ⟨by decide, by decide, hnd, hnb, contents, st, formatted, hc, hfmt, hfile, hne⟩

end Generate
